import Mathlib

/-!
# Traffic signal controller: embedding and verified properties

A shallow embedding of the C++ traffic management program (`TrafficLight`,
`Vehicle`, `TrafficSensor`, `Intersection`, `TrafficStats`, `TrafficController`)
followed by theorems about it.

Conventions of the embedding:

* Every method that reads `std::chrono::steady_clock::now()` takes the clock
  reading as an explicit argument `now` (an integer count of nanoseconds); one
  reading is used for the whole call. `Intersection.updateSignalsAt` keeps the
  readings of the nested `TrafficLight::update` and `changeState` calls apart,
  for the properties that depend on them (the remaining time of a light).
* `int` fields are `Int`. The counters of `TrafficStats`, which a client can
  bring to any `int` value with one call, wrap around at 32 bits (`wrapInt32`).
* `double` fields hold the rational a finite binary64 value denotes; the
  rounded result of each `double` operation is not computed here but taken from
  a parameter (`DoubleArith`).
* `std::vector` and `std::queue` are lists (front of a queue = head of the list).
* The function-local `static int phaseTimer` of `Intersection::switchToNextPhase`
  is process-wide state; it is threaded explicitly through every function that
  reaches `switchToNextPhase`.
-/

namespace Traffic

/-! ## TrafficLight.h -/

inductive TrafficState
  | RED
  | YELLOW
  | GREEN
  | FLASHING_RED
  | FLASHING_YELLOW
deriving DecidableEq, Repr

inductive Direction
  | NORTH
  | SOUTH
  | EAST
  | WEST
deriving DecidableEq, Repr, Fintype

/-- The value of `static_cast<int>(dir)`. -/
def Direction.toNat : Direction → Nat
  | .NORTH => 0
  | .SOUTH => 1
  | .EAST => 2
  | .WEST => 3

/-- The value of `static_cast<Direction>(i)`; an index outside `0..3` is no
named direction (no light or sensor carries it). -/
def Direction.ofIndex : Nat → Option Direction
  | 0 => some .NORTH
  | 1 => some .SOUTH
  | 2 => some .EAST
  | 3 => some .WEST
  | _ => none

/-- Whole seconds between two clock readings,
`duration_cast<seconds>(now - last).count()`: truncation toward zero. -/
def elapsedSeconds (now last : Int) : Int :=
  Int.tdiv (now - last) 1000000000

structure TrafficLight where
  state : TrafficState
  direction : Direction
  duration : Int
  timeLeft : Int
  emergencyMode : Bool
  lastUpdate : Int
deriving DecidableEq, Repr

/-- Constructor `TrafficLight(dir, initialState)`. -/
def TrafficLight.new (dir : Direction) (initialState : TrafficState) (now : Int) : TrafficLight :=
  { state := initialState, direction := dir, duration := 30, timeLeft := 30,
    emergencyMode := false, lastUpdate := now }

/-- The default duration chosen by the `switch` of `changeState`. -/
def defaultDuration : TrafficState → Int
  | .RED => 30
  | .YELLOW => 5
  | .GREEN => 25
  | .FLASHING_RED => 1
  | .FLASHING_YELLOW => 1

/-- Method `TrafficLight::changeState`. -/
def TrafficLight.changeState (l : TrafficLight) (newState : TrafficState) (now : Int) :
    TrafficLight :=
  { l with state := newState, duration := defaultDuration newState,
           timeLeft := defaultDuration newState, lastUpdate := now }

/-- Method `TrafficLight::update`. -/
def TrafficLight.update (l : TrafficLight) (now : Int) : TrafficLight :=
  if elapsedSeconds now l.lastUpdate ≥ 1 then
    { l with timeLeft := if l.timeLeft > 0 then l.timeLeft - 1 else l.timeLeft,
             lastUpdate := now }
  else l

/-- Method `TrafficLight::setDuration`. -/
def TrafficLight.setDuration (l : TrafficLight) (seconds : Int) : TrafficLight :=
  { l with duration := seconds, timeLeft := seconds }

/-- Method `TrafficLight::activateEmergency`. -/
def TrafficLight.activateEmergency (l : TrafficLight) (now : Int) : TrafficLight :=
  ({ l with emergencyMode := true } : TrafficLight).changeState .RED now

/-- Method `TrafficLight::deactivateEmergency`. -/
def TrafficLight.deactivateEmergency (l : TrafficLight) : TrafficLight :=
  { l with emergencyMode := false }

/-- Method `TrafficLight::isRed`. -/
def TrafficLight.isRed (l : TrafficLight) : Bool :=
  l.state = .RED || l.state = .FLASHING_RED

/-- Method `TrafficLight::isGreen`. -/
def TrafficLight.isGreen (l : TrafficLight) : Bool :=
  l.state = .GREEN

/-- Method `TrafficLight::isYellow`. -/
def TrafficLight.isYellow (l : TrafficLight) : Bool :=
  l.state = .YELLOW || l.state = .FLASHING_YELLOW

/-- Method `TrafficLight::canProceed`. -/
def TrafficLight.canProceed (l : TrafficLight) : Bool :=
  l.state = .GREEN

/-! ## Vehicle.h -/

inductive VehicleType
  | CAR
  | TRUCK
  | BUS
  | MOTORCYCLE
  | AMBULANCE
  | FIRE_TRUCK
  | POLICE
  | EMERGENCY
deriving DecidableEq, Repr

structure Vehicle where
  id : String
  type : VehicleType
  direction : Direction
  priority : Int
  arrivalTime : Int
  hasPassedIntersection : Bool
deriving DecidableEq, Repr

/-- The priority assigned by the `switch` of the `Vehicle` constructor. -/
def typePriority : VehicleType → Int
  | .AMBULANCE => 100
  | .FIRE_TRUCK => 100
  | .POLICE => 100
  | .EMERGENCY => 100
  | .BUS => 20
  | .TRUCK => 15
  | .CAR => 10
  | .MOTORCYCLE => 5

/-- Constructor `Vehicle(vehicleId, vehType, dir)`. -/
def Vehicle.new (vehicleId : String) (vehType : VehicleType) (dir : Direction) (now : Int) :
    Vehicle :=
  { id := vehicleId, type := vehType, direction := dir, priority := typePriority vehType,
    arrivalTime := now, hasPassedIntersection := false }

/-- Method `Vehicle::setPriority`. -/
def Vehicle.setPriority (v : Vehicle) (newPriority : Int) : Vehicle :=
  { v with priority := newPriority }

/-- Method `Vehicle::markAsPassed`. -/
def Vehicle.markAsPassed (v : Vehicle) : Vehicle :=
  { v with hasPassedIntersection := true }

/-- Method `Vehicle::isEmergencyVehicle`. -/
def Vehicle.isEmergencyVehicle (v : Vehicle) : Bool :=
  v.type = .AMBULANCE || v.type = .FIRE_TRUCK || v.type = .POLICE || v.type = .EMERGENCY

/-- Method `Vehicle::isCommercialVehicle`. -/
def Vehicle.isCommercialVehicle (v : Vehicle) : Bool :=
  v.type = .TRUCK || v.type = .BUS

/-- The comparison `Vehicle::operator<`. -/
def Vehicle.lt (v other : Vehicle) : Bool :=
  v.priority < other.priority

/-- The comparison `Vehicle::operator>`, the one `std::greater<Vehicle>` calls. -/
def Vehicle.gt (v other : Vehicle) : Bool :=
  v.priority > other.priority

/-! ## TrafficSensor.h -/

structure TrafficSensor where
  direction : Direction
  vehicleCount : Int
  lastDetection : Int
  isActive : Bool
  detectionRange : ℚ
deriving DecidableEq, Repr

/-- Constructor `TrafficSensor(dir, range = 50.0)`. -/
def TrafficSensor.new (dir : Direction) (now : Int) : TrafficSensor :=
  { direction := dir, vehicleCount := 0, lastDetection := now, isActive := true,
    detectionRange := 50 }

/-- Method `TrafficSensor::incrementCount`. -/
def TrafficSensor.incrementCount (sn : TrafficSensor) (now : Int) : TrafficSensor :=
  { sn with vehicleCount := sn.vehicleCount + 1, lastDetection := now }

/-! ## Intersection.h -/

/-- Assignment `m[k] = v` on a `std::map`, kept as an association list. -/
def mapAssign {κ ν : Type} [DecidableEq κ] (m : List (κ × ν)) (k : κ) (v : ν) : List (κ × ν) :=
  if m.any (fun p => p.1 = k) then m.map (fun p => if p.1 = k then (k, v) else p)
  else m ++ [(k, v)]

structure Intersection where
  id : String
  lights : List TrafficLight
  sensors : List TrafficSensor
  vehicleQueues : List (List Vehicle)
  emergencyMode : Bool
  cycleTime : Int
  currentPhase : Int
  lastUpdate : Int
  greenDuration : List (Direction × Int)
  yellowDuration : List (Direction × Int)
  redDuration : Int
deriving DecidableEq, Repr

/-- Constructor `Intersection(intersectionId)`: four empty lane queues and the
default timing configuration. -/
def Intersection.new (intersectionId : String) (now : Int) : Intersection :=
  { id := intersectionId, lights := [], sensors := [],
    vehicleQueues := [[], [], [], []],
    emergencyMode := false, cycleTime := 120, currentPhase := 0, lastUpdate := now,
    greenDuration :=
      mapAssign (mapAssign (mapAssign (mapAssign [] Direction.NORTH 30) Direction.SOUTH 30)
        Direction.EAST 25) Direction.WEST 25,
    yellowDuration :=
      mapAssign (mapAssign (mapAssign (mapAssign [] Direction.NORTH 5) Direction.SOUTH 5)
        Direction.EAST 5) Direction.WEST 5,
    redDuration := 2 }

/-- Method `Intersection::addTrafficLight`. -/
def Intersection.addTrafficLight (s : Intersection) (dir : Direction) (now : Int) :
    Intersection :=
  { s with lights := s.lights ++ [TrafficLight.new dir .RED now] }

/-- Method `Intersection::addTrafficSensor`. -/
def Intersection.addTrafficSensor (s : Intersection) (dir : Direction) (now : Int) :
    Intersection :=
  { s with sensors := s.sensors ++ [TrafficSensor.new dir now] }

/-- Method `Intersection::configureTiming`. -/
def Intersection.configureTiming (s : Intersection) (dir : Direction)
    (greenTime yellowTime : Int) : Intersection :=
  { s with greenDuration := mapAssign s.greenDuration dir greenTime,
           yellowDuration := mapAssign s.yellowDuration dir yellowTime }

/-- The sensor loop of `addVehicle`: the first sensor of the direction is
incremented, then `break`. -/
def incrementFirstSensor (dir : Direction) (now : Int) : List TrafficSensor → List TrafficSensor
  | [] => []
  | sn :: rest =>
    if sn.direction = dir then sn.incrementCount now :: rest
    else sn :: incrementFirstSensor dir now rest

/-- Method `Intersection::addVehicle`. -/
def Intersection.addVehicle (s : Intersection) (vehicle : Vehicle) (now : Int) : Intersection :=
  let dirIndex := vehicle.direction.toNat
  if dirIndex < s.vehicleQueues.length then
    { s with vehicleQueues := s.vehicleQueues.modify (fun q => q ++ [vehicle]) dirIndex,
             sensors := incrementFirstSensor vehicle.direction now s.sensors }
  else s

/-- Body of the loop of `processVehicleQueues` for lane `i`: the new content of
that lane. -/
def drainLane (lights : List TrafficLight) (i : Nat) (q : List Vehicle) : List Vehicle :=
  if !q.isEmpty then
    match Direction.ofIndex i with
    | some dir =>
      match lights.find? (fun light => light.direction = dir) with
      | some light =>
        if light.canProceed then
          if !q.isEmpty then q.tail else q
        else q
      | none => q
    | none => q
  else q

/-- The loop `for (i = 0; i < vehicleQueues.size(); ++i)` of
`processVehicleQueues`, from index `i` on. -/
def processQueuesFrom (lights : List TrafficLight) : Nat → List (List Vehicle) → List (List Vehicle)
  | _, [] => []
  | i, q :: rest => drainLane lights i q :: processQueuesFrom lights (i + 1) rest

/-- Method `Intersection::processVehicleQueues`. -/
def Intersection.processVehicleQueues (s : Intersection) : Intersection :=
  { s with vehicleQueues := processQueuesFrom s.lights 0 s.vehicleQueues }

/-- Method `Intersection::removeVehicle`: the returned vehicle and the new state. -/
def Intersection.removeVehicle (s : Intersection) (dir : Direction) (now : Int) :
    Vehicle × Intersection :=
  let dirIndex := dir.toNat
  match s.vehicleQueues[dirIndex]? with
  | some (vehicle :: rest) => (vehicle, { s with vehicleQueues := s.vehicleQueues.set dirIndex rest })
  | _ => (Vehicle.new "NONE" .CAR dir now, s)

/-- Method `Intersection::switchToNextPhase`; `phaseTimer` is the function's
`static int`, returned with the new state. The one reading `now` stands for
the readings the `changeState` calls take (each its own in
`switchToNextPhaseAt`); it reaches only the `lastUpdate` of the lights. -/
def Intersection.switchToNextPhase (s : Intersection) (phaseTimer : Int) (now : Int) :
    Intersection × Int :=
  let phaseTimer := phaseTimer + 1
  if phaseTimer ≥ 35 then
    let currentPhase := Int.tmod (s.currentPhase + 1) 2
    let phaseTimer := 0
    if currentPhase = 0 then
      ({ s with currentPhase := currentPhase,
                lights := s.lights.map (fun light =>
                  if light.direction = .NORTH ∨ light.direction = .SOUTH then
                    light.changeState .GREEN now
                  else light.changeState .RED now) }, phaseTimer)
    else
      ({ s with currentPhase := currentPhase,
                lights := s.lights.map (fun light =>
                  if light.direction = .EAST ∨ light.direction = .WEST then
                    light.changeState .GREEN now
                  else light.changeState .RED now) }, phaseTimer)
  else if phaseTimer = 30 then
    ({ s with lights := s.lights.map (fun light =>
                if light.state = .GREEN then light.changeState .YELLOW now else light) },
     phaseTimer)
  else (s, phaseTimer)

/-- Method `Intersection::updateSignals`, with the static phase timer threaded.
The reading `now` of the call also stands for the readings the nested
`TrafficLight::update` and `changeState` calls take a little later (each its
own in `updateSignalsAt`); these reach only `lastUpdate` and `timeLeft` of the
lights, not their colours, the phase or the queues. -/
def Intersection.updateSignals (s : Intersection) (phaseTimer : Int) (now : Int) :
    Intersection × Int :=
  let elapsed := elapsedSeconds now s.lastUpdate
  let r : Intersection × Int :=
    if elapsed ≥ 1 then
      let s1 : Intersection := { s with lights := s.lights.map (fun light => light.update now) }
      let r1 : Intersection × Int :=
        if !s1.emergencyMode then s1.switchToNextPhase phaseTimer now else (s1, phaseTimer)
      ({ r1.1 with lastUpdate := now }, r1.2)
    else (s, phaseTimer)
  (r.1.processVehicleQueues, r.2)

/-- The second loop of `handleEmergencyVehicle`: the first light of the
emergency direction turns GREEN, then `break`. -/
def setFirstGreen (emergencyDir : Direction) (now : Int) : List TrafficLight → List TrafficLight
  | [] => []
  | light :: rest =>
    if light.direction = emergencyDir then light.changeState .GREEN now :: rest
    else light :: setFirstGreen emergencyDir now rest

/-- Method `Intersection::handleEmergencyVehicle`. -/
def Intersection.handleEmergencyVehicle (s : Intersection) (emergencyDir : Direction)
    (now : Int) : Intersection :=
  { s with emergencyMode := true,
           lights := setFirstGreen emergencyDir now
             (s.lights.map (fun light => (light.activateEmergency now).changeState .RED now)) }

/-- Method `Intersection::normalOperation`. -/
def Intersection.normalOperation (s : Intersection) : Intersection :=
  { s with emergencyMode := false,
           lights := s.lights.map (fun light => light.deactivateEmergency),
           currentPhase := 0 }

/-- Method `Intersection::getQueueLength`. -/
def Intersection.getQueueLength (s : Intersection) (dir : Direction) : Int :=
  let dirIndex := dir.toNat
  if dirIndex < s.vehicleQueues.length then
    ((s.vehicleQueues.getD dirIndex []).length : Int)
  else 0

/-- Method `Intersection::getQueue`. -/
def Intersection.getQueue (s : Intersection) (dir : Direction) : List Vehicle :=
  s.vehicleQueues.getD dir.toNat []

/-- Method `Intersection::getTotalVehicleCount`. -/
def Intersection.getTotalVehicleCount (s : Intersection) : Int :=
  s.vehicleQueues.foldl (fun total queue => total + (queue.length : Int)) 0

/-- Method `Intersection::clearQueues`. -/
def Intersection.clearQueues (s : Intersection) : Intersection :=
  { s with vehicleQueues := s.vehicleQueues.map (fun _ => []) }

/-! ## TrafficStats.h -/

structure TrafficStats where
  totalVehicles : Int
  emergencyVehicles : Int
  totalWaitTime : ℚ
  processedVehicles : Int
  startTime : Int
  vehiclesByDirection : List (String × Int)
  avgWaitByDirection : List (String × ℚ)
  throughputByDirection : List (String × Int)
  systemEfficiency : ℚ
  totalCycles : Int
  emergencyOverrides : Int
deriving DecidableEq, Repr

/-- The `int` value an arithmetic result `x` is stored as: `x` itself inside
the 32-bit range, two's-complement wrap-around outside it (what the target
does where the language leaves signed overflow undefined), so that
`2147483647 + 1` is stored as `-2147483648`. -/
def wrapInt32 (x : Int) : Int :=
  (x + 2147483648) % 4294967296 - 2147483648

/-- The binary64 operations of the target on finite values: the sum, product
and quotient as the hardware rounds them. -/
structure DoubleArith where
  add : ℚ → ℚ → ℚ
  mul : ℚ → ℚ → ℚ
  div : ℚ → ℚ → ℚ

/-- Arithmetic without rounding: every operation returns the exact result. -/
def DoubleArith.exact : DoubleArith :=
  { add := fun a b => a + b, mul := fun a b => a * b, div := fun a b => a / b }

/-- Constructor `TrafficStats()`. -/
def TrafficStats.new (now : Int) : TrafficStats :=
  { totalVehicles := 0, emergencyVehicles := 0, totalWaitTime := 0, processedVehicles := 0,
    startTime := now, vehiclesByDirection := [], avgWaitByDirection := [],
    throughputByDirection := [], systemEfficiency := 0, totalCycles := 0,
    emergencyOverrides := 0 }

/-- Method `TrafficStats::updateVehicleCount`. -/
def TrafficStats.updateVehicleCount (st : TrafficStats) (count : Int) : TrafficStats :=
  { st with totalVehicles := wrapInt32 (st.totalVehicles + count) }

/-- Method `TrafficStats::updateEmergencyCount`. -/
def TrafficStats.updateEmergencyCount (st : TrafficStats) (count : Int) : TrafficStats :=
  { st with emergencyVehicles := wrapInt32 (st.emergencyVehicles + count) }

/-- Method `TrafficStats::updateCycleCount`. -/
def TrafficStats.updateCycleCount (st : TrafficStats) : TrafficStats :=
  { st with totalCycles := wrapInt32 (st.totalCycles + 1) }

/-- Method `TrafficStats::updateEmergencyOverride`. -/
def TrafficStats.updateEmergencyOverride (st : TrafficStats) : TrafficStats :=
  { st with emergencyOverrides := wrapInt32 (st.emergencyOverrides + 1) }

/-! ## TrafficController.h -/

/-- The call `top()` on `std::priority_queue<Vehicle, std::vector<Vehicle>,
std::greater<Vehicle>>`, the queue being kept as the list of its elements in
insertion order: an element `t` such that the comparator `t > x` holds for no
element `x` of the queue. Which of several such elements (equal priorities)
the library returns depends on its heap layout and is not modelled: the list
model takes the earliest inserted one. Auxiliary lemmas speak of the model's
own order (`popOrder`); the properties stated of the program hold for every
order among equal priorities. -/
def pqTop (q : List Vehicle) : Option Vehicle :=
  q.find? (fun t => q.all (fun x => !(t.gt x)))

/-- The call `pop()` on the priority queue: the element `top()` returns leaves. -/
def pqPop (q : List Vehicle) : List Vehicle :=
  q.eraseP (fun t => q.all (fun x => !(t.gt x)))

/-- The call `push(v)` on the priority queue. -/
def pqPush (q : List Vehicle) (v : Vehicle) : List Vehicle :=
  q ++ [v]

structure TrafficController where
  intersections : List Intersection
  emergencyQueue : List Vehicle
  statistics : TrafficStats
  running : Bool
  emergencyActive : Bool
  simulationSpeed : Int
  realTimeMode : Bool
  systemStartTime : Int
deriving DecidableEq, Repr

/-- Constructor `TrafficController()`. -/
def TrafficController.new (now : Int) : TrafficController :=
  { intersections := [], emergencyQueue := [], statistics := TrafficStats.new now,
    running := false, emergencyActive := false, simulationSpeed := 1, realTimeMode := true,
    systemStartTime := now }

/-- The intersection `addIntersection` builds before it stores it: four lights
and four sensors, one per direction. -/
def newIntersection (id : String) (now : Int) : Intersection :=
  let intersection := Intersection.new id now
  let intersection := intersection.addTrafficLight .NORTH now
  let intersection := intersection.addTrafficLight .SOUTH now
  let intersection := intersection.addTrafficLight .EAST now
  let intersection := intersection.addTrafficLight .WEST now
  let intersection := intersection.addTrafficSensor .NORTH now
  let intersection := intersection.addTrafficSensor .SOUTH now
  let intersection := intersection.addTrafficSensor .EAST now
  let intersection := intersection.addTrafficSensor .WEST now
  intersection

/-- Method `TrafficController::addIntersection`. -/
def TrafficController.addIntersection (c : TrafficController) (id : String) (now : Int) :
    TrafficController :=
  { c with intersections := c.intersections ++ [newIntersection id now] }

/-- Method `TrafficController::getIntersection`. -/
def TrafficController.getIntersection (c : TrafficController) (id : String) :
    Option Intersection :=
  c.intersections.find? (fun intersection => intersection.id = id)

/-- Method `TrafficController::handleEmergencyVehicle`. -/
def TrafficController.handleEmergencyVehicle (c : TrafficController) (emergency : Vehicle)
    (now : Int) : TrafficController :=
  if emergency.isEmergencyVehicle then
    { c with
      emergencyQueue := pqPush c.emergencyQueue emergency,
      emergencyActive := true,
      intersections :=
        match c.intersections with
        | [] => []
        | first :: rest => first.handleEmergencyVehicle emergency.direction now :: rest,
      statistics := (c.statistics.updateEmergencyCount 1).updateEmergencyOverride }
  else c

/-- Method `TrafficController::clearEmergencyMode`. -/
def TrafficController.clearEmergencyMode (c : TrafficController) : TrafficController :=
  { c with emergencyActive := false,
           intersections := c.intersections.map (fun intersection => intersection.normalOperation) }

/-- The `while` loop of `processEmergencyQueue`, run for at most `fuel`
iterations; each iteration removes one vehicle from the queue. -/
def processEmergencyLoop : Nat → TrafficController → Int → TrafficController
  | 0, c, _ => c
  | fuel + 1, c, now =>
    if !c.emergencyQueue.isEmpty && c.emergencyActive then
      match pqTop c.emergencyQueue with
      | none => c
      | some emergency =>
        let c1 : TrafficController :=
          { c with emergencyQueue := pqPop c.emergencyQueue,
                   intersections := c.intersections.map
                     (fun intersection => intersection.addVehicle emergency now) }
        let c2 := if c1.emergencyQueue.isEmpty then c1.clearEmergencyMode else c1
        processEmergencyLoop fuel c2 now
    else c

/-- Method `TrafficController::processEmergencyQueue`: the loop, with as many
iterations allowed as the queue has vehicles. -/
def TrafficController.processEmergencyQueue (c : TrafficController) (now : Int) :
    TrafficController :=
  processEmergencyLoop c.emergencyQueue.length c now

/-- The loop of `updateAllIntersections`: each intersection's `updateSignals`
in turn, all sharing the one static phase timer. -/
def updateEach (now : Int) : List Intersection → Int → List Intersection × Int
  | [], phaseTimer => ([], phaseTimer)
  | intersection :: rest, phaseTimer =>
    let r := intersection.updateSignals phaseTimer now
    let rs := updateEach now rest r.2
    (r.1 :: rs.1, rs.2)

/-- Method `TrafficController::updateAllIntersections`, with the static phase
timer threaded. -/
def TrafficController.updateAllIntersections (c : TrafficController) (phaseTimer : Int)
    (now : Int) : TrafficController × Int :=
  let r := updateEach now c.intersections phaseTimer
  ({ c with intersections := r.1, statistics := c.statistics.updateCycleCount }, r.2)

/-! ## Runs of a single intersection -/

/-- One intersection together with the static phase timer. -/
structure Sim where
  inter : Intersection
  phaseTimer : Int
deriving DecidableEq, Repr

/-- The calls a client makes on an intersection. -/
inductive Op
  | add (vehicle : Vehicle) (now : Int)
  | update (now : Int)
  | override (dir : Direction) (now : Int)
  | normal
deriving DecidableEq, Repr

/-- Whether the call is `handleEmergencyVehicle`. -/
def Op.isOverride : Op → Bool
  | .override _ _ => true
  | _ => false

/-- Effect of one call. -/
def Sim.step (w : Sim) : Op → Sim
  | .add vehicle now => { w with inter := w.inter.addVehicle vehicle now }
  | .update now =>
    let r := w.inter.updateSignals w.phaseTimer now
    { inter := r.1, phaseTimer := r.2 }
  | .override dir now => { w with inter := w.inter.handleEmergencyVehicle dir now }
  | .normal => { w with inter := w.inter.normalOperation }

/-- Effect of a sequence of calls, first call first. -/
def Sim.run (w : Sim) (ops : List Op) : Sim :=
  ops.foldl Sim.step w

/-- A freshly added intersection (what `addIntersection` stores) in a process
whose phase timer still has its initial value 0. -/
def freshSim (id : String) (now : Int) : Sim :=
  { inter := newIntersection id now, phaseTimer := 0 }

/-- The light `find_if` finds for a direction. -/
def lightOf (s : Intersection) (dir : Direction) : Option TrafficLight :=
  s.lights.find? (fun light => light.direction = dir)

/-- The state of the light of a direction. -/
def stateOf (s : Intersection) (dir : Direction) : Option TrafficState :=
  (lightOf s dir).map (fun light => light.state)

/-- The light of the direction is GREEN or YELLOW. -/
def activeLight (s : Intersection) (dir : Direction) : Prop :=
  stateOf s dir = some .GREEN ∨ stateOf s dir = some .YELLOW

/-- The light of the direction is RED. -/
def redLight (s : Intersection) (dir : Direction) : Prop :=
  stateOf s dir = some .RED

/-- Exactly one of the groups NORTH/SOUTH and EAST/WEST has both lights in
GREEN or YELLOW, and the other group has both lights RED. -/
def onePhaseGroupActive (s : Intersection) : Prop :=
  (activeLight s .NORTH ∧ activeLight s .SOUTH ∧ redLight s .EAST ∧ redLight s .WEST) ∨
  (redLight s .NORTH ∧ redLight s .SOUTH ∧ activeLight s .EAST ∧ activeLight s .WEST)

instance (s : Intersection) (dir : Direction) : Decidable (activeLight s dir) := by
  unfold activeLight; infer_instance

instance (s : Intersection) (dir : Direction) : Decidable (redLight s dir) := by
  unfold redLight; infer_instance

instance (s : Intersection) : Decidable (onePhaseGroupActive s) := by
  unfold onePhaseGroupActive; infer_instance

/-- Every direction has exactly one light. -/
def oneLightPerDirection (s : Intersection) : Prop :=
  ∀ dir : Direction, (s.lights.filter (fun light => light.direction = dir)).length = 1

instance (s : Intersection) : Decidable (oneLightPerDirection s) := by
  unfold oneLightPerDirection; infer_instance

/-- Repeated `switchToNextPhase`, one call per clock reading of the list. -/
def switchTicks (s : Intersection) (phaseTimer : Int) : List Int → Intersection × Int
  | [] => (s, phaseTimer)
  | now :: rest =>
    let r := s.switchToNextPhase phaseTimer now
    switchTicks r.1 r.2 rest

/-- Repeated `updateSignals`, one call per clock reading of the list. -/
def updateTicks (s : Intersection) (phaseTimer : Int) : List Int → Intersection × Int
  | [] => (s, phaseTimer)
  | now :: rest =>
    let r := s.updateSignals phaseTimer now
    updateTicks r.1 r.2 rest

/-- Whether the light `processVehicleQueues` finds for the direction lets
vehicles proceed (no light found: no). -/
def laneGreen (s : Intersection) (dir : Direction) : Bool :=
  match lightOf s dir with
  | some light => light.canProceed
  | none => false

/-- Successive `addVehicle` calls, one per listed vehicle and clock reading. -/
def addAll (s : Intersection) : List (Vehicle × Int) → Intersection
  | [] => s
  | (vehicle, now) :: rest => addAll (s.addVehicle vehicle now) rest

/-- The vehicles returned by `n` successive `removeVehicle(dir)` calls, and the
state they leave. -/
def removeN (s : Intersection) (dir : Direction) (now : Int) : Nat → List Vehicle × Intersection
  | 0 => ([], s)
  | n + 1 =>
    let r := s.removeVehicle dir now
    let rs := removeN r.2 dir now n
    (r.1 :: rs.1, rs.2)

/-- The state after `n` successive `processVehicleQueues` calls. -/
def processN (s : Intersection) : Nat → Intersection
  | 0 => s
  | n + 1 => processN s.processVehicleQueues n

/-- The lights are those of directions NORTH, SOUTH, EAST, WEST in this order
(as `addIntersection` adds them), the intersection is not in emergency mode,
and one group is wholly GREEN or wholly YELLOW while the other is RED. -/
def phasePattern (s : Intersection) : Prop :=
  s.emergencyMode = false ∧
  s.lights.map (fun light => light.direction)
    = [Direction.NORTH, Direction.SOUTH, Direction.EAST, Direction.WEST] ∧
  (s.lights.map (fun light => light.state)
      = [TrafficState.GREEN, TrafficState.GREEN, TrafficState.RED, TrafficState.RED] ∨
   s.lights.map (fun light => light.state)
      = [TrafficState.YELLOW, TrafficState.YELLOW, TrafficState.RED, TrafficState.RED] ∨
   s.lights.map (fun light => light.state)
      = [TrafficState.RED, TrafficState.RED, TrafficState.GREEN, TrafficState.GREEN] ∨
   s.lights.map (fun light => light.state)
      = [TrafficState.RED, TrafficState.RED, TrafficState.YELLOW, TrafficState.YELLOW])

instance (s : Intersection) : Decidable (phasePattern s) := by
  unfold phasePattern; infer_instance

/-- Number of calls of a run of `updateSignals` calls at whose drain the light
of the direction lets vehicles proceed. -/
def greenCalls (s : Intersection) (phaseTimer : Int) (dir : Direction) : List Int → Nat
  | [] => 0
  | now :: rest =>
    let r := s.updateSignals phaseTimer now
    (if laneGreen r.1 dir then 1 else 0) + greenCalls r.1 r.2 dir rest

/-! ## Concrete scenarios -/

/-- Calls of `updateSignals` at seconds 1, 2, ..., `n` of the clock. -/
def tickOps (n : Nat) : List Op :=
  (List.range n).map (fun i => Op.update ((i + 1 : Nat) * 1000000000))

/-- A car heading EAST that arrives at second 35.2. -/
def carEast : Vehicle := Vehicle.new "V1" .CAR .EAST 35200000000

/-- A second car heading EAST. -/
def carEast2 : Vehicle := Vehicle.new "V2" .CAR .EAST 35300000000

/-- A truck heading NORTH. -/
def truckNorth : Vehicle := Vehicle.new "V3" .TRUCK .NORTH 35250000000

/-- A fresh intersection after 35 ticks (first phase toggle: EAST/WEST GREEN) and
the admission of one car heading EAST. -/
def simAfterToggle : Sim :=
  (freshSim "I1" 0).run (tickOps 35 ++ [Op.add carEast 35200000000])

/-- A fresh intersection put in override for NORTH. -/
def overrideNorth : Intersection :=
  (newIntersection "I1" 0).handleEmergencyVehicle .NORTH 0

/-- Emergency vehicle A, priority 100. -/
def vehicleA : Vehicle := Vehicle.new "A" .AMBULANCE .NORTH 1

/-- Emergency vehicle B, priority 100. -/
def vehicleB : Vehicle := Vehicle.new "B" .AMBULANCE .NORTH 2

/-- Emergency vehicle C, its priority set to 5. -/
def vehicleC : Vehicle := (Vehicle.new "C" .AMBULANCE .NORTH 3).setPriority 5

/-- A controller with one intersection to which A, B and C were handed in this
order. -/
def controllerABC : TrafficController :=
  ((((TrafficController.new 0).addIntersection "I1" 0).handleEmergencyVehicle vehicleA 1
    ).handleEmergencyVehicle vehicleB 2).handleEmergencyVehicle vehicleC 3
/-! ## Further operations -/

/-- Lookup `m.find(k)` on a `std::map` kept as an association list: the value
stored under the key, if any. -/
def mapFind? {κ ν : Type} [DecidableEq κ] (m : List (κ × ν)) (k : κ) : Option ν :=
  (m.find? (fun p => p.1 = k)).map (fun p => p.2)

/-- Value read by `m[k]` on a `std::map`: the stored value, or the
value-initialised default `d` the access inserts when the key is absent. -/
def mapGetD {κ ν : Type} [DecidableEq κ] (m : List (κ × ν)) (k : κ) (d : ν) : ν :=
  (mapFind? m k).getD d

/-- Method `TrafficStats::updateWaitTime`; `fp` is the `double` arithmetic. -/
def TrafficStats.updateWaitTime (fp : DoubleArith) (st : TrafficStats) (waitTime : ℚ) :
    TrafficStats :=
  { st with totalWaitTime := fp.add st.totalWaitTime waitTime,
            processedVehicles := wrapInt32 (st.processedVehicles + 1) }

/-- Method `TrafficStats::updateDirectionStats`; `fp` is the `double`
arithmetic, the `int` operands `count - 1` and `count` being converted to
`double` without loss. -/
def TrafficStats.updateDirectionStats (fp : DoubleArith) (st : TrafficStats)
    (direction : String) (waitTime : ℚ) : TrafficStats :=
  let vehiclesByDirection :=
    mapAssign st.vehiclesByDirection direction
      (wrapInt32 (mapGetD st.vehiclesByDirection direction 0 + 1))
  let currentAvg : ℚ := mapGetD st.avgWaitByDirection direction 0
  let count : Int := mapGetD vehiclesByDirection direction 0
  let avgWaitByDirection :=
    mapAssign st.avgWaitByDirection direction
      (fp.div (fp.add (fp.mul currentAvg ((wrapInt32 (count - 1) : Int) : ℚ)) waitTime)
        (count : ℚ))
  let throughputByDirection :=
    mapAssign st.throughputByDirection direction
      (wrapInt32 (mapGetD st.throughputByDirection direction 0 + 1))
  { st with vehiclesByDirection := vehiclesByDirection,
            avgWaitByDirection := avgWaitByDirection,
            throughputByDirection := throughputByDirection }

/-- Method `TrafficStats::getVehiclesByDirection`. -/
def TrafficStats.getVehiclesByDirection (st : TrafficStats) (direction : String) : Int :=
  match mapFind? st.vehiclesByDirection direction with
  | some v => v
  | none => 0

/-- Method `TrafficStats::getAvgWaitByDirection`. -/
def TrafficStats.getAvgWaitByDirection (st : TrafficStats) (direction : String) : ℚ :=
  match mapFind? st.avgWaitByDirection direction with
  | some v => v
  | none => 0

/-- Method `TrafficStats::getThroughputByDirection`. -/
def TrafficStats.getThroughputByDirection (st : TrafficStats) (direction : String) : Int :=
  match mapFind? st.throughputByDirection direction with
  | some v => v
  | none => 0

/-- The intersection `getIntersection(id)` points to, replaced in place by its
image under `f`; nothing changes when no intersection has the id. -/
def modifyIntersection (id : String) (f : Intersection → Intersection) :
    List Intersection → List Intersection
  | [] => []
  | intersection :: rest =>
    if intersection.id = id then f intersection :: rest
    else intersection :: modifyIntersection id f rest

/-- Method `TrafficController::configureIntersection`. -/
def TrafficController.configureIntersection (c : TrafficController) (id : String)
    (dir : Direction) (greenTime yellowTime : Int) : TrafficController :=
  let configured := modifyIntersection id
    (fun intersection => intersection.configureTiming dir greenTime yellowTime) c.intersections
  { c with intersections := configured }

/-- Method `TrafficController::removeIntersection`. -/
def TrafficController.removeIntersection (c : TrafficController) (id : String) :
    TrafficController :=
  { c with intersections := c.intersections.filter (fun intersection => !(intersection.id = id)) }

/-- Repeated `updateAllIntersections`, one round per clock reading of the list. -/
def updateRounds (c : TrafficController) (phaseTimer : Int) : List Int → TrafficController × Int
  | [] => (c, phaseTimer)
  | now :: rest =>
    let r := c.updateAllIntersections phaseTimer now
    updateRounds r.1 r.2 rest

/-- Clock readings at seconds 1, 2, ..., `n`. -/
def secondsUpTo (n : Nat) : List Int :=
  (List.range n).map (fun i => ((i + 1 : Nat) : Int) * 1000000000)

/-- A controller owning two freshly added intersections X and Y. -/
def controllerXY : TrafficController :=
  ((TrafficController.new 0).addIntersection "X" 0).addIntersection "Y" 0

/-- A RED light of direction NORTH with 30 seconds left, last updated at clock 0. -/
def lightNorth : TrafficLight := TrafficLight.new .NORTH .RED 0

/-- A fresh intersection on which `configureTiming(NORTH, 40, 5)` was called. -/
def simConfigured : Sim :=
  { inter := (newIntersection "I1" 0).configureTiming .NORTH 40 5, phaseTimer := 0 }

/-! ## Statistics lifecycle, sensors and light histories -/

/-- Method `TrafficStats::updateSystemEfficiency`. -/
def TrafficStats.updateSystemEfficiency (st : TrafficStats) (efficiency : ℚ) : TrafficStats :=
  { st with systemEfficiency := efficiency }

/-- Method `TrafficStats::getAverageWaitTime`; `fp` is the `double` arithmetic. -/
def TrafficStats.getAverageWaitTime (fp : DoubleArith) (st : TrafficStats) : ℚ :=
  if st.processedVehicles > 0 then fp.div st.totalWaitTime (st.processedVehicles : ℚ) else 0

/-- Method `TrafficStats::reset`. -/
def TrafficStats.reset (st : TrafficStats) (now : Int) : TrafficStats :=
  { st with totalVehicles := 0, emergencyVehicles := 0, totalWaitTime := 0,
            processedVehicles := 0, systemEfficiency := 0, totalCycles := 0,
            emergencyOverrides := 0, vehiclesByDirection := [], avgWaitByDirection := [],
            throughputByDirection := [], startTime := now }

/-- The mutating calls a client makes on the statistics. -/
inductive StatsOp
  | vehicleCount (count : Int)
  | emergencyCount (count : Int)
  | waitTime (waitTime : ℚ)
  | directionStats (direction : String) (waitTime : ℚ)
  | systemEfficiency (efficiency : ℚ)
  | cycleCount
  | emergencyOverride
  | reset (now : Int)
deriving DecidableEq, Repr

/-- Whether the call is `updateDirectionStats` with the given key. -/
def StatsOp.recordsKey (key : String) : StatsOp → Bool
  | .directionStats direction _ => direction = key
  | _ => false

/-- Effect of one call on the statistics; `fp` is the `double` arithmetic. -/
def TrafficStats.step (fp : DoubleArith) (st : TrafficStats) : StatsOp → TrafficStats
  | .vehicleCount count => st.updateVehicleCount count
  | .emergencyCount count => st.updateEmergencyCount count
  | .waitTime waitTime => st.updateWaitTime fp waitTime
  | .directionStats direction waitTime => st.updateDirectionStats fp direction waitTime
  | .systemEfficiency efficiency => st.updateSystemEfficiency efficiency
  | .cycleCount => st.updateCycleCount
  | .emergencyOverride => st.updateEmergencyOverride
  | .reset now => st.reset now

/-- Effect of a sequence of calls on the statistics, first call first. -/
def TrafficStats.run (fp : DoubleArith) (st : TrafficStats) (ops : List StatsOp) :
    TrafficStats :=
  ops.foldl (TrafficStats.step fp) st

/-- Every direction has exactly one sensor. -/
def oneSensorPerDirection (s : Intersection) : Prop :=
  ∀ dir : Direction, (s.sensors.filter (fun sn => sn.direction = dir)).length = 1

instance (s : Intersection) : Decidable (oneSensorPerDirection s) := by
  unfold oneSensorPerDirection; infer_instance

/-- The mutating calls a client makes on a light. -/
inductive LightOp
  | changeState (newState : TrafficState) (now : Int)
  | update (now : Int)
  | setDuration (seconds : Int)
  | activateEmergency (now : Int)
  | deactivateEmergency
deriving DecidableEq, Repr

/-- The call is not `setDuration` with a negative value. -/
def LightOp.nonNegative : LightOp → Bool
  | .setDuration seconds => decide (0 ≤ seconds)
  | _ => true

/-- Effect of one call on a light. -/
def TrafficLight.step (l : TrafficLight) : LightOp → TrafficLight
  | .changeState newState now => l.changeState newState now
  | .update now => l.update now
  | .setDuration seconds => l.setDuration seconds
  | .activateEmergency now => l.activateEmergency now
  | .deactivateEmergency => l.deactivateEmergency

/-- Effect of a sequence of calls on a light, first call first. -/
def TrafficLight.run (l : TrafficLight) (ops : List LightOp) : TrafficLight :=
  ops.foldl TrafficLight.step l

/-- The vehicles `top()`/`pop()` deliver from the pending queue, in order, for
at most `fuel` deliveries. -/
def popOrder : Nat → List Vehicle → List Vehicle
  | 0, _ => []
  | fuel + 1, q =>
    match pqTop q with
    | none => []
    | some t => t :: popOrder fuel (pqPop q)

/-- A controller with one intersection as `generateRandomTraffic` leaves it when
it draws an ambulance: A is admitted with `addVehicle`, then handed to
`handleEmergencyVehicle`. -/
def controllerAdmittedA : TrafficController :=
  let c := (TrafficController.new 0).addIntersection "I1" 0
  let c : TrafficController :=
    { c with intersections := c.intersections.map (fun x => x.addVehicle vehicleA 1) }
  c.handleEmergencyVehicle vehicleA 1

/-- A controller with one intersection whose emergency counter was brought to
the largest `int` value by `getStatistics().updateEmergencyCount(2147483647)`. -/
def controllerCounterFull : TrafficController :=
  let c := (TrafficController.new 0).addIntersection "I1" 0
  { c with statistics := c.statistics.updateEmergencyCount 2147483647 }

/-! ## Ticks with every clock reading kept apart -/

/-- The clock readings of one `updateSignals` call: `now` is the reading
`updateSignals` takes itself, `updateAt i` the reading `TrafficLight::update`
takes on the light at position `i` of `lights`, `changeAt i` the reading
`changeState` takes on that light when `switchToNextPhase` calls it. -/
structure TickClock where
  now : Int
  updateAt : Nat → Int
  changeAt : Nat → Int

/-- The loop `for (auto& light : lights)` with the position of each light at
hand: the light at position `i`, counted from `start`, becomes `f i light`. -/
def eachLightFrom (f : Nat → TrafficLight → TrafficLight) :
    Nat → List TrafficLight → List TrafficLight
  | _, [] => []
  | start, light :: rest => f start light :: eachLightFrom f (start + 1) rest

/-- Method `Intersection::switchToNextPhase`, each `changeState` call taking
its own clock reading `changeAt i`. -/
def Intersection.switchToNextPhaseAt (s : Intersection) (phaseTimer : Int)
    (changeAt : Nat → Int) : Intersection × Int :=
  let phaseTimer := phaseTimer + 1
  if phaseTimer ≥ 35 then
    let currentPhase := Int.tmod (s.currentPhase + 1) 2
    let phaseTimer := 0
    if currentPhase = 0 then
      ({ s with currentPhase := currentPhase,
                lights := eachLightFrom (fun i light =>
                  if light.direction = .NORTH ∨ light.direction = .SOUTH then
                    light.changeState .GREEN (changeAt i)
                  else light.changeState .RED (changeAt i)) 0 s.lights }, phaseTimer)
    else
      ({ s with currentPhase := currentPhase,
                lights := eachLightFrom (fun i light =>
                  if light.direction = .EAST ∨ light.direction = .WEST then
                    light.changeState .GREEN (changeAt i)
                  else light.changeState .RED (changeAt i)) 0 s.lights }, phaseTimer)
  else if phaseTimer = 30 then
    ({ s with lights := eachLightFrom (fun i light =>
                if light.state = .GREEN then light.changeState .YELLOW (changeAt i)
                else light) 0 s.lights },
     phaseTimer)
  else (s, phaseTimer)

/-- Method `Intersection::updateSignals`, every clock reading of the call kept
apart and the static phase timer threaded. -/
def Intersection.updateSignalsAt (s : Intersection) (phaseTimer : Int) (clock : TickClock) :
    Intersection × Int :=
  let elapsed := elapsedSeconds clock.now s.lastUpdate
  let r : Intersection × Int :=
    if elapsed ≥ 1 then
      let s1 : Intersection :=
        { s with lights := eachLightFrom (fun i light => light.update (clock.updateAt i)) 0
                             s.lights }
      let r1 : Intersection × Int :=
        if !s1.emergencyMode then s1.switchToNextPhaseAt phaseTimer clock.changeAt
        else (s1, phaseTimer)
      ({ r1.1 with lastUpdate := clock.now }, r1.2)
    else (s, phaseTimer)
  (r.1.processVehicleQueues, r.2)

/-- Repeated `updateSignals` on one intersection, one call per listed set of
clock readings; the static phase timer goes from each call to the next (no
other intersection is ticked in between). -/
def updateTicksAt (s : Intersection) (phaseTimer : Int) :
    List TickClock → Intersection × Int
  | [] => (s, phaseTimer)
  | clock :: rest =>
    let r := s.updateSignalsAt phaseTimer clock
    updateTicksAt r.1 r.2 rest

/-- Every call of the run is a tick: its reading `now` is at least one whole
second after the `lastUpdate` the intersection then holds. -/
def validTicksAt (last : Int) : List TickClock → Prop
  | [] => True
  | clock :: rest => elapsedSeconds clock.now last ≥ 1 ∧ validTicksAt clock.now rest

instance validTicksAtDecidable (last : Int) (clocks : List TickClock) :
    Decidable (validTicksAt last clocks) := by
  induction clocks generalizing last with
  | nil => unfold validTicksAt; infer_instance
  | cons clock rest ih =>
    unfold validTicksAt
    have := ih clock.now
    infer_instance

/-- Every `TrafficLight::update` call of the tick finds at least one whole
second elapsed since the last update of its light: the light at position `i`,
counted from `start`, was last updated a second or more before `updateAt i`. -/
def lightsDueFrom (updateAt : Nat → Int) : Nat → List TrafficLight → Prop
  | _, [] => True
  | start, light :: rest =>
    elapsedSeconds (updateAt start) light.lastUpdate ≥ 1 ∧ lightsDueFrom updateAt (start + 1) rest

instance lightsDueFromDecidable (updateAt : Nat → Int) (start : Nat) (lights : List TrafficLight) :
    Decidable (lightsDueFrom updateAt start lights) := by
  induction lights generalizing start with
  | nil => unfold lightsDueFrom; infer_instance
  | cons light rest ih =>
    unfold lightsDueFrom
    have := ih (start + 1)
    infer_instance

/-- The property `lightsDueFrom` holds for the lights at every call of the run. -/
def lightsDueAt (s : Intersection) (phaseTimer : Int) : List TickClock → Prop
  | [] => True
  | clock :: rest =>
    lightsDueFrom clock.updateAt 0 s.lights ∧
    lightsDueAt (s.updateSignalsAt phaseTimer clock).1 (s.updateSignalsAt phaseTimer clock).2 rest

instance lightsDueAtDecidable (s : Intersection) (phaseTimer : Int) (clocks : List TickClock) :
    Decidable (lightsDueAt s phaseTimer clocks) := by
  induction clocks generalizing s phaseTimer with
  | nil => unfold lightsDueAt; infer_instance
  | cons clock rest ih =>
    unfold lightsDueAt
    have := ih (s.updateSignalsAt phaseTimer clock).1 (s.updateSignalsAt phaseTimer clock).2
    infer_instance

/-- Readings of a call that takes its own reading at `now`, then reads the
clock again for each light: in the update loop `i + 1` microseconds after `now`
for the light at position `i`, in `switchToNextPhase` `i + 11` microseconds
after `now`. -/
def clockAt (now : Int) : TickClock :=
  { now := now,
    updateAt := fun i => now + ((i : Int) + 1) * 1000,
    changeAt := fun i => now + ((i : Int) + 11) * 1000 }

/-- The readings of `n` calls, the first `step` nanoseconds after `first` and
each further one `step` nanoseconds after the one before, read as in `clockAt`. -/
def clocksEvery (step : Int) (first : Int) (n : Nat) : List TickClock :=
  (List.range n).map (fun j => clockAt (first + ((j : Int) + 1) * step))

/-- A fresh intersection ticked once per second up to second 34, each call
using one clock reading; the phase timer then stands at 34. -/
def simBeforeToggle : Sim :=
  (freshSim "I1" 0).run (tickOps 34)

/-! # Theorems -/

set_option maxRecDepth 100000

/-! ## Helper lemmas -/

theorem TrafficLight.update_state (l : TrafficLight) (now : Int) :
    (l.update now).state = l.state := by
  unfold TrafficLight.update; split <;> rfl

theorem TrafficLight.update_direction (l : TrafficLight) (now : Int) :
    (l.update now).direction = l.direction := by
  unfold TrafficLight.update; split <;> rfl

theorem map_update_state (ls : List TrafficLight) (now : Int) :
    (ls.map (fun light => light.update now)).map (fun light => light.state)
      = ls.map (fun light => light.state) := by
  simp [List.map_map, Function.comp_def, TrafficLight.update_state]

theorem map_update_direction (ls : List TrafficLight) (now : Int) :
    (ls.map (fun light => light.update now)).map (fun light => light.direction)
      = ls.map (fun light => light.direction) := by
  simp [List.map_map, Function.comp_def, TrafficLight.update_direction]

theorem length_eq_four {α : Type} (l : List α) (h : l.length = 4) :
    ∃ a b c d, l = [a, b, c, d] := by
  match l, h with
  | [a, b, c, d], _ => exact ⟨a, b, c, d, rfl⟩

theorem processQueuesFrom_length (lights : List TrafficLight) (qs : List (List Vehicle)) :
    ∀ i, (processQueuesFrom lights i qs).length = qs.length := by
  induction qs with
  | nil => intro i; rfl
  | cons q rest ih => intro i; simp [processQueuesFrom, ih]

/-- One `updateSignals` call in emergency mode keeps the mode, the phase index,
the phase timer and the colour of every light. -/
theorem updateSignals_emergency (s : Intersection) (t now : Int)
    (h : s.emergencyMode = true) :
    (s.updateSignals t now).1.emergencyMode = true ∧
    (s.updateSignals t now).1.currentPhase = s.currentPhase ∧
    (s.updateSignals t now).2 = t ∧
    (s.updateSignals t now).1.lights.map (fun light => light.state)
      = s.lights.map (fun light => light.state) := by
  unfold Intersection.updateSignals
  by_cases he : elapsedSeconds now s.lastUpdate ≥ 1
  · simp [he, h, Intersection.processVehicleQueues, Function.comp_def,
      TrafficLight.update_state]
  · simp [he, h, Intersection.processVehicleQueues]

/-! ## C4 -/

/-- C4: in emergency mode, any number of `updateSignals` calls (ticks or not)
leave the phase index, the phase timer and the colour of every light unchanged,
and the intersection stays in emergency mode. -/
theorem C4_override_freezes_phase (s : Intersection) (t : Int) (nows : List Int)
    (h : s.emergencyMode = true) :
    (updateTicks s t nows).1.emergencyMode = true ∧
    (updateTicks s t nows).1.currentPhase = s.currentPhase ∧
    (updateTicks s t nows).2 = t ∧
    (updateTicks s t nows).1.lights.map (fun light => light.state)
      = s.lights.map (fun light => light.state) := by
  induction nows generalizing s t with
  | nil => simp [updateTicks, h]
  | cons now rest ih =>
    obtain ⟨h1, h2, h3, h4⟩ := updateSignals_emergency s t now h
    obtain ⟨k1, k2, k3, k4⟩ := ih (s.updateSignals t now).1 (s.updateSignals t now).2 h1
    simp only [updateTicks]
    refine ⟨k1, ?_, ?_, ?_⟩
    · rw [k2, h2]
    · rw [k3, h3]
    · rw [k4, h4]

/-! ## Lights after an override -/

theorem setFirstGreen_direction (d : Direction) (now : Int) (ls : List TrafficLight) :
    (setFirstGreen d now ls).map (fun light => light.direction)
      = ls.map (fun light => light.direction) := by
  induction ls with
  | nil => rfl
  | cons l rest ih =>
    unfold setFirstGreen
    split
    · simp [TrafficLight.changeState]
    · simp [ih]

theorem setFirstGreen_state (d : Direction) (now : Int) (ls : List TrafficLight)
    (hred : ∀ l ∈ ls, l.state = .RED)
    (hone : (ls.filter (fun light => light.direction = d)).length ≤ 1) :
    ∀ l ∈ setFirstGreen d now ls,
      l.state = if l.direction = d then TrafficState.GREEN else TrafficState.RED := by
  induction ls with
  | nil => intro l hl; simp [setFirstGreen] at hl
  | cons a rest ih =>
    intro l hl
    unfold setFirstGreen at hl
    by_cases ha : a.direction = d
    · simp only [ha, if_true, List.mem_cons] at hl
      rcases hl with hl | hl
      · subst hl; simp [TrafficLight.changeState, ha]
      · have hnil : rest.filter (fun light => light.direction = d) = [] := by
          simp [List.filter_cons, ha] at hone
          simpa using hone
        have hne : l.direction ≠ d := by
          intro hd
          have : l ∈ rest.filter (fun light => light.direction = d) := by
            simp [List.mem_filter, hl, hd]
          rw [hnil] at this
          simp at this
        simp [hne, hred l (List.mem_cons_of_mem _ hl)]
    · simp only [ha, if_false, List.mem_cons] at hl
      rcases hl with hl | hl
      · subst hl; simp [ha, hred l (List.mem_cons_self _ _)]
      · apply ih (fun x hx => hred x (List.mem_cons_of_mem _ hx)) _ l hl
        simpa [List.filter_cons, ha] using hone

theorem filter_direction_of_map_eq (d : Direction) (xs ys : List TrafficLight)
    (h : xs.map (fun light => light.direction) = ys.map (fun light => light.direction)) :
    (xs.filter (fun light => light.direction = d)).length
      = (ys.filter (fun light => light.direction = d)).length := by
  induction xs generalizing ys with
  | nil =>
    cases ys with
    | nil => rfl
    | cons y ys => simp at h
  | cons x xs ih =>
    cases ys with
    | nil => simp at h
    | cons y ys =>
      simp only [List.map_cons, List.cons.injEq] at h
      have := ih ys h.2
      by_cases hx : x.direction = d
      · have hy : y.direction = d := by rw [← h.1]; exact hx
        simp [List.filter_cons, hx, hy, this]
      · have hy : ¬ y.direction = d := by rw [← h.1]; exact hx
        simp [List.filter_cons, hx, hy, this]

theorem find_direction_spec (d : Direction) (ls : List TrafficLight)
    (h : (ls.filter (fun light => light.direction = d)).length = 1) :
    ∃ l, ls.find? (fun light => light.direction = d) = some l ∧ l ∈ ls ∧ l.direction = d := by
  cases hf : ls.find? (fun light => decide (light.direction = d)) with
  | none =>
    rw [List.find?_eq_none] at hf
    have : ls.filter (fun light => light.direction = d) = [] := by
      rw [List.filter_eq_nil_iff]; exact hf
    rw [this] at h; simp at h
  | some l =>
    refine ⟨l, rfl, List.mem_of_find?_eq_some hf, ?_⟩
    simpa using List.find?_some hf

theorem handleEmergencyVehicle_direction (s : Intersection) (d : Direction) (now : Int) :
    (s.handleEmergencyVehicle d now).lights.map (fun light => light.direction)
      = s.lights.map (fun light => light.direction) := by
  simp [Intersection.handleEmergencyVehicle, setFirstGreen_direction, Function.comp_def,
    TrafficLight.changeState, TrafficLight.activateEmergency]

theorem handleEmergencyVehicle_lights (s : Intersection) (d : Direction) (now : Int)
    (h : oneLightPerDirection s) :
    ∀ l ∈ (s.handleEmergencyVehicle d now).lights,
      l.state = if l.direction = d then TrafficState.GREEN else TrafficState.RED := by
  unfold Intersection.handleEmergencyVehicle
  apply setFirstGreen_state
  · intro l hl
    simp only [List.mem_map] at hl
    obtain ⟨a, _, rfl⟩ := hl
    rfl
  · have := filter_direction_of_map_eq d
      (s.lights.map (fun light => (light.activateEmergency now).changeState .RED now)) s.lights
      (by simp [Function.comp_def, TrafficLight.changeState, TrafficLight.activateEmergency])
    rw [this, h d]

theorem oneLightPerDirection_of_map_eq (s s' : Intersection)
    (hd : s'.lights.map (fun light => light.direction)
      = s.lights.map (fun light => light.direction))
    (h : oneLightPerDirection s) : oneLightPerDirection s' := by
  intro d
  rw [filter_direction_of_map_eq d s'.lights s.lights hd]
  exact h d

theorem handleEmergencyVehicle_spec (s : Intersection) (d : Direction) (now : Int)
    (h : oneLightPerDirection s) :
    (s.handleEmergencyVehicle d now).emergencyMode = true ∧
    stateOf (s.handleEmergencyVehicle d now) d = some .GREEN ∧
    (∀ e, e ≠ d → stateOf (s.handleEmergencyVehicle d now) e = some .RED) ∧
    (∀ l ∈ (s.handleEmergencyVehicle d now).lights, (l.state = .GREEN ↔ l.direction = d)) ∧
    oneLightPerDirection (s.handleEmergencyVehicle d now) := by
  have hl := handleEmergencyVehicle_lights s d now h
  have hone := oneLightPerDirection_of_map_eq s (s.handleEmergencyVehicle d now)
    (handleEmergencyVehicle_direction s d now) h
  have hstate : ∀ e, stateOf (s.handleEmergencyVehicle d now) e
      = some (if e = d then TrafficState.GREEN else TrafficState.RED) := by
    intro e
    obtain ⟨l, hf, hmem, hdir⟩ := find_direction_spec e _ (hone e)
    simp only [stateOf, lightOf, hf, Option.map_some']
    rw [hl l hmem, hdir]
  refine ⟨rfl, ?_, ?_, ?_, hone⟩
  · simpa using hstate d
  · intro e he; simpa [he] using hstate e
  · intro l hmem
    rw [hl l hmem]
    by_cases hd : l.direction = d <;> simp [hd]


/-! ## C3 -/

/-- C3: with one light per direction, `handleEmergencyVehicle(d)` sets
emergency mode, leaves the light of direction `d` GREEN and the light of every
other direction RED (so exactly the lights of direction `d` are GREEN, also
when the intersection was already in override for another direction), and
keeps one light per direction. -/
theorem C3_override_one_green (s : Intersection) (d : Direction) (now : Int)
    (h : oneLightPerDirection s) :
    (s.handleEmergencyVehicle d now).emergencyMode = true ∧
    stateOf (s.handleEmergencyVehicle d now) d = some .GREEN ∧
    (∀ e, e ≠ d → stateOf (s.handleEmergencyVehicle d now) e = some .RED) ∧
    (∀ l ∈ (s.handleEmergencyVehicle d now).lights, (l.state = .GREEN ↔ l.direction = d)) ∧
    oneLightPerDirection (s.handleEmergencyVehicle d now) :=
  handleEmergencyVehicle_spec s d now h

/-! ## Lane queues -/

theorem addVehicle_getQueue (s : Intersection) (v : Vehicle) (now : Int)
    (h : s.vehicleQueues.length = 4) (d : Direction) :
    (s.addVehicle v now).getQueue d
      = if d = v.direction then s.getQueue d ++ [v] else s.getQueue d := by
  obtain ⟨q0, q1, q2, q3, hq⟩ := length_eq_four _ h
  unfold Intersection.addVehicle Intersection.getQueue
  cases hv : v.direction <;> cases d <;> simp [hq, Direction.toNat]

theorem addVehicle_length (s : Intersection) (v : Vehicle) (now : Int) :
    (s.addVehicle v now).vehicleQueues.length = s.vehicleQueues.length := by
  simp only [Intersection.addVehicle]
  split <;> simp

theorem getQueueLength_eq (s : Intersection) (d : Direction)
    (h : s.vehicleQueues.length = 4) :
    s.getQueueLength d = ((s.getQueue d).length : Int) := by
  unfold Intersection.getQueueLength Intersection.getQueue
  have : d.toNat < 4 := by cases d <;> simp [Direction.toNat]
  simp [h, this]

theorem addVehicle_frame (s : Intersection) (v : Vehicle) (now : Int) :
    (s.addVehicle v now).lights = s.lights ∧
    (s.addVehicle v now).currentPhase = s.currentPhase ∧
    (s.addVehicle v now).emergencyMode = s.emergencyMode ∧
    (s.addVehicle v now).lastUpdate = s.lastUpdate := by
  simp only [Intersection.addVehicle]
  split <;> simp

/-! ## C7 -/

/-- C7: on an intersection with its four lane queues, `addVehicle(v)` appends
`v` to the lane of its direction, so `getQueueLength(v.direction)` grows by
exactly one; the three other lanes (and their lengths), the lights, the phase
index and the emergency flag are unchanged. -/
theorem C7_addVehicle_grows_one_lane (s : Intersection) (v : Vehicle) (now : Int)
    (h : s.vehicleQueues.length = 4) :
    (s.addVehicle v now).getQueueLength v.direction = s.getQueueLength v.direction + 1 ∧
    (s.addVehicle v now).getQueue v.direction = s.getQueue v.direction ++ [v] ∧
    (∀ d, d ≠ v.direction →
      (s.addVehicle v now).getQueueLength d = s.getQueueLength d ∧
      (s.addVehicle v now).getQueue d = s.getQueue d) ∧
    (s.addVehicle v now).lights = s.lights ∧
    (s.addVehicle v now).currentPhase = s.currentPhase ∧
    (s.addVehicle v now).emergencyMode = s.emergencyMode := by
  have h' : (s.addVehicle v now).vehicleQueues.length = 4 := by
    rw [addVehicle_length]; exact h
  obtain ⟨f1, f2, f3, _⟩ := addVehicle_frame s v now
  refine ⟨?_, ?_, ?_, f1, f2, f3⟩
  · rw [getQueueLength_eq _ _ h', getQueueLength_eq _ _ h, addVehicle_getQueue s v now h]
    simp
  · rw [addVehicle_getQueue s v now h]; simp
  · intro d hd
    rw [getQueueLength_eq _ _ h', getQueueLength_eq _ _ h, addVehicle_getQueue s v now h]
    simp [hd]

theorem addAll_length (s : Intersection) (vs : List (Vehicle × Int)) :
    (addAll s vs).vehicleQueues.length = s.vehicleQueues.length := by
  induction vs generalizing s with
  | nil => rfl
  | cons p rest ih =>
    obtain ⟨v, now⟩ := p
    simp only [addAll]
    rw [ih, addVehicle_length]

theorem addAll_lights (s : Intersection) (vs : List (Vehicle × Int)) :
    (addAll s vs).lights = s.lights := by
  induction vs generalizing s with
  | nil => rfl
  | cons p rest ih =>
    obtain ⟨v, now⟩ := p
    simp only [addAll]
    rw [ih, (addVehicle_frame s v now).1]

theorem addAll_getQueue (s : Intersection) (vs : List (Vehicle × Int))
    (h : s.vehicleQueues.length = 4) (d : Direction) :
    (addAll s vs).getQueue d
      = s.getQueue d ++ (vs.map (fun p => p.1)).filter (fun v => v.direction = d) := by
  induction vs generalizing s with
  | nil => simp [addAll]
  | cons p rest ih =>
    obtain ⟨v, now⟩ := p
    simp only [addAll]
    rw [ih _ (by rw [addVehicle_length]; exact h), addVehicle_getQueue s v now h]
    by_cases hd : d = v.direction
    · subst hd; simp [List.filter_cons]
    · have hd' : ¬ v.direction = d := fun e => hd e.symm
      simp [hd, hd', List.filter_cons]

theorem removeVehicle_cons (s : Intersection) (d : Direction) (now : Int)
    (h : s.vehicleQueues.length = 4) (v : Vehicle) (rest : List Vehicle)
    (hq : s.getQueue d = v :: rest) :
    (s.removeVehicle d now).1 = v ∧
    (s.removeVehicle d now).2.getQueue d = rest ∧
    (s.removeVehicle d now).2.vehicleQueues.length = 4 := by
  obtain ⟨q0, q1, q2, q3, hqs⟩ := length_eq_four _ h
  unfold Intersection.getQueue at hq
  unfold Intersection.removeVehicle Intersection.getQueue
  cases d <;> simp [hqs, Direction.toNat] at hq ⊢ <;> simp [hq]

theorem removeN_spec (d : Direction) (now : Int) (q : List Vehicle) :
    ∀ (s : Intersection), s.vehicleQueues.length = 4 → s.getQueue d = q →
      (removeN s d now q.length).1 = q ∧ (removeN s d now q.length).2.getQueue d = [] := by
  induction q with
  | nil => intro s _ hq; simp [removeN, hq]
  | cons v rest ih =>
    intro s h hq
    obtain ⟨r1, r2, r3⟩ := removeVehicle_cons s d now h v rest hq
    obtain ⟨i1, i2⟩ := ih (s.removeVehicle d now).2 r3 r2
    simp only [List.length_cons, removeN]
    exact ⟨by rw [r1, i1], i2⟩

theorem drainLane_toNat (lights : List TrafficLight) (d : Direction) (q : List Vehicle) :
    drainLane lights d.toNat q
      = match lights.find? (fun light => light.direction = d) with
        | some light => if light.canProceed then q.tail else q
        | none => q := by
  have hof : Direction.ofIndex d.toNat = some d := by cases d <;> rfl
  unfold drainLane
  rw [hof]
  cases q with
  | nil => simp; split <;> simp
  | cons v rest => simp

theorem processVehicleQueues_getQueue (s : Intersection) (h : s.vehicleQueues.length = 4)
    (d : Direction) :
    s.processVehicleQueues.getQueue d
      = if laneGreen s d then (s.getQueue d).tail else s.getQueue d := by
  obtain ⟨q0, q1, q2, q3, hqs⟩ := length_eq_four _ h
  have key : s.processVehicleQueues.getQueue d = drainLane s.lights d.toNat (s.getQueue d) := by
    unfold Intersection.processVehicleQueues Intersection.getQueue
    cases d <;> simp [hqs, processQueuesFrom, Direction.toNat]
  rw [key, drainLane_toNat]
  unfold laneGreen lightOf
  cases s.lights.find? (fun light => decide (light.direction = d)) with
  | none => simp
  | some l => simp

theorem processVehicleQueues_length (s : Intersection) :
    s.processVehicleQueues.vehicleQueues.length = s.vehicleQueues.length := by
  simp [Intersection.processVehicleQueues, processQueuesFrom_length]

theorem processN_getQueue (s : Intersection) (d : Direction) (n : Nat)
    (h : s.vehicleQueues.length = 4) (hg : laneGreen s d = true) :
    (processN s n).getQueue d = (s.getQueue d).drop n := by
  induction n generalizing s with
  | zero => simp [processN]
  | succ n ih =>
    simp only [processN]
    rw [ih s.processVehicleQueues (by rw [processVehicleQueues_length]; exact h) hg,
      processVehicleQueues_getQueue s h d, hg]
    simp [List.drop_tail]

/-! ## C8 -/

/-- C8: lane queues are first-in first-out. After any sequence of `addVehicle`
calls on an intersection whose lane `d` is empty, the vehicles of direction `d`
leave in their order of admission: as many `removeVehicle(d)` calls as were
admitted return exactly these vehicles in that order, and while the light of
`d` is GREEN the lane after `k` drains of `processVehicleQueues` is the admitted
sequence without its first `k` vehicles, so the next vehicle to leave is the
`k`-th admitted one. -/
theorem C8_lane_fifo (s : Intersection) (d : Direction) (vs : List (Vehicle × Int)) (now : Int)
    (h4 : s.vehicleQueues.length = 4) (hempty : s.getQueue d = []) :
    (removeN (addAll s vs) d now
        ((vs.map (fun p => p.1)).filter (fun v => v.direction = d)).length).1
      = (vs.map (fun p => p.1)).filter (fun v => v.direction = d) ∧
    (laneGreen s d = true → ∀ k,
      (processN (addAll s vs) k).getQueue d
        = ((vs.map (fun p => p.1)).filter (fun v => v.direction = d)).drop k ∧
      ((processN (addAll s vs) k).getQueue d).head?
        = ((vs.map (fun p => p.1)).filter (fun v => v.direction = d))[k]?) := by
  have hlen : (addAll s vs).vehicleQueues.length = 4 := by rw [addAll_length]; exact h4
  have hq : (addAll s vs).getQueue d
      = (vs.map (fun p => p.1)).filter (fun v => v.direction = d) := by
    rw [addAll_getQueue s vs h4 d, hempty]; rfl
  refine ⟨(removeN_spec d now _ (addAll s vs) hlen hq).1, ?_⟩
  intro hg k
  have hg' : laneGreen (addAll s vs) d = true := by
    unfold laneGreen lightOf at hg ⊢
    rw [addAll_lights]; exact hg
  have := processN_getQueue (addAll s vs) d k hlen hg'
  rw [hq] at this
  refine ⟨this, ?_⟩
  rw [this, List.head?_drop]

/-! ## C9 -/

theorem find_of_mem_unique (s : Intersection) (h : oneLightPerDirection s)
    (l : TrafficLight) (hl : l ∈ s.lights) :
    lightOf s l.direction = some l := by
  obtain ⟨l', hf, hmem, hdir⟩ := find_direction_spec l.direction s.lights (h l.direction)
  have h1 : l ∈ s.lights.filter (fun light => light.direction = l.direction) := by
    simp [List.mem_filter, hl]
  have h2 : l' ∈ s.lights.filter (fun light => light.direction = l.direction) := by
    simp [List.mem_filter, hmem, hdir]
  obtain ⟨x, hx⟩ := List.length_eq_one.mp (h l.direction)
  rw [hx] at h1 h2
  simp only [List.mem_singleton] at h1 h2
  unfold lightOf
  rw [hf, h2, h1]

/-- C9: with four lane queues and one light per direction, one
`processVehicleQueues` call removes exactly the head vehicle of every lane
whose light is GREEN (`canProceed`), so a non-empty such lane gets shorter by
exactly one, and leaves every lane unchanged whose light is not GREEN and every
empty lane; the lights are untouched; right after an override for direction
`e` only lane `e` drains. -/
theorem C9_process_drains_green_heads (s : Intersection)
    (h4 : s.vehicleQueues.length = 4) (h1 : oneLightPerDirection s) :
    (∀ l ∈ s.lights,
      s.processVehicleQueues.getQueue l.direction
        = if l.canProceed then (s.getQueue l.direction).tail else s.getQueue l.direction) ∧
    (∀ l ∈ s.lights, l.canProceed = true → s.getQueue l.direction ≠ [] →
      s.processVehicleQueues.getQueueLength l.direction
        = s.getQueueLength l.direction - 1) ∧
    (∀ l ∈ s.lights, l.canProceed = false →
      s.processVehicleQueues.getQueue l.direction = s.getQueue l.direction) ∧
    (∀ d, s.getQueue d = [] → s.processVehicleQueues.getQueue d = []) ∧
    s.processVehicleQueues.lights = s.lights ∧
    (∀ (e : Direction) (now : Int) (d : Direction),
      (s.handleEmergencyVehicle e now).processVehicleQueues.getQueue d
        = if d = e then (s.getQueue d).tail else s.getQueue d) := by
  have hgreen : ∀ l ∈ s.lights, laneGreen s l.direction = l.canProceed := by
    intro l hl
    unfold laneGreen
    rw [find_of_mem_unique s h1 l hl]
  have hlen : s.processVehicleQueues.vehicleQueues.length = 4 := by
    rw [processVehicleQueues_length]; exact h4
  refine ⟨?_, ?_, ?_, ?_, rfl, ?_⟩
  · intro l hl
    rw [processVehicleQueues_getQueue s h4, hgreen l hl]
  · intro l hl hc hne
    rw [getQueueLength_eq _ _ hlen, getQueueLength_eq _ _ h4,
      processVehicleQueues_getQueue s h4, hgreen l hl, hc]
    cases hq : s.getQueue l.direction with
    | nil => exact absurd hq hne
    | cons v rest => simp
  · intro l hl hc
    rw [processVehicleQueues_getQueue s h4, hgreen l hl, hc]
    simp
  · intro d hd
    rw [processVehicleQueues_getQueue s h4, hd]
    simp
  · intro e now d
    obtain ⟨_, hg, hr, _, _⟩ := handleEmergencyVehicle_spec s e now h1
    have hlen' : (s.handleEmergencyVehicle e now).vehicleQueues.length = 4 := h4
    rw [processVehicleQueues_getQueue _ hlen']
    have hqq : (s.handleEmergencyVehicle e now).getQueue d = s.getQueue d := rfl
    rw [hqq]
    by_cases hd : d = e
    · subst hd
      have : laneGreen (s.handleEmergencyVehicle d now) d = true := by
        unfold laneGreen
        unfold stateOf at hg
        cases hlo : lightOf (s.handleEmergencyVehicle d now) d with
        | none => rw [hlo] at hg; simp at hg
        | some l =>
          rw [hlo] at hg
          simp only [Option.map_some', Option.some.injEq] at hg
          simp [TrafficLight.canProceed, hg]
      simp [this]
    · have hrd := hr d hd
      have : laneGreen (s.handleEmergencyVehicle e now) d = false := by
        unfold laneGreen
        unfold stateOf at hrd
        cases hlo : lightOf (s.handleEmergencyVehicle e now) d with
        | none => rfl
        | some l =>
          rw [hlo] at hrd
          simp only [Option.map_some', Option.some.injEq] at hrd
          simp [TrafficLight.canProceed, hrd]
      simp [this, hd]

/-! ## The phase schedule -/

theorem switchToNextPhase_idle (s : Intersection) (t now : Int)
    (h1 : t + 1 < 35) (h2 : t + 1 ≠ 30) :
    s.switchToNextPhase t now = (s, t + 1) := by
  unfold Intersection.switchToNextPhase
  have h3 : ¬ (t + 1 ≥ 35) := by omega
  simp [h3, h2]

theorem switchToNextPhase_yellow (s : Intersection) (now : Int) :
    (s.switchToNextPhase 29 now).2 = 30 ∧
    (s.switchToNextPhase 29 now).1.currentPhase = s.currentPhase ∧
    (s.switchToNextPhase 29 now).1.lights.map (fun light => light.state)
      = s.lights.map (fun light =>
          if light.state = .GREEN then TrafficState.YELLOW else light.state) := by
  have h1 : ¬ ((30 : Int) ≥ 35) := by decide
  have h2 : (29 : Int) + 1 = 30 := by decide
  unfold Intersection.switchToNextPhase
  simp only [h2, h1, if_true, if_false]
  refine ⟨trivial, trivial, ?_⟩
  simp only [List.map_map]
  apply List.map_congr_left
  intro l _
  by_cases hg : l.state = .GREEN <;> simp [hg, TrafficLight.changeState]

theorem switchToNextPhase_toggle (s : Intersection) (t now : Int) (h : t + 1 ≥ 35) :
    (s.switchToNextPhase t now).2 = 0 ∧
    (s.switchToNextPhase t now).1.currentPhase = Int.tmod (s.currentPhase + 1) 2 := by
  unfold Intersection.switchToNextPhase
  simp only [h, if_true]
  split <;> simp

theorem switchToNextPhase_phase_keep (s : Intersection) (t now : Int) (h : t + 1 < 35) :
    (s.switchToNextPhase t now).2 = t + 1 ∧
    (s.switchToNextPhase t now).1.currentPhase = s.currentPhase := by
  unfold Intersection.switchToNextPhase
  have h3 : ¬ (t + 1 ≥ 35) := by omega
  simp only [h3, if_false]
  split <;> simp

theorem switchTicks_append (s : Intersection) (t : Int) (xs ys : List Int) :
    switchTicks s t (xs ++ ys)
      = switchTicks (switchTicks s t xs).1 (switchTicks s t xs).2 ys := by
  induction xs generalizing s t with
  | nil => rfl
  | cons x rest ih =>
    show switchTicks s t (x :: (rest ++ ys)) = _
    simp only [switchTicks]
    exact ih _ _

theorem switchTicks_low (nows : List Int) (s : Intersection) (t : Int)
    (h : t + nows.length ≤ 29) : switchTicks s t nows = (s, t + nows.length) := by
  induction nows generalizing t with
  | nil => simp [switchTicks]
  | cons now rest ih =>
    simp only [List.length_cons, Nat.cast_add, Nat.cast_one] at h
    have hrest : (0 : Int) ≤ rest.length := Int.ofNat_nonneg _
    simp only [switchTicks]
    rw [switchToNextPhase_idle s t now (by omega) (by omega)]
    simp only
    rw [ih (t + 1) (by omega)]
    simp only [List.length_cons, Nat.cast_add, Nat.cast_one]
    congr 1; omega

theorem switchTicks_high (nows : List Int) (s : Intersection) (t : Int)
    (h0 : 30 ≤ t) (h : t + nows.length ≤ 34) :
    switchTicks s t nows = (s, t + nows.length) := by
  induction nows generalizing t with
  | nil => simp [switchTicks]
  | cons now rest ih =>
    simp only [List.length_cons, Nat.cast_add, Nat.cast_one] at h
    have hrest : (0 : Int) ≤ rest.length := Int.ofNat_nonneg _
    simp only [switchTicks]
    rw [switchToNextPhase_idle s t now (by omega) (by omega)]
    simp only
    rw [ih (t + 1) (by omega) (by omega)]
    simp only [List.length_cons, Nat.cast_add, Nat.cast_one]
    congr 1; omega

theorem switchTicks_cycle (nows : List Int) (s : Intersection) (t : Int)
    (ht0 : 0 ≤ t) (ht : t < 35) (hp : s.currentPhase = 0 ∨ s.currentPhase = 1) :
    (switchTicks s t nows).2 = (t + nows.length) % 35 ∧
    (switchTicks s t nows).1.currentPhase
      = (s.currentPhase + (t + nows.length) / 35) % 2 := by
  induction nows generalizing s t with
  | nil =>
    simp only [switchTicks, List.length_nil, Nat.cast_zero, add_zero]
    constructor
    · omega
    · rcases hp with hp | hp <;> rw [hp] <;> omega
  | cons now rest ih =>
    simp only [switchTicks, List.length_cons, Nat.cast_add, Nat.cast_one]
    have hrest : (0 : Int) ≤ rest.length := Int.ofNat_nonneg _
    by_cases h34 : t + 1 < 35
    · obtain ⟨k1, k2⟩ := switchToNextPhase_phase_keep s t now h34
      obtain ⟨i1, i2⟩ := ih (s.switchToNextPhase t now).1 (s.switchToNextPhase t now).2
        (by omega) (by omega) (by rw [k2]; exact hp)
      rw [i1, i2, k1, k2]
      constructor
      · congr 1; omega
      · congr 2; congr 1; omega
    · obtain ⟨k1, k2⟩ := switchToNextPhase_toggle s t now (by omega)
      have ht34 : t = 34 := by omega
      have hp' : (s.switchToNextPhase t now).1.currentPhase = 0 ∨
          (s.switchToNextPhase t now).1.currentPhase = 1 := by
        rw [k2]; rcases hp with hp | hp <;> rw [hp] <;> decide
      obtain ⟨i1, i2⟩ := ih (s.switchToNextPhase t now).1 (s.switchToNextPhase t now).2
        (by omega) (by omega) hp'
      rw [i1, i2, k1, k2, ht34]
      constructor
      · omega
      · rcases hp with hp | hp <;> rw [hp] <;> simp [Int.tmod] <;> omega

/-! ## C2 -/

/-- C2: starting with the phase timer at 0 (phase index 0 or 1), successive
`switchToNextPhase` calls leave every light's colour and the phase index as
they are through call 29; from call 30 through call 34 every light that was
GREEN is YELLOW, the others and the phase index are unchanged; call 35 toggles
the phase index and resets the timer to 0; in general after `n` calls the timer
is `n mod 35` and the phase index has been toggled `n / 35` times, that is,
exactly once every 35 calls. -/
theorem C2_phase_schedule (s : Intersection) (nows : List Int)
    (hp : s.currentPhase = 0 ∨ s.currentPhase = 1) :
    (nows.length ≤ 29 →
      (switchTicks s 0 nows).1.lights.map (fun light => light.state)
        = s.lights.map (fun light => light.state) ∧
      (switchTicks s 0 nows).1.currentPhase = s.currentPhase) ∧
    (30 ≤ nows.length → nows.length ≤ 34 →
      (switchTicks s 0 nows).1.lights.map (fun light => light.state)
        = s.lights.map (fun light =>
            if light.state = .GREEN then TrafficState.YELLOW else light.state) ∧
      (switchTicks s 0 nows).1.currentPhase = s.currentPhase) ∧
    (nows.length = 35 →
      (switchTicks s 0 nows).1.currentPhase = 1 - s.currentPhase ∧
      (switchTicks s 0 nows).2 = 0) ∧
    (switchTicks s 0 nows).2 = (nows.length : Int) % 35 ∧
    (switchTicks s 0 nows).1.currentPhase
      = (s.currentPhase + (nows.length : Int) / 35) % 2 := by
  obtain ⟨c1, c2⟩ := switchTicks_cycle nows s 0 (by decide) (by decide) hp
  simp only [zero_add] at c1 c2
  refine ⟨?_, ?_, ?_, c1, c2⟩
  · intro h
    rw [switchTicks_low nows s 0 (by omega)]
    exact ⟨rfl, rfl⟩
  · intro h30 h34
    have hsplit : nows = nows.take 29 ++ nows.drop 29 := (List.take_append_drop 29 nows).symm
    have htake : (nows.take 29).length = 29 := by
      rw [List.length_take]; omega
    have hdrop : (nows.drop 29).length = nows.length - 29 := List.length_drop 29 nows
    cases hd : nows.drop 29 with
    | nil => rw [hd] at hdrop; simp at hdrop; omega
    | cons x rest =>
      rw [hd] at hdrop hsplit
      simp only [List.length_cons] at hdrop
      rw [hsplit, switchTicks_append, switchTicks_low (nows.take 29) s 0 (by rw [htake]; decide)]
      simp only [htake, switchTicks]
      obtain ⟨y1, y2, y3⟩ := switchToNextPhase_yellow s x
      have e29 : (0 : Int) + ((29 : Nat) : Int) = 29 := by decide
      rw [e29, y1, switchTicks_high rest _ 30 (by decide) (by omega)]
      exact ⟨y3, y2⟩
  · intro h35
    rw [c1, c2, h35]
    constructor
    · rcases hp with hp | hp <;> rw [hp] <;> decide
    · decide

/-! ## The phase-group invariant -/

theorem switchToNextPhase_directions (s : Intersection) (t now : Int) :
    (s.switchToNextPhase t now).1.lights.map (fun light => light.direction)
      = s.lights.map (fun light => light.direction) := by
  unfold Intersection.switchToNextPhase
  simp only []
  split
  · split <;>
    · simp only [List.map_map]
      apply List.map_congr_left
      intro l _
      simp only [Function.comp_apply]
      split <;> rfl
  · split
    · simp only [List.map_map]
      apply List.map_congr_left
      intro l _
      simp only [Function.comp_apply]
      split <;> rfl
    · rfl

theorem updateSignals_directions (s : Intersection) (t now : Int) :
    (s.updateSignals t now).1.lights.map (fun light => light.direction)
      = s.lights.map (fun light => light.direction) := by
  unfold Intersection.updateSignals
  simp only [Intersection.processVehicleQueues]
  split
  · split
    · simp only []
      rw [switchToNextPhase_directions]
      exact map_update_direction s.lights now
    · exact map_update_direction s.lights now
  · rfl

theorem step_directions (w : Sim) (op : Op) :
    (w.step op).inter.lights.map (fun light => light.direction)
      = w.inter.lights.map (fun light => light.direction) := by
  cases op with
  | add v now => simp only [Sim.step]; rw [(addVehicle_frame w.inter v now).1]
  | update now => exact updateSignals_directions w.inter w.phaseTimer now
  | override d now => exact handleEmergencyVehicle_direction w.inter d now
  | normal =>
    simp [Sim.step, Intersection.normalOperation, Function.comp_def,
      TrafficLight.deactivateEmergency]

theorem run_directions (ops : List Op) (w : Sim) :
    (w.run ops).inter.lights.map (fun light => light.direction)
      = w.inter.lights.map (fun light => light.direction) := by
  induction ops generalizing w with
  | nil => rfl
  | cons op rest ih =>
    show ((w.step op).run rest).inter.lights.map _ = _
    rw [ih, step_directions]

theorem four_lights_of_directions (ls : List TrafficLight)
    (h : ls.map (fun light => light.direction)
      = [Direction.NORTH, Direction.SOUTH, Direction.EAST, Direction.WEST]) :
    ∃ l0 l1 l2 l3, ls = [l0, l1, l2, l3] ∧ l0.direction = .NORTH ∧ l1.direction = .SOUTH ∧
      l2.direction = .EAST ∧ l3.direction = .WEST := by
  have hlen : ls.length = 4 := by
    have := congrArg List.length h
    simpa using this
  obtain ⟨l0, l1, l2, l3, rfl⟩ := length_eq_four ls hlen
  simp only [List.map_cons, List.map_nil, List.cons.injEq, and_true] at h
  exact ⟨l0, l1, l2, l3, rfl, h.1, h.2.1, h.2.2.1, h.2.2.2⟩

theorem phasePattern_onePhaseGroupActive (s : Intersection) (h : phasePattern s) :
    onePhaseGroupActive s := by
  obtain ⟨_, hd, hs⟩ := h
  obtain ⟨l0, l1, l2, l3, hl, d0, d1, d2, d3⟩ := four_lights_of_directions s.lights hd
  rw [hl] at hs
  simp only [List.map_cons, List.map_nil, List.cons.injEq, and_true] at hs
  unfold onePhaseGroupActive activeLight redLight stateOf lightOf
  rw [hl]
  rcases hs with ⟨a, b, c, d⟩ | ⟨a, b, c, d⟩ | ⟨a, b, c, d⟩ | ⟨a, b, c, d⟩ <;>
    simp [List.find?_cons, d0, d1, d2, d3, a, b, c, d]

theorem updateSignals_emergencyMode (s : Intersection) (t now : Int) :
    (s.updateSignals t now).1.emergencyMode = s.emergencyMode := by
  unfold Intersection.updateSignals Intersection.switchToNextPhase
  simp only [Intersection.processVehicleQueues]
  split
  · split
    · simp only []
      split
      · split <;> rfl
      · split <;> rfl
    · rfl
  · rfl

theorem switchToNextPhase_states (s : Intersection) (t now : Int) :
    (s.switchToNextPhase t now).1.lights.map (fun light => light.state)
      = if t + 1 ≥ 35 then
          if Int.tmod (s.currentPhase + 1) 2 = 0 then
            s.lights.map (fun light =>
              if light.direction = .NORTH ∨ light.direction = .SOUTH then TrafficState.GREEN
              else TrafficState.RED)
          else
            s.lights.map (fun light =>
              if light.direction = .EAST ∨ light.direction = .WEST then TrafficState.GREEN
              else TrafficState.RED)
        else if t + 1 = 30 then
          s.lights.map (fun light =>
            if light.state = .GREEN then TrafficState.YELLOW else light.state)
        else s.lights.map (fun light => light.state) := by
  unfold Intersection.switchToNextPhase
  simp only []
  split
  · split <;>
    · simp only [List.map_map]
      apply List.map_congr_left
      intro l _
      simp only [Function.comp_apply]
      split <;> rfl
  · split
    · simp only [List.map_map]
      apply List.map_congr_left
      intro l _
      simp only [Function.comp_apply]
      split <;> simp_all [TrafficLight.changeState]
    · rfl

theorem updateSignals_states (s : Intersection) (t now : Int) (hem : s.emergencyMode = false) :
    (s.updateSignals t now).1.lights.map (fun light => light.state)
      = if elapsedSeconds now s.lastUpdate ≥ 1 then
          if t + 1 ≥ 35 then
            if Int.tmod (s.currentPhase + 1) 2 = 0 then
              s.lights.map (fun light =>
                if light.direction = .NORTH ∨ light.direction = .SOUTH then TrafficState.GREEN
                else TrafficState.RED)
            else
              s.lights.map (fun light =>
                if light.direction = .EAST ∨ light.direction = .WEST then TrafficState.GREEN
                else TrafficState.RED)
          else if t + 1 = 30 then
            s.lights.map (fun light =>
              if light.state = .GREEN then TrafficState.YELLOW else light.state)
          else s.lights.map (fun light => light.state)
        else s.lights.map (fun light => light.state) := by
  unfold Intersection.updateSignals
  simp only [Intersection.processVehicleQueues, hem, Bool.not_false, if_true]
  by_cases he : elapsedSeconds now s.lastUpdate ≥ 1
  · simp only [he, if_true]
    rw [switchToNextPhase_states]
    simp only [List.map_map, Function.comp_def, TrafficLight.update_state,
      TrafficLight.update_direction]
  · simp only [he, if_false]

theorem phasePattern_toggle (s : Intersection) (t now : Int)
    (hem : s.emergencyMode = false)
    (hd : s.lights.map (fun light => light.direction)
      = [Direction.NORTH, Direction.SOUTH, Direction.EAST, Direction.WEST])
    (he : elapsedSeconds now s.lastUpdate ≥ 1) (ht : t + 1 ≥ 35) :
    phasePattern (s.updateSignals t now).1 := by
  refine ⟨by rw [updateSignals_emergencyMode]; exact hem,
    by rw [updateSignals_directions]; exact hd, ?_⟩
  rw [updateSignals_states s t now hem]
  obtain ⟨l0, l1, l2, l3, hl, d0, d1, d2, d3⟩ := four_lights_of_directions s.lights hd
  simp only [he, ht, if_true, hl, List.map_cons, List.map_nil, d0, d1, d2, d3]
  split <;> simp

theorem phasePattern_updateSignals (s : Intersection) (t now : Int) (h : phasePattern s) :
    phasePattern (s.updateSignals t now).1 := by
  obtain ⟨hem, hd, hs⟩ := h
  refine ⟨by rw [updateSignals_emergencyMode]; exact hem,
    by rw [updateSignals_directions]; exact hd, ?_⟩
  rw [updateSignals_states s t now hem]
  obtain ⟨l0, l1, l2, l3, hl, d0, d1, d2, d3⟩ := four_lights_of_directions s.lights hd
  rw [hl] at hs
  simp only [List.map_cons, List.map_nil, List.cons.injEq, and_true] at hs
  simp only [hl, List.map_cons, List.map_nil, d0, d1, d2, d3]
  split
  · split
    · split <;> simp
    · split
      · rcases hs with ⟨a, b, c, d⟩ | ⟨a, b, c, d⟩ | ⟨a, b, c, d⟩ | ⟨a, b, c, d⟩ <;>
          simp [a, b, c, d]
      · rcases hs with ⟨a, b, c, d⟩ | ⟨a, b, c, d⟩ | ⟨a, b, c, d⟩ | ⟨a, b, c, d⟩ <;>
          simp [a, b, c, d]
  · rcases hs with ⟨a, b, c, d⟩ | ⟨a, b, c, d⟩ | ⟨a, b, c, d⟩ | ⟨a, b, c, d⟩ <;>
      simp [a, b, c, d]

theorem phasePattern_step (w : Sim) (op : Op) (hop : op.isOverride = false)
    (h : phasePattern w.inter) : phasePattern (w.step op).inter := by
  cases op with
  | add v now =>
    obtain ⟨f1, _, f3, _⟩ := addVehicle_frame w.inter v now
    obtain ⟨hem, hd, hs⟩ := h
    simp only [Sim.step]
    exact ⟨by rw [f3]; exact hem, by rw [f1]; exact hd, by rw [f1]; exact hs⟩
  | update now => exact phasePattern_updateSignals w.inter w.phaseTimer now h
  | override d now => simp [Op.isOverride] at hop
  | normal =>
    obtain ⟨hem, hd, hs⟩ := h
    simp only [Sim.step]
    refine ⟨rfl, ?_, ?_⟩
    · simpa [Intersection.normalOperation, Function.comp_def,
        TrafficLight.deactivateEmergency] using hd
    · simpa [Intersection.normalOperation, Function.comp_def,
        TrafficLight.deactivateEmergency] using hs

theorem phasePattern_run (ops : List Op) (w : Sim)
    (hops : ∀ op ∈ ops, op.isOverride = false) (h : phasePattern w.inter) :
    phasePattern (w.run ops).inter := by
  induction ops generalizing w with
  | nil => exact h
  | cons op rest ih =>
    show phasePattern ((w.step op).run rest).inter
    apply ih
    · intro o ho; exact hops o (List.mem_cons_of_mem _ ho)
    · exact phasePattern_step w op (hops op (List.mem_cons_self _ _)) h

/-! ## C1 -/

/-- Instance of the phase schedule: from the state after the first toggle
(EAST/WEST GREEN), 30 further calls turn EAST and WEST YELLOW and keep phase 1. -/
theorem C2_phase_schedule_witness :
    (simAfterToggle.inter.currentPhase = 0 ∨ simAfterToggle.inter.currentPhase = 1) ∧
    (switchTicks simAfterToggle.inter 0 (List.replicate 30 36000000000)).1.lights.map
        (fun light => light.state)
      = [.RED, .RED, .YELLOW, .YELLOW] ∧
    (switchTicks simAfterToggle.inter 0 (List.replicate 30 36000000000)).1.currentPhase = 1 :=
  ⟨by decide,
    ((C2_phase_schedule simAfterToggle.inter (List.replicate 30 36000000000)
      (by decide)).2.1 (by decide) (by decide)).1.trans (by decide),
    ((C2_phase_schedule simAfterToggle.inter (List.replicate 30 36000000000)
      (by decide)).2.1 (by decide) (by decide)).2.trans (by decide)⟩

/-! ## C3, C4 witnesses -/

/-- Instance of the override theorem: an intersection in override for NORTH is
put in override for EAST. -/
theorem C3_override_one_green_witness :
    oneLightPerDirection overrideNorth ∧
    (overrideNorth.handleEmergencyVehicle .EAST 5).emergencyMode = true ∧
    stateOf (overrideNorth.handleEmergencyVehicle .EAST 5) .EAST = some .GREEN ∧
    stateOf (overrideNorth.handleEmergencyVehicle .EAST 5) .NORTH = some .RED :=
  ⟨by decide,
    (C3_override_one_green overrideNorth .EAST 5 (by decide)).1,
    (C3_override_one_green overrideNorth .EAST 5 (by decide)).2.1,
    (C3_override_one_green overrideNorth .EAST 5 (by decide)).2.2.1
      .NORTH (by decide)⟩

/-- Instance of the frame theorem: three ticks in override for NORTH. -/
theorem C4_override_freezes_phase_witness :
    overrideNorth.emergencyMode = true ∧
    (updateTicks overrideNorth 7 [1000000000, 2000000000, 3000000000]).1.currentPhase
      = overrideNorth.currentPhase ∧
    (updateTicks overrideNorth 7 [1000000000, 2000000000, 3000000000]).2 = 7 ∧
    (updateTicks overrideNorth 7 [1000000000, 2000000000, 3000000000]).1.lights.map
        (fun light => light.state)
      = [.GREEN, .RED, .RED, .RED] :=
  ⟨by decide,
    (C4_override_freezes_phase overrideNorth 7 [1000000000, 2000000000, 3000000000]
      (by decide)).2.1,
    (C4_override_freezes_phase overrideNorth 7 [1000000000, 2000000000, 3000000000]
      (by decide)).2.2.1,
    (C4_override_freezes_phase overrideNorth 7 [1000000000, 2000000000, 3000000000]
      (by decide)).2.2.2.trans (by decide)⟩

/-! ## C5 -/

/-- C5 (evaluation of the code): `normalOperation` always sets the phase index
to 0, but after an override for EAST, `normalOperation` and one tick a second
later, the phase index is 0 while NORTH and SOUTH are RED and EAST is still
GREEN. -/
theorem C5_resume_leaves_override_lights :
    (∀ s : Intersection, s.normalOperation.currentPhase = 0 ∧
      s.normalOperation.emergencyMode = false) ∧
    ((freshSim "I1" 0).run
      [Op.override .EAST 0, Op.normal, Op.update 1000000000]).inter.currentPhase = 0 ∧
    ((freshSim "I1" 0).run
      [Op.override .EAST 0, Op.normal, Op.update 1000000000]).inter.emergencyMode = false ∧
    ((freshSim "I1" 0).run
      [Op.override .EAST 0, Op.normal, Op.update 1000000000]).phaseTimer = 1 ∧
    ((freshSim "I1" 0).run
      [Op.override .EAST 0, Op.normal, Op.update 1000000000]).inter.lights.map
        (fun light => (light.direction, light.state))
      = [(.NORTH, .RED), (.SOUTH, .RED), (.EAST, .GREEN), (.WEST, .RED)] := by
  refine ⟨fun s => ⟨rfl, rfl⟩, ?_, ?_, ?_, ?_⟩ <;> decide

/-! ## C6 -/

theorem pqTop_minimal (q : List Vehicle) (t : Vehicle) (h : pqTop q = some t) :
    t ∈ q ∧ ∀ x ∈ q, t.priority ≤ x.priority := by
  unfold pqTop at h
  refine ⟨List.mem_of_find?_eq_some h, ?_⟩
  have := List.find?_some h
  simp only [List.all_eq_true, Vehicle.gt, Bool.not_eq_true', decide_eq_false_iff_not] at this
  intro x hx
  have := this x hx
  omega

/-- C6 (evaluation of the code): the vehicle `processEmergencyQueue` takes from
the pending queue is always one of lowest priority; with A, B, C of priorities
100, 100, 5 handed over in this order, C is taken first and reaches the NORTH
lane before A and B. -/
theorem C6_lowest_priority_dispatched_first :
    (∀ (q : List Vehicle) (t : Vehicle), pqTop q = some t →
      t ∈ q ∧ ∀ x ∈ q, t.priority ≤ x.priority) ∧
    controllerABC.emergencyQueue = [vehicleA, vehicleB, vehicleC] ∧
    [vehicleA.priority, vehicleB.priority, vehicleC.priority] = [100, 100, 5] ∧
    pqTop controllerABC.emergencyQueue = some vehicleC ∧
    (controllerABC.processEmergencyQueue 4).intersections.map
        (fun intersection => (intersection.getQueue .NORTH).head?)
      = [some vehicleC] ∧
    (controllerABC.processEmergencyQueue 4).intersections.map
        (fun intersection => intersection.getQueue .NORTH)
      ≠ [[vehicleA, vehicleB, vehicleC]] := by
  refine ⟨pqTop_minimal, ?_, ?_, ?_, ?_, ?_⟩ <;> decide

/-! ## C7, C8, C9 witnesses -/

/-- Instance of the admission theorem: a car heading EAST is admitted to an
intersection in override for NORTH. -/
theorem C7_addVehicle_grows_one_lane_witness :
    overrideNorth.vehicleQueues.length = 4 ∧
    (overrideNorth.addVehicle carEast 7).getQueueLength .EAST = 1 ∧
    (overrideNorth.addVehicle carEast 7).getQueueLength .NORTH = 0 ∧
    (overrideNorth.addVehicle carEast 7).emergencyMode = true :=
  ⟨by decide,
    (C7_addVehicle_grows_one_lane overrideNorth carEast 7 (by decide)).1.trans (by decide),
    ((C7_addVehicle_grows_one_lane overrideNorth carEast 7 (by decide)).2.2.1
      .NORTH (by decide)).1.trans (by decide),
    (C7_addVehicle_grows_one_lane overrideNorth carEast 7 (by decide)).2.2.2.2.2.trans
      (by decide)⟩

/-- Instance of the FIFO theorem: A, a car heading EAST, B and C are admitted;
lane NORTH (GREEN) releases A, B, C in this order. -/
theorem C8_lane_fifo_witness :
    overrideNorth.vehicleQueues.length = 4 ∧
    overrideNorth.getQueue .NORTH = [] ∧
    laneGreen overrideNorth .NORTH = true ∧
    (removeN (addAll overrideNorth
        [(vehicleA, 1), (carEast, 2), (vehicleB, 3), (vehicleC, 4)]) .NORTH 9 3).1
      = [vehicleA, vehicleB, vehicleC] ∧
    ((processN (addAll overrideNorth
        [(vehicleA, 1), (carEast, 2), (vehicleB, 3), (vehicleC, 4)]) 1).getQueue .NORTH).head?
      = some vehicleB :=
  ⟨by decide, by decide, by decide,
    (C8_lane_fifo overrideNorth .NORTH
      [(vehicleA, 1), (carEast, 2), (vehicleB, 3), (vehicleC, 4)] 9
      (by decide) (by decide)).1,
    (((C8_lane_fifo overrideNorth .NORTH
      [(vehicleA, 1), (carEast, 2), (vehicleB, 3), (vehicleC, 4)] 9
      (by decide) (by decide)).2 (by decide)) 1).2⟩

/-- Instance of the drain theorem: after the first toggle, with one car waiting
in lane EAST, lane NORTH is empty and stays empty under a drain, and a drain
right after an override for EAST empties lane EAST. -/
theorem C9_process_drains_green_heads_witness :
    simAfterToggle.inter.vehicleQueues.length = 4 ∧
    oneLightPerDirection simAfterToggle.inter ∧
    simAfterToggle.inter.getQueue .EAST = [carEast] ∧
    simAfterToggle.inter.processVehicleQueues.getQueue .NORTH = [] ∧
    (simAfterToggle.inter.handleEmergencyVehicle .EAST 7).processVehicleQueues.getQueue .EAST
      = [] :=
  ⟨by decide, by decide, by decide,
    (C9_process_drains_green_heads simAfterToggle.inter (by decide)
      (by decide)).2.2.2.1 .NORTH (by decide),
    ((C9_process_drains_green_heads simAfterToggle.inter (by decide)
      (by decide)).2.2.2.2.2 .EAST 7 .EAST).trans (by decide)⟩

/-! ## C10 -/

theorem switchToNextPhase_vehicleQueues (s : Intersection) (t now : Int) :
    (s.switchToNextPhase t now).1.vehicleQueues = s.vehicleQueues := by
  unfold Intersection.switchToNextPhase
  simp only []
  split
  · split <;> rfl
  · split <;> rfl

theorem updateSignals_decompose (s : Intersection) (t now : Int) :
    ∃ r : Intersection, (s.updateSignals t now).1 = r.processVehicleQueues ∧
      r.vehicleQueues = s.vehicleQueues := by
  unfold Intersection.updateSignals
  simp only []
  refine ⟨_, rfl, ?_⟩
  split
  · split
    · simp only []
      rw [switchToNextPhase_vehicleQueues]
    · rfl
  · rfl

theorem updateSignals_getQueue (s : Intersection) (t now : Int) (d : Direction)
    (h4 : s.vehicleQueues.length = 4) :
    (s.updateSignals t now).1.getQueue d
      = if laneGreen (s.updateSignals t now).1 d then (s.getQueue d).tail
        else s.getQueue d := by
  obtain ⟨r, hr, hq⟩ := updateSignals_decompose s t now
  have hr4 : r.vehicleQueues.length = 4 := by rw [hq]; exact h4
  have hg : laneGreen r.processVehicleQueues d = laneGreen r d := rfl
  have hrq : r.getQueue d = s.getQueue d := by
    unfold Intersection.getQueue; rw [hq]
  rw [hr, processVehicleQueues_getQueue r hr4 d, hg, hrq]

theorem updateSignals_length (s : Intersection) (t now : Int) :
    (s.updateSignals t now).1.vehicleQueues.length = s.vehicleQueues.length := by
  obtain ⟨r, hr, hq⟩ := updateSignals_decompose s t now
  rw [hr, processVehicleQueues_length, hq]

/-- C10 (as amended): every `updateSignals` call, whether or not a whole second
has elapsed since the last update, removes the head vehicle of a lane exactly
when the lane's light is GREEN at the drain and leaves the lane unchanged
otherwise; so over any run of `updateSignals` calls the number of vehicles
drained from a lane is at most the number of calls on which its light was
GREEN. -/
theorem C10_one_drain_per_call (s : Intersection) (t : Int) (d : Direction)
    (nows : List Int) (h4 : s.vehicleQueues.length = 4) :
    (∀ now, (s.updateSignals t now).1.getQueue d
        = if laneGreen (s.updateSignals t now).1 d then (s.getQueue d).tail
          else s.getQueue d) ∧
    s.getQueueLength d
      ≤ (updateTicks s t nows).1.getQueueLength d + (greenCalls s t d nows : Int) := by
  refine ⟨fun now => updateSignals_getQueue s t now d h4, ?_⟩
  induction nows generalizing s t with
  | nil => simp [updateTicks, greenCalls]
  | cons now rest ih =>
    have h4' : (s.updateSignals t now).1.vehicleQueues.length = 4 := by
      rw [updateSignals_length]; exact h4
    have step := updateSignals_getQueue s t now d h4
    have hi := ih (s.updateSignals t now).1 (s.updateSignals t now).2 h4'
    simp only [updateTicks, greenCalls]
    rw [getQueueLength_eq _ _ h4', step] at hi
    rw [getQueueLength_eq _ _ h4]
    by_cases hg : laneGreen (s.updateSignals t now).1 d = true
    · simp only [hg, if_true] at hi ⊢
      have : ((s.getQueue d).length : Int) ≤ ((s.getQueue d).tail.length : Int) + 1 := by
        cases s.getQueue d <;> simp
      push_cast
      omega
    · simp only [hg] at hi ⊢
      simp only [Bool.false_eq_true, if_false] at hi ⊢
      push_cast
      omega

/-- On the state after the first toggle with one car waiting in lane EAST
(GREEN), an `updateSignals` call half a second after the last update (no tick:
timer and lights unchanged) drains the car. -/
theorem C10_counterexample_drain_without_tick :
    elapsedSeconds 35500000000 simAfterToggle.inter.lastUpdate < 1 ∧
    simAfterToggle.inter.getQueueLength .EAST = 1 ∧
    (simAfterToggle.inter.updateSignals simAfterToggle.phaseTimer 35500000000).2
      = simAfterToggle.phaseTimer ∧
    (simAfterToggle.inter.updateSignals simAfterToggle.phaseTimer 35500000000).1.lights
      = simAfterToggle.inter.lights ∧
    (simAfterToggle.inter.updateSignals simAfterToggle.phaseTimer
      35500000000).1.getQueueLength .EAST = 0 := by
  decide

/-- Instance of the drain bound: two calls within the same second on the state
after the first toggle; the single waiting car leaves on the first call. -/
theorem C10_one_drain_per_call_witness :
    simAfterToggle.inter.vehicleQueues.length = 4 ∧
    simAfterToggle.inter.getQueueLength .EAST
      ≤ (updateTicks simAfterToggle.inter 0 [35500000000, 35600000000]).1.getQueueLength .EAST
        + (greenCalls simAfterToggle.inter 0 .EAST [35500000000, 35600000000] : Int) ∧
    greenCalls simAfterToggle.inter 0 .EAST [35500000000, 35600000000] = 2 :=
  ⟨by decide,
    (C10_one_drain_per_call simAfterToggle.inter 0 .EAST [35500000000, 35600000000]
      (by decide)).2,
    by decide⟩

/-! ## C19 -/

/-- C19: `changeState(s)` sets the state to `s` and sets both duration and
remaining time to the default of `s` (RED 30, YELLOW 5, GREEN 25, FLASHING_RED 1,
FLASHING_YELLOW 1) whatever the light was before, and leaves direction and
emergency flag unchanged. -/
theorem C19_changeState_defaults (l : TrafficLight) (now : Int) :
    (∀ s, (l.changeState s now).state = s ∧
      (l.changeState s now).timeLeft = (l.changeState s now).duration ∧
      (l.changeState s now).direction = l.direction ∧
      (l.changeState s now).emergencyMode = l.emergencyMode) ∧
    (l.changeState .RED now).duration = 30 ∧
    (l.changeState .YELLOW now).duration = 5 ∧
    (l.changeState .GREEN now).duration = 25 ∧
    (l.changeState .FLASHING_RED now).duration = 1 ∧
    (l.changeState .FLASHING_YELLOW now).duration = 1 :=
  ⟨fun _ => ⟨rfl, rfl, rfl, rfl⟩, rfl, rfl, rfl, rfl, rfl⟩

/-! ## C20 -/

/-- C20: `activateEmergency` sets the state to RED with remaining time 30 and
the emergency flag to true; `deactivateEmergency` sets the emergency flag to
false and leaves state, duration, remaining time (and direction) as they were. -/
theorem C20_emergency_flag (l : TrafficLight) (now : Int) :
    (l.activateEmergency now).state = .RED ∧
    (l.activateEmergency now).timeLeft = 30 ∧
    (l.activateEmergency now).duration = 30 ∧
    (l.activateEmergency now).emergencyMode = true ∧
    (l.activateEmergency now).direction = l.direction ∧
    l.deactivateEmergency.emergencyMode = false ∧
    l.deactivateEmergency.state = l.state ∧
    l.deactivateEmergency.duration = l.duration ∧
    l.deactivateEmergency.timeLeft = l.timeLeft ∧
    l.deactivateEmergency.direction = l.direction ∧
    l.deactivateEmergency.lastUpdate = l.lastUpdate :=
  ⟨rfl, rfl, rfl, rfl, rfl, rfl, rfl, rfl, rfl, rfl, rfl⟩

/-! ## C18 -/

/-- C18 (as amended): when at least one whole second has elapsed since the
light's last update, `update` lowers a positive remaining time by exactly one,
whatever the number of seconds elapsed, and leaves a remaining time of 0 at 0,
that is, it sets the remaining time `t ≥ 0` to `max 0 (t - 1)`; when less than
one second has elapsed the light is unchanged; in both cases state, direction,
duration and emergency flag are unchanged and a non-negative remaining time
stays non-negative. -/
theorem C18_update_decrements_by_one (l : TrafficLight) (now : Int) (ht : 0 ≤ l.timeLeft) :
    (elapsedSeconds now l.lastUpdate ≥ 1 → (l.update now).timeLeft = max 0 (l.timeLeft - 1)) ∧
    (elapsedSeconds now l.lastUpdate < 1 → l.update now = l) ∧
    0 ≤ (l.update now).timeLeft ∧
    (l.update now).state = l.state ∧
    (l.update now).direction = l.direction ∧
    (l.update now).duration = l.duration ∧
    (l.update now).emergencyMode = l.emergencyMode := by
  by_cases he : elapsedSeconds now l.lastUpdate ≥ 1
  · have hu : l.update now
        = { l with timeLeft := if l.timeLeft > 0 then l.timeLeft - 1 else l.timeLeft,
                   lastUpdate := now } := by
      unfold TrafficLight.update; rw [if_pos he]
    rw [hu]
    refine ⟨fun _ => ?_, fun h => by omega, ?_, rfl, rfl, rfl, rfl⟩
    · show (if l.timeLeft > 0 then l.timeLeft - 1 else l.timeLeft) = max 0 (l.timeLeft - 1)
      split <;> omega
    · show 0 ≤ (if l.timeLeft > 0 then l.timeLeft - 1 else l.timeLeft)
      split <;> omega
  · have hu : l.update now = l := by
      unfold TrafficLight.update; rw [if_neg he]
    rw [hu]
    exact ⟨fun h => absurd h he, fun _ => rfl, ht, rfl, rfl, rfl, rfl⟩

/-- With 30 seconds left and two whole seconds elapsed since the last update,
`update` leaves 29 seconds, not `max 0 (30 - 2) = 28`. -/
theorem C18_counterexample_two_seconds :
    lightNorth.timeLeft = 30 ∧
    elapsedSeconds 2000000000 lightNorth.lastUpdate = 2 ∧
    (lightNorth.update 2000000000).timeLeft = 29 ∧
    (lightNorth.update 2000000000).timeLeft ≠ max 0 (lightNorth.timeLeft - 2) := by
  decide

/-- Instance of the update theorem: five whole seconds elapsed, one second
taken off. -/
theorem C18_update_decrements_by_one_witness :
    0 ≤ lightNorth.timeLeft ∧ (lightNorth.update 5000000000).timeLeft = 29 :=
  ⟨by decide,
    ((C18_update_decrements_by_one lightNorth 5000000000 (by decide)).1 (by decide)).trans
      (by decide)⟩


/-! ## Association lists -/

theorem mapFind?_mapAssign_self {κ ν : Type} [DecidableEq κ] (m : List (κ × ν)) (k : κ)
    (v : ν) : mapFind? (mapAssign m k v) k = some v := by
  unfold mapFind? mapAssign
  by_cases h : m.any (fun p => decide (p.1 = k)) = true
  · rw [if_pos h]
    induction m with
    | nil => simp at h
    | cons a rest ih =>
      by_cases ha : a.1 = k
      · simp [List.find?_cons, ha]
      · have hrest : rest.any (fun p => decide (p.1 = k)) = true := by
          simpa [ha] using h
        simpa [List.find?_cons, ha] using ih hrest
  · rw [if_neg h]
    have hnone : m.find? (fun p => decide (p.1 = k)) = none := by
      rw [List.find?_eq_none]
      intro x hx hxk
      exact h (List.any_eq_true.mpr ⟨x, hx, hxk⟩)
    simp [List.find?_append, hnone]

theorem mapFind?_mapAssign_ne {κ ν : Type} [DecidableEq κ] (m : List (κ × ν)) (k k' : κ)
    (v : ν) (hk : k' ≠ k) : mapFind? (mapAssign m k v) k' = mapFind? m k' := by
  unfold mapFind? mapAssign
  have hk2 : ¬ k = k' := fun e => hk e.symm
  by_cases h : m.any (fun p => decide (p.1 = k)) = true
  · rw [if_pos h]
    clear h
    induction m with
    | nil => rfl
    | cons a rest ih =>
      by_cases ha : a.1 = k
      · have ha' : ¬ a.1 = k' := by rw [ha]; exact hk2
        simpa [List.find?_cons, ha, ha', hk2] using ih
      · by_cases hb : a.1 = k'
        · have hb' : ¬ k' = k := hk
          simp [List.find?_cons, ha, hb, hb']
        · simpa [List.find?_cons, ha, hb] using ih
  · rw [if_neg h]
    simp [List.find?_append, hk2]

/-! ## C11 -/

theorem modifyIntersection_find (id : String) (f : Intersection → Intersection)
    (hf : ∀ x, (f x).id = x.id) (xs : List Intersection) (x : Intersection)
    (h : xs.find? (fun intersection => intersection.id = id) = some x) :
    (modifyIntersection id f xs).find? (fun intersection => intersection.id = id)
      = some (f x) := by
  induction xs with
  | nil => simp at h
  | cons a rest ih =>
    unfold modifyIntersection
    by_cases ha : a.id = id
    · simp only [List.find?_cons, ha, decide_True] at h
      simp only [Option.some.injEq] at h
      subst h
      simp [ha, List.find?_cons, hf]
    · simp only [List.find?_cons, ha, decide_False] at h
      simp [ha, List.find?_cons, ih h]

theorem normalOperation_spec (x : Intersection) :
    x.normalOperation.emergencyMode = false ∧
    x.normalOperation.currentPhase = 0 ∧
    (∀ l ∈ x.normalOperation.lights, l.emergencyMode = false) ∧
    x.normalOperation.lights.map
        (fun l => (l.state, l.timeLeft, l.duration, l.direction, l.lastUpdate))
      = x.lights.map (fun l => (l.state, l.timeLeft, l.duration, l.direction, l.lastUpdate)) ∧
    x.normalOperation.vehicleQueues = x.vehicleQueues := by
  refine ⟨rfl, rfl, ?_, ?_, rfl⟩
  · intro l hl
    simp only [Intersection.normalOperation, List.mem_map] at hl
    obtain ⟨a, _, rfl⟩ := hl
    rfl
  · simp [Intersection.normalOperation, Function.comp_def, TrafficLight.deactivateEmergency]

/-- C15: `clearEmergencyMode` sets `emergencyActive` to false and, on every
intersection, sets `emergencyMode` to false, clears the emergency flag of every
light and sets the phase index to 0; every light keeps its state, remaining
time, duration and direction, every lane queue is unchanged, and so are the
pending list and the statistics. -/
theorem C15_clearEmergencyMode (c : TrafficController) :
    c.clearEmergencyMode.emergencyActive = false ∧
    (∀ x ∈ c.clearEmergencyMode.intersections,
      x.emergencyMode = false ∧ x.currentPhase = 0 ∧
      ∀ l ∈ x.lights, l.emergencyMode = false) ∧
    c.clearEmergencyMode.intersections.map (fun x => x.lights.map
        (fun l => (l.state, l.timeLeft, l.duration, l.direction, l.lastUpdate)))
      = c.intersections.map (fun x => x.lights.map
        (fun l => (l.state, l.timeLeft, l.duration, l.direction, l.lastUpdate))) ∧
    c.clearEmergencyMode.intersections.map (fun x => x.vehicleQueues)
      = c.intersections.map (fun x => x.vehicleQueues) ∧
    c.clearEmergencyMode.intersections.map (fun x => x.id)
      = c.intersections.map (fun x => x.id) ∧
    c.clearEmergencyMode.emergencyQueue = c.emergencyQueue ∧
    c.clearEmergencyMode.statistics = c.statistics := by
  refine ⟨rfl, ?_, ?_, ?_, ?_, rfl, rfl⟩
  · intro x hx
    simp only [TrafficController.clearEmergencyMode, List.mem_map] at hx
    obtain ⟨a, _, rfl⟩ := hx
    obtain ⟨h1, h2, h3, _, _⟩ := normalOperation_spec a
    exact ⟨h1, h2, h3⟩
  · simp only [TrafficController.clearEmergencyMode, List.map_map]
    apply List.map_congr_left
    intro a _
    exact (normalOperation_spec a).2.2.2.1
  · simp only [TrafficController.clearEmergencyMode, List.map_map]
    apply List.map_congr_left
    intro a _
    rfl
  · simp only [TrafficController.clearEmergencyMode, List.map_map]
    apply List.map_congr_left
    intro a _
    rfl

/-! ## C16 -/

theorem setFirstGreen_emergencyMode (d : Direction) (now : Int) (ls : List TrafficLight) :
    (setFirstGreen d now ls).map (fun light => light.emergencyMode)
      = ls.map (fun light => light.emergencyMode) := by
  induction ls with
  | nil => rfl
  | cons l rest ih =>
    unfold setFirstGreen
    split
    · simp [TrafficLight.changeState]
    · simp [ih]

theorem handleEmergencyVehicle_flags (s : Intersection) (d : Direction) (now : Int) :
    ∀ l ∈ (s.handleEmergencyVehicle d now).lights, l.emergencyMode = true := by
  have h : (s.handleEmergencyVehicle d now).lights.map (fun light => light.emergencyMode)
      = s.lights.map (fun _ => true) := by
    unfold Intersection.handleEmergencyVehicle
    simp only [setFirstGreen_emergencyMode, List.map_map]
    apply List.map_congr_left
    intro a _
    rfl
  intro l hl
  have hmem : l.emergencyMode ∈
      (s.handleEmergencyVehicle d now).lights.map (fun light => light.emergencyMode) :=
    List.mem_map_of_mem _ hl
  rw [h] at hmem
  simp only [List.mem_map] at hmem
  obtain ⟨_, _, e⟩ := hmem
  exact e.symm

theorem wrapInt32_of_range (x : Int) (h1 : -2147483648 ≤ x) (h2 : x ≤ 2147483647) :
    wrapInt32 x = x := by
  unfold wrapInt32
  omega

/-- C16 (amended): on a controller with at least one intersection,
`handleEmergencyVehicle(v)` with `v` an emergency vehicle appends exactly `v` to
the pending list (one more element), sets `emergencyActive`, replaces the first
intersection by its override for `v`'s direction and leaves the others alone
(emergency mode true, every light's emergency flag set and, with one light per
direction, the light of `v`'s direction GREEN and the others RED), and stores in
the emergency count and in the override count the 32-bit value of the old count
plus one: exactly one more as long as the count is an `int` below 2147483647;
with `v` no emergency vehicle the controller is returned unchanged. -/
theorem C16_override_entry (c : TrafficController) (v : Vehicle) (now : Int)
    (first : Intersection) (rest : List Intersection)
    (hc : c.intersections = first :: rest) :
    (v.isEmergencyVehicle = true →
      (c.handleEmergencyVehicle v now).emergencyQueue = c.emergencyQueue ++ [v] ∧
      (c.handleEmergencyVehicle v now).emergencyQueue.length = c.emergencyQueue.length + 1 ∧
      (c.handleEmergencyVehicle v now).emergencyActive = true ∧
      (c.handleEmergencyVehicle v now).intersections
        = first.handleEmergencyVehicle v.direction now :: rest ∧
      (first.handleEmergencyVehicle v.direction now).emergencyMode = true ∧
      (∀ l ∈ (first.handleEmergencyVehicle v.direction now).lights, l.emergencyMode = true) ∧
      (oneLightPerDirection first →
        ∀ l ∈ (first.handleEmergencyVehicle v.direction now).lights,
          l.state = if l.direction = v.direction then TrafficState.GREEN
            else TrafficState.RED) ∧
      (c.handleEmergencyVehicle v now).statistics.emergencyVehicles
        = wrapInt32 (c.statistics.emergencyVehicles + 1) ∧
      (c.handleEmergencyVehicle v now).statistics.emergencyOverrides
        = wrapInt32 (c.statistics.emergencyOverrides + 1) ∧
      (-2147483648 ≤ c.statistics.emergencyVehicles →
        c.statistics.emergencyVehicles < 2147483647 →
        (c.handleEmergencyVehicle v now).statistics.emergencyVehicles
          = c.statistics.emergencyVehicles + 1) ∧
      (-2147483648 ≤ c.statistics.emergencyOverrides →
        c.statistics.emergencyOverrides < 2147483647 →
        (c.handleEmergencyVehicle v now).statistics.emergencyOverrides
          = c.statistics.emergencyOverrides + 1) ∧
      (c.handleEmergencyVehicle v now).statistics.totalVehicles
        = c.statistics.totalVehicles) ∧
    (v.isEmergencyVehicle = false → c.handleEmergencyVehicle v now = c) := by
  constructor
  · intro hv
    have hres : c.handleEmergencyVehicle v now
        = { c with
            emergencyQueue := pqPush c.emergencyQueue v,
            emergencyActive := true,
            intersections := first.handleEmergencyVehicle v.direction now :: rest,
            statistics := (c.statistics.updateEmergencyCount 1).updateEmergencyOverride } := by
      unfold TrafficController.handleEmergencyVehicle
      rw [if_pos hv, hc]
    rw [hres]
    refine ⟨rfl, by simp [pqPush], rfl, rfl, rfl,
      handleEmergencyVehicle_flags first v.direction now,
      fun h1 => handleEmergencyVehicle_lights first v.direction now h1, rfl, rfl, ?_, ?_, rfl⟩
    · intro h1 h2
      show wrapInt32 (c.statistics.emergencyVehicles + 1) = _
      exact wrapInt32_of_range _ (by omega) (by omega)
    · intro h1 h2
      show wrapInt32 (c.statistics.emergencyOverrides + 1) = _
      exact wrapInt32_of_range _ (by omega) (by omega)
  · intro hv
    unfold TrafficController.handleEmergencyVehicle
    rw [if_neg (by simp [hv])]

/-- C16 as stated fails when a counter is at the largest `int` value: on the
controller whose emergency count is 2147483647, handing over the emergency
vehicle A leaves the count at -2147483648, not at one more. -/
theorem C16_counterexample_counter_full :
    controllerCounterFull.intersections = [newIntersection "I1" 0] ∧
    vehicleA.isEmergencyVehicle = true ∧
    controllerCounterFull.statistics.emergencyVehicles = 2147483647 ∧
    (controllerCounterFull.handleEmergencyVehicle vehicleA 1).statistics.emergencyVehicles
      = -2147483648 ∧
    (controllerCounterFull.handleEmergencyVehicle vehicleA 1).statistics.emergencyVehicles
      ≠ controllerCounterFull.statistics.emergencyVehicles + 1 := by
  refine ⟨?_, ?_, ?_, ?_, ?_⟩ <;> decide

/-- Instance of the override-entry theorem: C (an ambulance heading NORTH) is
handed to a controller with one fresh intersection, both counters being 0. -/
theorem C16_override_entry_witness :
    ((TrafficController.new 0).addIntersection "I1" 0).intersections
      = newIntersection "I1" 0 :: [] ∧
    vehicleC.isEmergencyVehicle = true ∧
    (((TrafficController.new 0).addIntersection "I1" 0).handleEmergencyVehicle
      vehicleC 3).emergencyQueue = [vehicleC] ∧
    (((TrafficController.new 0).addIntersection "I1" 0).handleEmergencyVehicle
      vehicleC 3).emergencyActive = true ∧
    (((TrafficController.new 0).addIntersection "I1" 0).handleEmergencyVehicle
      vehicleC 3).statistics.emergencyVehicles = 1 ∧
    (((TrafficController.new 0).addIntersection "I1" 0).handleEmergencyVehicle
      vehicleC 3).statistics.emergencyOverrides = 1 :=
  ⟨by decide, by decide,
    ((C16_override_entry ((TrafficController.new 0).addIntersection "I1" 0) vehicleC 3
      (newIntersection "I1" 0) [] (by decide)).1 (by decide)).1,
    ((C16_override_entry ((TrafficController.new 0).addIntersection "I1" 0) vehicleC 3
      (newIntersection "I1" 0) [] (by decide)).1 (by decide)).2.2.1,
    ((C16_override_entry ((TrafficController.new 0).addIntersection "I1" 0) vehicleC 3
      (newIntersection "I1" 0) [] (by decide)).1 (by decide)).2.2.2.2.2.2.2.2.2.1
      (by decide) (by decide),
    ((C16_override_entry ((TrafficController.new 0).addIntersection "I1" 0) vehicleC 3
      (newIntersection "I1" 0) [] (by decide)).1 (by decide)).2.2.2.2.2.2.2.2.2.2.1
      (by decide) (by decide)⟩


/-! ## C17 -/

theorem exists_min_priority (q : List Vehicle) (hq : q ≠ []) :
    ∃ t ∈ q, ∀ x ∈ q, t.priority ≤ x.priority := by
  induction q with
  | nil => exact absurd rfl hq
  | cons a rest ih =>
    cases rest with
    | nil => exact ⟨a, List.mem_cons_self _ _, by simp⟩
    | cons b rest' =>
      obtain ⟨m, hm, hmin⟩ := ih (by simp)
      by_cases hle : a.priority ≤ m.priority
      · refine ⟨a, List.mem_cons_self _ _, ?_⟩
        intro x hx
        rcases List.mem_cons.mp hx with rfl | hx
        · exact le_refl _
        · exact le_trans hle (hmin x hx)
      · refine ⟨m, List.mem_cons_of_mem _ hm, ?_⟩
        intro x hx
        rcases List.mem_cons.mp hx with rfl | hx
        · omega
        · exact hmin x hx

theorem pqTop_of_ne_nil (q : List Vehicle) (hq : q ≠ []) :
    ∃ t, pqTop q = some t ∧ (pqPop q).length + 1 = q.length := by
  obtain ⟨m, hm, hmin⟩ := exists_min_priority q hq
  have hp : (q.all (fun x => !(m.gt x))) = true := by
    simp only [List.all_eq_true, Vehicle.gt, Bool.not_eq_true', decide_eq_false_iff_not]
    intro x hx
    have := hmin x hx
    omega
  have hlen : (pqPop q).length = q.length - 1 := by
    unfold pqPop
    exact List.length_eraseP_of_mem hm hp
  have hpos : 0 < q.length := List.length_pos.mpr hq
  cases ht : pqTop q with
  | none =>
    unfold pqTop at ht
    rw [List.find?_eq_none] at ht
    exact absurd hp (ht m hm)
  | some t => exact ⟨t, rfl, by omega⟩

theorem processEmergencyLoop_of_nil (fuel : Nat) (c : TrafficController) (now : Int)
    (h : c.emergencyQueue = []) : processEmergencyLoop fuel c now = c := by
  cases fuel with
  | zero => rfl
  | succ n => simp [processEmergencyLoop, h]

theorem processEmergencyLoop_exit (now : Int) (n : Nat) :
    ∀ (c : TrafficController) (fuel : Nat), c.emergencyQueue.length = n + 1 →
      c.emergencyActive = true → n + 1 ≤ fuel →
      (processEmergencyLoop fuel c now).emergencyQueue = [] ∧
      (processEmergencyLoop fuel c now).emergencyActive = false ∧
      ∀ x ∈ (processEmergencyLoop fuel c now).intersections,
        x.emergencyMode = false ∧ x.currentPhase = 0 := by
  induction n with
  | zero =>
    intro c fuel hlen hact hfuel
    have hne : c.emergencyQueue ≠ [] := by
      intro e; rw [e] at hlen; simp at hlen
    obtain ⟨t, ht, hpop⟩ := pqTop_of_ne_nil c.emergencyQueue hne
    have hempty : pqPop c.emergencyQueue = [] := by
      apply List.eq_nil_of_length_eq_zero; omega
    obtain ⟨f, rfl⟩ : ∃ f, fuel = f + 1 := ⟨fuel - 1, by omega⟩
    have hcond : (!c.emergencyQueue.isEmpty && c.emergencyActive) = true := by
      cases hq : c.emergencyQueue with
      | nil => exact absurd hq hne
      | cons a r => simp [hact]
    simp only [processEmergencyLoop, hcond, if_true, ht, hempty, List.isEmpty_nil]
    rw [processEmergencyLoop_of_nil _ _ _ rfl]
    refine ⟨rfl, rfl, ?_⟩
    intro x hx
    simp only [TrafficController.clearEmergencyMode, List.mem_map] at hx
    obtain ⟨a, _, rfl⟩ := hx
    exact ⟨rfl, rfl⟩
  | succ n ih =>
    intro c fuel hlen hact hfuel
    have hne : c.emergencyQueue ≠ [] := by
      intro e; rw [e] at hlen; simp at hlen
    obtain ⟨t, ht, hpop⟩ := pqTop_of_ne_nil c.emergencyQueue hne
    have hpoplen : (pqPop c.emergencyQueue).length = n + 1 := by omega
    have hpopne : (pqPop c.emergencyQueue).isEmpty = false := by
      cases hq : pqPop c.emergencyQueue with
      | nil => rw [hq] at hpoplen; simp at hpoplen
      | cons a r => rfl
    obtain ⟨f, rfl⟩ : ∃ f, fuel = f + 1 := ⟨fuel - 1, by omega⟩
    have hcond : (!c.emergencyQueue.isEmpty && c.emergencyActive) = true := by
      cases hq : c.emergencyQueue with
      | nil => exact absurd hq hne
      | cons a r => simp [hact]
    simp only [processEmergencyLoop, hcond, if_true, ht, hpopne]
    exact ih _ f hpoplen hact (by omega)

theorem processEmergencyLoop_succ (now : Int) (fuel : Nat) :
    ∀ c : TrafficController, c.emergencyQueue.length ≤ fuel →
      processEmergencyLoop (fuel + 1) c now = processEmergencyLoop fuel c now := by
  induction fuel with
  | zero =>
    intro c h
    have : c.emergencyQueue = [] := List.eq_nil_of_length_eq_zero (by omega)
    rw [processEmergencyLoop_of_nil _ _ _ this, processEmergencyLoop_of_nil _ _ _ this]
  | succ f ih =>
    intro c h
    by_cases hne : c.emergencyQueue = []
    · rw [processEmergencyLoop_of_nil _ _ _ hne, processEmergencyLoop_of_nil _ _ _ hne]
    · obtain ⟨t, ht, hpop⟩ := pqTop_of_ne_nil c.emergencyQueue hne
      rw [processEmergencyLoop, processEmergencyLoop]
      split
      · simp only [ht]
        apply ih
        split
        · show (pqPop c.emergencyQueue).length ≤ f
          omega
        · show (pqPop c.emergencyQueue).length ≤ f
          omega
      · rfl

theorem processEmergencyLoop_enough (now : Int) (c : TrafficController) (k : Nat) :
    processEmergencyLoop (c.emergencyQueue.length + k) c now
      = processEmergencyLoop c.emergencyQueue.length c now := by
  induction k with
  | zero => rfl
  | succ k ih =>
    rw [← Nat.add_assoc, processEmergencyLoop_succ now _ c (by omega), ih]

theorem processEmergencyLoop_intersections_length (now : Int) (fuel : Nat) :
    ∀ c : TrafficController,
      (processEmergencyLoop fuel c now).intersections.length = c.intersections.length := by
  induction fuel with
  | zero => intro c; rfl
  | succ f ih =>
    intro c
    rw [processEmergencyLoop]
    split
    · split
      · rfl
      · rw [ih]
        split <;> simp [TrafficController.clearEmergencyMode]
    · rfl

/-- C17: with `emergencyActive` true and a non-empty pending list, the loop of
`processEmergencyQueue` stops (any number of allowed iterations from the length
of the pending list on gives the same final state) with the pending list
empty, `emergencyActive` false and every intersection out of emergency mode
with phase index 0; with an empty pending list `processEmergencyQueue` returns
the controller unchanged, an active override included. -/
theorem C17_override_exit (c : TrafficController) (now : Int) :
    (c.emergencyActive = true → c.emergencyQueue ≠ [] →
      (∀ fuel, c.emergencyQueue.length ≤ fuel →
        processEmergencyLoop fuel c now = c.processEmergencyQueue now) ∧
      (c.processEmergencyQueue now).emergencyQueue = [] ∧
      (c.processEmergencyQueue now).emergencyActive = false ∧
      (c.processEmergencyQueue now).intersections.length = c.intersections.length ∧
      ∀ x ∈ (c.processEmergencyQueue now).intersections,
        x.emergencyMode = false ∧ x.currentPhase = 0) ∧
    (c.emergencyQueue = [] →
      c.processEmergencyQueue now = c ∧
      ∀ fuel, processEmergencyLoop fuel c now = c) := by
  constructor
  · intro hact hne
    have hpos : 0 < c.emergencyQueue.length := List.length_pos.mpr hne
    obtain ⟨n, hn⟩ : ∃ n, c.emergencyQueue.length = n + 1 :=
      ⟨c.emergencyQueue.length - 1, by omega⟩
    obtain ⟨e1, e2, e3⟩ := processEmergencyLoop_exit now n c c.emergencyQueue.length hn hact
      (by omega)
    refine ⟨?_, e1, e2, ?_, e3⟩
    · intro fuel hfuel
      obtain ⟨k, rfl⟩ : ∃ k, fuel = c.emergencyQueue.length + k :=
        ⟨fuel - c.emergencyQueue.length, by omega⟩
      exact processEmergencyLoop_enough now c k
    · exact processEmergencyLoop_intersections_length now _ c
  · intro hnil
    exact ⟨processEmergencyLoop_of_nil _ c now hnil,
      fun fuel => processEmergencyLoop_of_nil fuel c now hnil⟩


/-- Instance of the override-exit theorem: the controller to which A, B and C
were handed ends with no pending vehicle and no override. -/
theorem C17_override_exit_witness :
    controllerABC.emergencyActive = true ∧
    controllerABC.emergencyQueue ≠ [] ∧
    (controllerABC.processEmergencyQueue 4).emergencyQueue = [] ∧
    (controllerABC.processEmergencyQueue 4).emergencyActive = false ∧
    processEmergencyLoop 10 controllerABC 4 = controllerABC.processEmergencyQueue 4 :=
  ⟨by decide, by decide,
    ((C17_override_exit controllerABC 4).1 (by decide) (by decide)).2.1,
    ((C17_override_exit controllerABC 4).1 (by decide) (by decide)).2.2.1,
    ((C17_override_exit controllerABC 4).1 (by decide) (by decide)).1 10 (by decide)⟩

/-! ## C12 -/

theorem switchToNextPhase_configureTiming (s : Intersection) (d : Direction) (g y : Int)
    (t now : Int) :
    (s.configureTiming d g y).switchToNextPhase t now
      = ((s.switchToNextPhase t now).1.configureTiming d g y,
         (s.switchToNextPhase t now).2) := by
  unfold Intersection.switchToNextPhase
  simp only []
  have hp : (s.configureTiming d g y).currentPhase = s.currentPhase := rfl
  by_cases h35 : t + 1 ≥ 35
  · simp only [if_pos h35, hp]
    by_cases h0 : Int.tmod (s.currentPhase + 1) 2 = 0
    · simp only [if_pos h0]
      try rfl
    · simp only [if_neg h0]
      try rfl
  · simp only [if_neg h35]
    by_cases h30 : t + 1 = 30
    · simp only [if_pos h30]
      try rfl
    · simp only [if_neg h30]
      try rfl

theorem updateSignals_configureTiming (s : Intersection) (d : Direction) (g y : Int)
    (t now : Int) :
    (s.configureTiming d g y).updateSignals t now
      = ((s.updateSignals t now).1.configureTiming d g y, (s.updateSignals t now).2) := by
  unfold Intersection.updateSignals Intersection.switchToNextPhase
  simp only []
  have hl : (s.configureTiming d g y).lastUpdate = s.lastUpdate := rfl
  have hem : (s.configureTiming d g y).emergencyMode = s.emergencyMode := rfl
  have hp : (s.configureTiming d g y).currentPhase = s.currentPhase := rfl
  rw [hl]
  by_cases he : elapsedSeconds now s.lastUpdate ≥ 1
  · simp only [if_pos he]
    cases hmode : s.emergencyMode
    · simp only [hem, hmode, Bool.not_false, if_true]
      by_cases h35 : t + 1 ≥ 35
      · simp only [if_pos h35, hp]
        by_cases h0 : Int.tmod (s.currentPhase + 1) 2 = 0
        · simp only [if_pos h0]
          try rfl
        · simp only [if_neg h0]
          try rfl
      · simp only [if_neg h35]
        by_cases h30 : t + 1 = 30
        · simp only [if_pos h30]
          try rfl
        · simp only [if_neg h30]
          try rfl
    · simp only [hem, hmode, Bool.not_true]
      try rfl
  · simp only [if_neg he]
    try rfl

/-- C12 (evaluation of the code): the scheduler never reads the configured
durations: one `updateSignals` call (and one `switchToNextPhase` call) gives
the same lights, phase and timer with and without a preceding
`configureTiming`. After `configureTiming(NORTH, 40, 5)` on a fresh
intersection NORTH turns GREEN on tick 70 with remaining time 25, is still
GREEN 29 ticks later, YELLOW 30 ticks later and RED after the toggle 35 ticks
later. -/
theorem C12_configured_durations_unused :
    (∀ (s : Intersection) (d : Direction) (g y t now : Int),
      (s.configureTiming d g y).updateSignals t now
        = ((s.updateSignals t now).1.configureTiming d g y, (s.updateSignals t now).2) ∧
      (s.configureTiming d g y).switchToNextPhase t now
        = ((s.switchToNextPhase t now).1.configureTiming d g y,
           (s.switchToNextPhase t now).2)) ∧
    mapFind? simConfigured.inter.greenDuration .NORTH = some 40 ∧
    mapFind? simConfigured.inter.yellowDuration .NORTH = some 5 ∧
    (simConfigured.run (tickOps 69)).inter.lights.map (fun l => l.state)
      = [.RED, .RED, .YELLOW, .YELLOW] ∧
    (simConfigured.run (tickOps 70)).inter.lights.map (fun l => (l.state, l.timeLeft))
      = [(.GREEN, 25), (.GREEN, 25), (.RED, 30), (.RED, 30)] ∧
    (simConfigured.run (tickOps 99)).inter.lights.map (fun l => l.state)
      = [.GREEN, .GREEN, .RED, .RED] ∧
    (simConfigured.run (tickOps 100)).inter.lights.map (fun l => l.state)
      = [.YELLOW, .YELLOW, .RED, .RED] ∧
    (simConfigured.run (tickOps 104)).inter.lights.map (fun l => l.state)
      = [.YELLOW, .YELLOW, .RED, .RED] ∧
    (simConfigured.run (tickOps 105)).inter.lights.map (fun l => l.state)
      = [.RED, .RED, .GREEN, .GREEN] := by
  refine ⟨fun s d g y t now => ⟨updateSignals_configureTiming s d g y t now,
    switchToNextPhase_configureTiming s d g y t now⟩, ?_, ?_, ?_, ?_, ?_, ?_, ?_, ?_⟩ <;> decide

/-! ## C14 -/

/-- C14 (evaluation of the code): the phase timer is one process-wide counter.
In a round of `updateAllIntersections` over two intersections the second starts
from the timer value the first left. With two fresh intersections X and Y ticked
once per second, after 17 rounds neither has toggled; on round 18 (X's 18th
tick) X toggles to phase 1 while Y stays in phase 0, whereas a lone
intersection is still in phase 0 after 18 ticks; Y toggles on round 35. -/
theorem C14_phase_timer_shared :
    (∀ (x y : Intersection) (t now : Int),
      updateEach now [x, y] t
        = ([(x.updateSignals t now).1, (y.updateSignals (x.updateSignals t now).2 now).1],
           (y.updateSignals (x.updateSignals t now).2 now).2)) ∧
    (updateRounds controllerXY 0 (secondsUpTo 1)).2 = 2 ∧
    (updateRounds controllerXY 0 (secondsUpTo 17)).1.intersections.map
        (fun x => (x.id, x.currentPhase)) = [("X", 0), ("Y", 0)] ∧
    (updateRounds controllerXY 0 (secondsUpTo 17)).2 = 34 ∧
    (updateRounds controllerXY 0 (secondsUpTo 18)).1.intersections.map
        (fun x => (x.id, x.currentPhase)) = [("X", 1), ("Y", 0)] ∧
    (updateRounds controllerXY 0 (secondsUpTo 18)).1.intersections.map
        (fun x => x.lights.map (fun l => l.state))
      = [[.RED, .RED, .GREEN, .GREEN], [.RED, .RED, .RED, .RED]] ∧
    ((freshSim "X" 0).run (tickOps 18)).inter.currentPhase = 0 ∧
    (updateRounds controllerXY 0 (secondsUpTo 35)).1.intersections.map
        (fun x => (x.id, x.currentPhase)) = [("X", 1), ("Y", 1)] := by
  refine ⟨fun x y t now => rfl, ?_, ?_, ?_, ?_, ?_, ?_, ?_⟩ <;> decide

/-! ## C21 -/

/-- C21: `canProceed()` is true exactly when the state is GREEN; it is false
in RED, YELLOW, FLASHING_RED and FLASHING_YELLOW, and two lights in the same
state agree on it whatever their remaining time, duration, emergency flag,
direction or last update. -/
theorem C21_canProceed_iff_green :
    (∀ l : TrafficLight, l.canProceed = true ↔ l.state = .GREEN) ∧
    (∀ l : TrafficLight, l.state = .RED ∨ l.state = .YELLOW ∨ l.state = .FLASHING_RED ∨
      l.state = .FLASHING_YELLOW → l.canProceed = false) ∧
    (∀ l l' : TrafficLight, l.state = l'.state → l.canProceed = l'.canProceed) := by
  refine ⟨?_, ?_, ?_⟩
  · intro l; simp [TrafficLight.canProceed]
  · intro l h
    rcases h with h | h | h | h <;> simp [TrafficLight.canProceed, h]
  · intro l l' h; simp [TrafficLight.canProceed, h]

/-! ## C22 -/

/-- C22: a vehicle as constructed has priority 100 for AMBULANCE, FIRE_TRUCK,
POLICE and EMERGENCY, 20 for BUS, 15 for TRUCK, 10 for CAR and 5 for
MOTORCYCLE; so its priority is 100 exactly when `isEmergencyVehicle()` is true,
and a constructed emergency vehicle has a greater priority than (compares `>`
to) every constructed non-emergency vehicle. -/
theorem C22_priority_by_class (id : String) (dir : Direction) (now : Int) :
    (Vehicle.new id .AMBULANCE dir now).priority = 100 ∧
    (Vehicle.new id .FIRE_TRUCK dir now).priority = 100 ∧
    (Vehicle.new id .POLICE dir now).priority = 100 ∧
    (Vehicle.new id .EMERGENCY dir now).priority = 100 ∧
    (Vehicle.new id .BUS dir now).priority = 20 ∧
    (Vehicle.new id .TRUCK dir now).priority = 15 ∧
    (Vehicle.new id .CAR dir now).priority = 10 ∧
    (Vehicle.new id .MOTORCYCLE dir now).priority = 5 ∧
    (∀ c : VehicleType, (Vehicle.new id c dir now).priority = 100 ↔
      (Vehicle.new id c dir now).isEmergencyVehicle = true) ∧
    (∀ (c c' : VehicleType) (id' : String) (dir' : Direction) (now' : Int),
      (Vehicle.new id c dir now).isEmergencyVehicle = true →
      (Vehicle.new id' c' dir' now').isEmergencyVehicle = false →
      (Vehicle.new id' c' dir' now').priority < (Vehicle.new id c dir now).priority ∧
      (Vehicle.new id c dir now).gt (Vehicle.new id' c' dir' now') = true ∧
      (Vehicle.new id' c' dir' now').lt (Vehicle.new id c dir now) = true) := by
  refine ⟨rfl, rfl, rfl, rfl, rfl, rfl, rfl, rfl, ?_, ?_⟩
  · intro c
    cases c <;> simp [Vehicle.new, typePriority, Vehicle.isEmergencyVehicle]
  · intro c c' id' dir' now' h h'
    cases c <;> cases c' <;>
      simp [Vehicle.new, typePriority, Vehicle.isEmergencyVehicle, Vehicle.gt, Vehicle.lt]
        at h h' ⊢

/-! ## C23 -/

theorem modifyIntersection_unknown (id : String) (f : Intersection → Intersection)
    (xs : List Intersection) (h : ∀ x ∈ xs, x.id ≠ id) : modifyIntersection id f xs = xs := by
  induction xs with
  | nil => rfl
  | cons a rest ih =>
    unfold modifyIntersection
    rw [if_neg (h a (List.mem_cons_self _ _)), ih (fun x hx => h x (List.mem_cons_of_mem _ hx))]

/-- C23: for an id that no owned intersection has, `getIntersection` finds
nothing and `configureIntersection` and `removeIntersection` return the
controller unchanged; in general `getIntersection(id)` finds an intersection
exactly when some owned intersection has that id, and the one found has it. -/
theorem C23_unknown_id_noop (c : TrafficController) (id : String) :
    ((∀ x ∈ c.intersections, x.id ≠ id) →
      c.getIntersection id = none ∧
      (∀ (dir : Direction) (g y : Int), c.configureIntersection id dir g y = c) ∧
      c.removeIntersection id = c) ∧
    ((c.getIntersection id).isSome = true ↔ ∃ x ∈ c.intersections, x.id = id) ∧
    (∀ x, c.getIntersection id = some x → x ∈ c.intersections ∧ x.id = id) := by
  refine ⟨?_, ?_, ?_⟩
  · intro h
    refine ⟨?_, ?_, ?_⟩
    · unfold TrafficController.getIntersection
      rw [List.find?_eq_none]
      intro x hx
      simpa using h x hx
    · intro dir g y
      unfold TrafficController.configureIntersection
      simp only []
      rw [modifyIntersection_unknown id _ c.intersections h]
    · unfold TrafficController.removeIntersection
      have : c.intersections.filter (fun intersection => !decide (intersection.id = id))
          = c.intersections := by
        rw [List.filter_eq_self]
        intro x hx
        simpa using h x hx
      rw [this]
  · unfold TrafficController.getIntersection
    rw [List.find?_isSome]
    simp
  · intro x hx
    unfold TrafficController.getIntersection at hx
    exact ⟨List.mem_of_find?_eq_some hx, by simpa using List.find?_some hx⟩

/-- Instance of the unknown-id theorem: the controller owning X and Y is asked
about "Z". -/
theorem C23_unknown_id_noop_witness :
    (∀ x ∈ controllerXY.intersections, x.id ≠ "Z") ∧
    controllerXY.getIntersection "Z" = none ∧
    controllerXY.configureIntersection "Z" .NORTH 40 5 = controllerXY ∧
    controllerXY.removeIntersection "Z" = controllerXY :=
  ⟨by decide,
    ((C23_unknown_id_noop controllerXY "Z").1 (by decide)).1,
    ((C23_unknown_id_noop controllerXY "Z").1 (by decide)).2.1 .NORTH 40 5,
    ((C23_unknown_id_noop controllerXY "Z").1 (by decide)).2.2⟩

/-! ## C24 -/

/-- C24: for a direction whose lane queue is empty, `removeVehicle` returns the
intersection unchanged together with the placeholder vehicle (id "NONE", class
CAR, that direction, not passed), and `processVehicleQueues` leaves the lane
empty whatever the colour of its light. -/
theorem C24_empty_lane_noop (s : Intersection) (d : Direction) (now : Int)
    (h4 : s.vehicleQueues.length = 4) (hempty : s.getQueue d = []) :
    (s.removeVehicle d now).2 = s ∧
    (s.removeVehicle d now).1.id = "NONE" ∧
    (s.removeVehicle d now).1.type = .CAR ∧
    (s.removeVehicle d now).1.direction = d ∧
    (s.removeVehicle d now).1 = Vehicle.new "NONE" .CAR d now ∧
    s.processVehicleQueues.getQueue d = [] ∧
    s.processVehicleQueues.vehicleQueues.length = 4 := by
  have hrem : s.removeVehicle d now = (Vehicle.new "NONE" .CAR d now, s) := by
    obtain ⟨q0, q1, q2, q3, hqs⟩ := length_eq_four _ h4
    unfold Intersection.getQueue at hempty
    unfold Intersection.removeVehicle
    cases d <;> simp [hqs, Direction.toNat] at hempty ⊢ <;> simp [hempty]
  rw [hrem]
  refine ⟨rfl, rfl, rfl, rfl, rfl, ?_, ?_⟩
  · rw [processVehicleQueues_getQueue s h4, hempty]
    simp
  · rw [processVehicleQueues_length]; exact h4

/-- Instance of the empty-lane theorem: lane NORTH of the intersection after
its first toggle, where only lane EAST holds a car. -/
theorem C24_empty_lane_noop_witness :
    simAfterToggle.inter.vehicleQueues.length = 4 ∧
    simAfterToggle.inter.getQueue .NORTH = [] ∧
    (simAfterToggle.inter.removeVehicle .NORTH 7).2 = simAfterToggle.inter ∧
    (simAfterToggle.inter.removeVehicle .NORTH 7).1.id = "NONE" :=
  ⟨by decide, by decide,
    (C24_empty_lane_noop simAfterToggle.inter .NORTH 7 (by decide) (by decide)).1,
    (C24_empty_lane_noop simAfterToggle.inter .NORTH 7 (by decide) (by decide)).2.1⟩

/-! ## C27 -/

/-- C27: after `reset()` the statistics equal freshly constructed statistics
(the start time being the time of the reset): total, emergency and processed
vehicles, cumulative wait, efficiency, cycle count and override count are 0,
`getAverageWaitTime()` is 0 (whatever the `double` arithmetic) and every
per-direction getter returns 0 for every key. -/
theorem C27_reset_is_fresh (st : TrafficStats) (now : Int) :
    st.reset now = TrafficStats.new now ∧
    (st.reset now).totalVehicles = 0 ∧
    (st.reset now).emergencyVehicles = 0 ∧
    (st.reset now).processedVehicles = 0 ∧
    (st.reset now).totalWaitTime = 0 ∧
    (st.reset now).totalCycles = 0 ∧
    (st.reset now).emergencyOverrides = 0 ∧
    (st.reset now).systemEfficiency = 0 ∧
    (∀ fp : DoubleArith, (st.reset now).getAverageWaitTime fp = 0) ∧
    (∀ key : String,
      (st.reset now).getVehiclesByDirection key = 0 ∧
      (st.reset now).getAvgWaitByDirection key = 0 ∧
      (st.reset now).getThroughputByDirection key = 0) :=
  ⟨rfl, rfl, rfl, rfl, rfl, rfl, rfl, rfl, fun fp => by simp [TrafficStats.getAverageWaitTime,
    TrafficStats.reset], fun _ => ⟨rfl, rfl, rfl⟩⟩


/-! ## C26 -/

theorem step_keeps_key_absent (fp : DoubleArith) (st : TrafficStats) (op : StatsOp)
    (key : String)
    (hop : op.recordsKey key = false)
    (h : mapFind? st.vehiclesByDirection key = none ∧
      mapFind? st.avgWaitByDirection key = none ∧
      mapFind? st.throughputByDirection key = none) :
    mapFind? (st.step fp op).vehiclesByDirection key = none ∧
    mapFind? (st.step fp op).avgWaitByDirection key = none ∧
    mapFind? (st.step fp op).throughputByDirection key = none := by
  cases op with
  | directionStats direction w =>
    have hne : key ≠ direction := by
      intro e
      simp [StatsOp.recordsKey, e] at hop
    simp only [TrafficStats.step, TrafficStats.updateDirectionStats]
    exact ⟨by rw [mapFind?_mapAssign_ne _ _ _ _ hne]; exact h.1,
      by rw [mapFind?_mapAssign_ne _ _ _ _ hne]; exact h.2.1,
      by rw [mapFind?_mapAssign_ne _ _ _ _ hne]; exact h.2.2⟩
  | reset now => exact ⟨rfl, rfl, rfl⟩
  | vehicleCount count => exact h
  | emergencyCount count => exact h
  | waitTime w => exact h
  | systemEfficiency e => exact h
  | cycleCount => exact h
  | emergencyOverride => exact h

theorem run_keeps_key_absent (fp : DoubleArith) (ops : List StatsOp) (st : TrafficStats)
    (key : String)
    (hops : ∀ op ∈ ops, op.recordsKey key = false)
    (h : mapFind? st.vehiclesByDirection key = none ∧
      mapFind? st.avgWaitByDirection key = none ∧
      mapFind? st.throughputByDirection key = none) :
    mapFind? (st.run fp ops).vehiclesByDirection key = none ∧
    mapFind? (st.run fp ops).avgWaitByDirection key = none ∧
    mapFind? (st.run fp ops).throughputByDirection key = none := by
  induction ops generalizing st with
  | nil => exact h
  | cons op rest ih =>
    show mapFind? ((st.step fp op).run fp rest).vehiclesByDirection key = none ∧ _
    exact ih (st.step fp op) (fun o ho => hops o (List.mem_cons_of_mem _ ho))
      (step_keeps_key_absent fp st op key (hops op (List.mem_cons_self _ _)) h)

/-- C26: on statistics reached from fresh ones by any sequence of updates and
resets in which `updateDirectionStats` was never called with the key (any
string, the empty one included), the key is in none of the three per-direction
tables, and `getVehiclesByDirection`, `getAvgWaitByDirection` and
`getThroughputByDirection` (which only look the key up) all return 0, whatever
the `double` arithmetic `fp` of the updates. -/
theorem C26_unrecorded_key_reports_zero (fp : DoubleArith) (now : Int) (ops : List StatsOp)
    (key : String) (h : ∀ op ∈ ops, op.recordsKey key = false) :
    ((TrafficStats.new now).run fp ops).getVehiclesByDirection key = 0 ∧
    ((TrafficStats.new now).run fp ops).getAvgWaitByDirection key = 0 ∧
    ((TrafficStats.new now).run fp ops).getThroughputByDirection key = 0 ∧
    mapFind? ((TrafficStats.new now).run fp ops).vehiclesByDirection key = none ∧
    mapFind? ((TrafficStats.new now).run fp ops).avgWaitByDirection key = none ∧
    mapFind? ((TrafficStats.new now).run fp ops).throughputByDirection key = none := by
  obtain ⟨a1, a2, a3⟩ :=
    run_keeps_key_absent fp ops (TrafficStats.new now) key h ⟨rfl, rfl, rfl⟩
  refine ⟨?_, ?_, ?_, a1, a2, a3⟩
  · unfold TrafficStats.getVehiclesByDirection; rw [a1]
  · unfold TrafficStats.getAvgWaitByDirection; rw [a2]
  · unfold TrafficStats.getThroughputByDirection; rw [a3]

/-- Instance of the unrecorded-key theorem: samples are recorded for "NORTH"
and "EAST", the empty key is queried. -/
theorem C26_unrecorded_key_reports_zero_witness :
    (∀ op ∈ [StatsOp.directionStats "NORTH" 4, StatsOp.vehicleCount 1,
        StatsOp.directionStats "EAST" 6], op.recordsKey "" = false) ∧
    ((TrafficStats.new 0).run DoubleArith.exact [StatsOp.directionStats "NORTH" 4,
        StatsOp.vehicleCount 1, StatsOp.directionStats "EAST" 6]).getVehiclesByDirection ""
      = 0 ∧
    ((TrafficStats.new 0).run DoubleArith.exact [StatsOp.directionStats "NORTH" 4,
        StatsOp.vehicleCount 1, StatsOp.directionStats "EAST" 6]).getAvgWaitByDirection ""
      = 0 :=
  ⟨by decide,
    (C26_unrecorded_key_reports_zero DoubleArith.exact 0 [StatsOp.directionStats "NORTH" 4,
      StatsOp.vehicleCount 1, StatsOp.directionStats "EAST" 6] "" (by decide)).1,
    (C26_unrecorded_key_reports_zero DoubleArith.exact 0 [StatsOp.directionStats "NORTH" 4,
      StatsOp.vehicleCount 1, StatsOp.directionStats "EAST" 6] "" (by decide)).2.1⟩

/-! ## C28 -/

theorem switchToNextPhase_toggle_lights (s : Intersection) (t now : Int) (ht : t + 1 ≥ 35) :
    ∀ l ∈ (s.switchToNextPhase t now).1.lights,
      l.state = if (s.switchToNextPhase t now).1.currentPhase = 0 then
          (if l.direction = .NORTH ∨ l.direction = .SOUTH then TrafficState.GREEN
            else TrafficState.RED)
        else
          (if l.direction = .EAST ∨ l.direction = .WEST then TrafficState.GREEN
            else TrafficState.RED) := by
  have hph := (switchToNextPhase_toggle s t now ht).2
  unfold Intersection.switchToNextPhase at hph ⊢
  simp only [if_pos ht] at hph ⊢
  by_cases h0 : Int.tmod (s.currentPhase + 1) 2 = 0
  · simp only [if_pos h0]
    intro l hl
    simp only [List.mem_map] at hl
    obtain ⟨a, _, rfl⟩ := hl
    by_cases hd : a.direction = .NORTH ∨ a.direction = .SOUTH
    · simp [hd, TrafficLight.changeState]
    · simp [hd, TrafficLight.changeState]
  · simp only [if_neg h0]
    intro l hl
    simp only [List.mem_map] at hl
    obtain ⟨a, _, rfl⟩ := hl
    by_cases hd : a.direction = .EAST ∨ a.direction = .WEST
    · simp [hd, TrafficLight.changeState]
    · simp [hd, TrafficLight.changeState]

theorem stateOf_of_lights (s : Intersection) (h1 : oneLightPerDirection s)
    (f : Direction → TrafficState) (hf : ∀ l ∈ s.lights, l.state = f l.direction)
    (d : Direction) : stateOf s d = some (f d) := by
  obtain ⟨l, hfind, hmem, hdir⟩ := find_direction_spec d s.lights (h1 d)
  simp only [stateOf, lightOf, hfind, Option.map_some']
  rw [hf l hmem, hdir]

theorem updateSignals_currentPhase (s : Intersection) (t now : Int) :
    (s.updateSignals t now).1.currentPhase = s.currentPhase ∨
    (s.updateSignals t now).1.currentPhase = Int.tmod (s.currentPhase + 1) 2 := by
  unfold Intersection.updateSignals Intersection.switchToNextPhase
  simp only [Intersection.processVehicleQueues]
  by_cases he : elapsedSeconds now s.lastUpdate ≥ 1
  · simp only [if_pos he]
    cases hm : s.emergencyMode
    · simp only [Bool.not_false, if_true]
      by_cases h35 : t + 1 ≥ 35
      · simp only [if_pos h35]
        right
        split <;> rfl
      · simp only [if_neg h35]
        left
        split <;> rfl
    · simp only [Bool.not_true]
      left
      rfl
  · simp only [if_neg he]
    left
    trivial

theorem step_phase_index (w : Sim) (op : Op)
    (h : w.inter.currentPhase = 0 ∨ w.inter.currentPhase = 1) :
    (w.step op).inter.currentPhase = 0 ∨ (w.step op).inter.currentPhase = 1 := by
  cases op with
  | add v now =>
    simp only [Sim.step]
    rw [(addVehicle_frame w.inter v now).2.1]; exact h
  | update now =>
    simp only [Sim.step]
    rcases updateSignals_currentPhase w.inter w.phaseTimer now with e | e
    · rw [e]; exact h
    · rw [e]
      rcases h with h | h <;> rw [h]
      · right; decide
      · left; decide
  | override d now => exact h
  | normal => left; rfl

theorem run_phase_index (ops : List Op) (w : Sim)
    (h : w.inter.currentPhase = 0 ∨ w.inter.currentPhase = 1) :
    (w.run ops).inter.currentPhase = 0 ∨ (w.run ops).inter.currentPhase = 1 := by
  induction ops generalizing w with
  | nil => exact h
  | cons op rest ih =>
    show ((w.step op).run rest).inter.currentPhase = 0 ∨ _
    exact ih _ (step_phase_index w op h)

/-- C28: a `switchToNextPhase` call on which the phase timer reaches 35, on an
intersection with one light per direction and phase index 0 or 1, leaves the
phase index at the other of 0 and 1 and the lights in agreement with it,
whatever they showed before: NORTH and SOUTH GREEN, EAST and WEST RED for phase
0; EAST and WEST GREEN, NORTH and SOUTH RED for phase 1. In every state reached
from a freshly added intersection by admissions, `updateSignals` calls,
overrides and `normalOperation` the phase index is 0 or 1. -/
theorem C28_toggle_sets_phase_lights (s : Intersection) (t now : Int)
    (ht : t + 1 ≥ 35) (hp : s.currentPhase = 0 ∨ s.currentPhase = 1)
    (h1 : oneLightPerDirection s) :
    (s.switchToNextPhase t now).1.currentPhase = 1 - s.currentPhase ∧
    ((s.switchToNextPhase t now).1.currentPhase = 0 ∨
      (s.switchToNextPhase t now).1.currentPhase = 1) ∧
    ((s.switchToNextPhase t now).1.currentPhase = 0 →
      stateOf (s.switchToNextPhase t now).1 .NORTH = some .GREEN ∧
      stateOf (s.switchToNextPhase t now).1 .SOUTH = some .GREEN ∧
      stateOf (s.switchToNextPhase t now).1 .EAST = some .RED ∧
      stateOf (s.switchToNextPhase t now).1 .WEST = some .RED) ∧
    ((s.switchToNextPhase t now).1.currentPhase = 1 →
      stateOf (s.switchToNextPhase t now).1 .NORTH = some .RED ∧
      stateOf (s.switchToNextPhase t now).1 .SOUTH = some .RED ∧
      stateOf (s.switchToNextPhase t now).1 .EAST = some .GREEN ∧
      stateOf (s.switchToNextPhase t now).1 .WEST = some .GREEN) ∧
    (∀ (id : String) (now0 : Int) (ops : List Op),
      ((freshSim id now0).run ops).inter.currentPhase = 0 ∨
      ((freshSim id now0).run ops).inter.currentPhase = 1) := by
  have hph := (switchToNextPhase_toggle s t now ht).2
  have hone := oneLightPerDirection_of_map_eq s (s.switchToNextPhase t now).1
    (switchToNextPhase_directions s t now) h1
  have hl := switchToNextPhase_toggle_lights s t now ht
  have hval : (s.switchToNextPhase t now).1.currentPhase = 1 - s.currentPhase := by
    rw [hph]; rcases hp with hp | hp <;> rw [hp] <;> decide
  refine ⟨hval, ?_, ?_, ?_, ?_⟩
  · rw [hval]; rcases hp with hp | hp <;> rw [hp] <;> decide
  · intro h0
    simp only [h0, if_true] at hl
    have hs := stateOf_of_lights _ hone
      (fun d => if d = .NORTH ∨ d = .SOUTH then TrafficState.GREEN else TrafficState.RED) hl
    exact ⟨by simpa using hs .NORTH, by simpa using hs .SOUTH, by simpa using hs .EAST,
      by simpa using hs .WEST⟩
  · intro h0
    have hne : ¬ (s.switchToNextPhase t now).1.currentPhase = 0 := by rw [h0]; decide
    simp only [hne, if_false] at hl
    have hs := stateOf_of_lights _ hone
      (fun d => if d = .EAST ∨ d = .WEST then TrafficState.GREEN else TrafficState.RED) hl
    exact ⟨by simpa using hs .NORTH, by simpa using hs .SOUTH, by simpa using hs .EAST,
      by simpa using hs .WEST⟩
  · intro id now0 ops
    exact run_phase_index ops _ (Or.inl rfl)

/-- Instance of the toggle theorem: an intersection in override for NORTH (NORTH
GREEN, the others RED, phase 0) on which the timer reaches 35. -/
theorem C28_toggle_sets_phase_lights_witness :
    (34 : Int) + 1 ≥ 35 ∧
    (overrideNorth.currentPhase = 0 ∨ overrideNorth.currentPhase = 1) ∧
    oneLightPerDirection overrideNorth ∧
    (overrideNorth.switchToNextPhase 34 9).1.currentPhase = 1 ∧
    stateOf (overrideNorth.switchToNextPhase 34 9).1 .NORTH = some .RED ∧
    stateOf (overrideNorth.switchToNextPhase 34 9).1 .EAST = some .GREEN :=
  ⟨by decide, by decide, by decide,
    (C28_toggle_sets_phase_lights overrideNorth 34 9 (by decide) (by decide)
      (by decide)).1.trans (by decide),
    ((C28_toggle_sets_phase_lights overrideNorth 34 9 (by decide) (by decide)
      (by decide)).2.2.2.1 (by decide)).1,
    ((C28_toggle_sets_phase_lights overrideNorth 34 9 (by decide) (by decide)
      (by decide)).2.2.2.1 (by decide)).2.2.1⟩


/-! ## C25 -/

theorem incrementFirstSensor_counts (dir : Direction) (now : Int) (sns : List TrafficSensor)
    (hone : (sns.filter (fun sn => sn.direction = dir)).length ≤ 1) :
    (incrementFirstSensor dir now sns).map (fun sn => (sn.direction, sn.vehicleCount))
      = sns.map (fun sn =>
          (sn.direction, if sn.direction = dir then sn.vehicleCount + 1 else sn.vehicleCount)) := by
  induction sns with
  | nil => rfl
  | cons a rest ih =>
    unfold incrementFirstSensor
    by_cases ha : a.direction = dir
    · have hnil : rest.filter (fun sn => decide (sn.direction = dir)) = [] := by
        simp [List.filter_cons, ha] at hone
        simpa using hone
      have hrest : ∀ sn ∈ rest, ¬ sn.direction = dir := by
        intro sn hsn hd
        have : sn ∈ rest.filter (fun sn => decide (sn.direction = dir)) := by
          simp [List.mem_filter, hsn, hd]
        rw [hnil] at this
        simp at this
      simp only [if_pos ha, List.map_cons, TrafficSensor.incrementCount]
      congr 1
      apply List.map_congr_left
      intro sn hsn
      simp [hrest sn hsn]
    · simp only [if_neg ha, List.map_cons]
      rw [ih (by simpa [List.filter_cons, ha] using hone)]

theorem incrementFirstSensor_directions (dir : Direction) (now : Int)
    (sns : List TrafficSensor) :
    (incrementFirstSensor dir now sns).map (fun sn => sn.direction)
      = sns.map (fun sn => sn.direction) := by
  induction sns with
  | nil => rfl
  | cons a rest ih =>
    unfold incrementFirstSensor
    split
    · simp [TrafficSensor.incrementCount]
    · simp [ih]

theorem incrementFirstSensor_sum (dir : Direction) (now : Int) (sns : List TrafficSensor)
    (hex : dir ∈ sns.map (fun sn => sn.direction)) :
    ((incrementFirstSensor dir now sns).map (fun sn => sn.vehicleCount)).sum
      = (sns.map (fun sn => sn.vehicleCount)).sum + 1 := by
  induction sns with
  | nil => simp at hex
  | cons a rest ih =>
    unfold incrementFirstSensor
    by_cases ha : a.direction = dir
    · simp only [if_pos ha, List.map_cons, List.sum_cons, TrafficSensor.incrementCount]
      omega
    · simp only [if_neg ha, List.map_cons, List.sum_cons]
      have hex' : dir ∈ rest.map (fun sn => sn.direction) := by
        simp only [List.map_cons, List.mem_cons] at hex
        rcases hex with e | e
        · exact absurd e.symm ha
        · exact e
      rw [ih hex']
      omega

theorem addVehicle_sensors (s : Intersection) (v : Vehicle) (now : Int)
    (h4 : s.vehicleQueues.length = 4) :
    (s.addVehicle v now).sensors = incrementFirstSensor v.direction now s.sensors := by
  have hlt : v.direction.toNat < s.vehicleQueues.length := by
    rw [h4]; cases v.direction <;> decide
  simp only [Intersection.addVehicle, if_pos hlt]

theorem addAll_sensor_sum (vs : List (Vehicle × Int)) (s : Intersection)
    (h4 : s.vehicleQueues.length = 4)
    (hd : s.sensors.map (fun sn => sn.direction)
      = [Direction.NORTH, Direction.SOUTH, Direction.EAST, Direction.WEST]) :
    ((addAll s vs).sensors.map (fun sn => sn.vehicleCount)).sum
      = (s.sensors.map (fun sn => sn.vehicleCount)).sum + (vs.length : Int) := by
  induction vs generalizing s with
  | nil => simp [addAll]
  | cons p rest ih =>
    obtain ⟨v, now⟩ := p
    simp only [addAll, List.length_cons]
    have hs := addVehicle_sensors s v now h4
    have hd' : (s.addVehicle v now).sensors.map (fun sn => sn.direction)
        = [Direction.NORTH, Direction.SOUTH, Direction.EAST, Direction.WEST] := by
      rw [hs, incrementFirstSensor_directions]; exact hd
    rw [ih (s.addVehicle v now) (by rw [addVehicle_length]; exact h4) hd', hs,
      incrementFirstSensor_sum v.direction now s.sensors
        (by rw [hd]; cases v.direction <;> simp)]
    push_cast
    omega

/-- C25: on an intersection with its four lane queues and one sensor per
direction, `addVehicle(v)` raises the vehicle count of the sensor of `v`'s
direction by exactly one and leaves the count (and direction) of every other
sensor unchanged; after `n` admissions on a freshly added intersection the
four sensor counts sum to `n`. -/
theorem C25_sensor_counts (s : Intersection) (v : Vehicle) (now : Int)
    (h4 : s.vehicleQueues.length = 4) (h1 : oneSensorPerDirection s) :
    (s.addVehicle v now).sensors.map (fun sn => (sn.direction, sn.vehicleCount))
      = s.sensors.map (fun sn =>
          (sn.direction,
            if sn.direction = v.direction then sn.vehicleCount + 1 else sn.vehicleCount)) ∧
    oneSensorPerDirection (s.addVehicle v now) ∧
    (∀ (id : String) (now0 : Int) (vs : List (Vehicle × Int)),
      ((addAll (newIntersection id now0) vs).sensors.map (fun sn => sn.vehicleCount)).sum
        = (vs.length : Int) ∧
      (addAll (newIntersection id now0) vs).sensors.length = 4) := by
  have hs := addVehicle_sensors s v now h4
  refine ⟨?_, ?_, ?_⟩
  · rw [hs]
    exact incrementFirstSensor_counts v.direction now s.sensors (by rw [h1 v.direction])
  · intro d
    have hdirs := incrementFirstSensor_directions v.direction now s.sensors
    rw [← hs] at hdirs
    have : ((s.addVehicle v now).sensors.filter (fun sn => decide (sn.direction = d))).length
        = (s.sensors.filter (fun sn => decide (sn.direction = d))).length := by
      have e1 : ∀ (xs : List TrafficSensor),
          (xs.filter (fun sn => decide (sn.direction = d))).length
            = ((xs.map (fun sn => sn.direction)).filter (fun x => decide (x = d))).length := by
        intro xs
        induction xs with
        | nil => rfl
        | cons a rest ih =>
          by_cases ha : a.direction = d <;> simp [List.filter_cons, ha, ih]
      rw [e1, e1, hdirs]
    rw [this]
    exact h1 d
  · intro id now0 vs
    have hsum := addAll_sensor_sum vs (newIntersection id now0) rfl rfl
    refine ⟨by rw [hsum]; simp [newIntersection, Intersection.addTrafficSensor,
      Intersection.addTrafficLight, Intersection.new, TrafficSensor.new], ?_⟩
    have hlen : ∀ (ws : List (Vehicle × Int)) (x : Intersection),
        x.vehicleQueues.length = 4 → (addAll x ws).sensors.length = x.sensors.length := by
      intro ws
      induction ws with
      | nil => intro x _; rfl
      | cons p rest ih =>
        intro x hx
        obtain ⟨w, t⟩ := p
        simp only [addAll]
        rw [ih _ (by rw [addVehicle_length]; exact hx), addVehicle_sensors x w t hx]
        have := congrArg List.length (incrementFirstSensor_directions w.direction t x.sensors)
        simpa using this
    rw [hlen vs (newIntersection id now0) rfl]
    rfl

/-- Instance of the sensor theorem: a car heading EAST is admitted to a freshly
added intersection. -/
theorem C25_sensor_counts_witness :
    (newIntersection "I1" 0).vehicleQueues.length = 4 ∧
    oneSensorPerDirection (newIntersection "I1" 0) ∧
    ((newIntersection "I1" 0).addVehicle carEast 7).sensors.map
        (fun sn => (sn.direction, sn.vehicleCount))
      = [(.NORTH, 0), (.SOUTH, 0), (.EAST, 1), (.WEST, 0)] :=
  ⟨by decide, by decide,
    (C25_sensor_counts (newIntersection "I1" 0) carEast 7 (by decide) (by decide)).1.trans
      (by decide)⟩


/-! ## C30 -/

theorem eachLightFrom_const (g : TrafficLight → TrafficLight) (ls : List TrafficLight) :
    ∀ start : Nat, eachLightFrom (fun _ light => g light) start ls = ls.map g := by
  induction ls with
  | nil => intro _; rfl
  | cons l rest ih => intro start; simp only [eachLightFrom, List.map_cons, ih]

/-- With one clock reading for the whole call, `updateSignalsAt` is `updateSignals`. -/
theorem updateSignalsAt_one_reading (s : Intersection) (t now : Int) :
    s.updateSignalsAt t { now := now, updateAt := fun _ => now, changeAt := fun _ => now }
      = s.updateSignals t now := by
  unfold Intersection.updateSignalsAt Intersection.updateSignals
    Intersection.switchToNextPhaseAt Intersection.switchToNextPhase
  simp only [eachLightFrom_const]

theorem forall₂_eachLightFrom (R : TrafficLight → TrafficLight → Prop)
    (f : Nat → TrafficLight → TrafficLight) (h : ∀ i l, R (f i l) l) (ls : List TrafficLight) :
    ∀ start : Nat, List.Forall₂ R (eachLightFrom f start ls) ls := by
  induction ls with
  | nil => intro _; exact List.Forall₂.nil
  | cons l rest ih => intro start; exact List.Forall₂.cons (h start l) (ih (start + 1))

theorem forall₂_compose {R S T : TrafficLight → TrafficLight → Prop}
    (h : ∀ a b c, R a b → S b c → T a c) :
    ∀ (l1 l2 l3 : List TrafficLight), List.Forall₂ R l1 l2 → List.Forall₂ S l2 l3 →
      List.Forall₂ T l1 l3 := by
  intro l1 l2 l3 h12
  induction h12 generalizing l3 with
  | nil => intro h23; cases h23; exact List.Forall₂.nil
  | cons hab _ ih =>
    intro h23
    cases h23 with
    | cons hbc hrest => exact List.Forall₂.cons (h _ _ _ hab hbc) (ih _ hrest)

theorem forall₂_mem_left {R : TrafficLight → TrafficLight → Prop} :
    ∀ (l1 l2 : List TrafficLight), List.Forall₂ R l1 l2 →
      ∀ a ∈ l1, ∃ b ∈ l2, R a b := by
  intro l1 l2 h
  induction h with
  | nil => intro a ha; cases ha
  | cons hab _ ih =>
    intro a ha
    rcases List.mem_cons.mp ha with e | hm
    · subst e; exact ⟨_, List.mem_cons_self _ _, hab⟩
    · obtain ⟨b, hb, hr⟩ := ih a hm
      exact ⟨b, List.mem_cons_of_mem _ hb, hr⟩

theorem forall₂_map_eq {β : Type} (g : TrafficLight → β)
    {R : TrafficLight → TrafficLight → Prop} (hR : ∀ a b, R a b → g a = g b) :
    ∀ (l1 l2 : List TrafficLight), List.Forall₂ R l1 l2 → l1.map g = l2.map g := by
  intro l1 l2 h
  induction h with
  | nil => rfl
  | cons hab _ ih => simp only [List.map_cons, hR _ _ hab, ih]

theorem mem_eachLightFrom (f : Nat → TrafficLight → TrafficLight) (ls : List TrafficLight) :
    ∀ (start : Nat) (l : TrafficLight), l ∈ eachLightFrom f start ls →
      ∃ i, ∃ b ∈ ls, l = f i b := by
  induction ls with
  | nil => intro _ l hl; cases hl
  | cons a rest ih =>
    intro start l hl
    simp only [eachLightFrom, List.mem_cons] at hl
    rcases hl with e | hm
    · exact ⟨start, a, List.mem_cons_self _ _, e⟩
    · obtain ⟨i, b, hb, e⟩ := ih (start + 1) l hm
      exact ⟨i, b, List.mem_cons_of_mem _ hb, e⟩

/-- One `update` call, whatever the clock reading: direction and colour stay,
the remaining time goes down by at most one and not below a non-negative
value. -/
theorem update_any_reading (l : TrafficLight) (now : Int) :
    (l.update now).direction = l.direction ∧ (l.update now).state = l.state ∧
    l.timeLeft - 1 ≤ (l.update now).timeLeft ∧ (l.update now).timeLeft ≤ l.timeLeft ∧
    (0 ≤ l.timeLeft → 0 ≤ (l.update now).timeLeft) := by
  unfold TrafficLight.update
  by_cases he : elapsedSeconds now l.lastUpdate ≥ 1
  · rw [if_pos he]
    refine ⟨rfl, rfl, ?_, ?_, ?_⟩
    · show l.timeLeft - 1 ≤ (if l.timeLeft > 0 then l.timeLeft - 1 else l.timeLeft)
      split <;> omega
    · show (if l.timeLeft > 0 then l.timeLeft - 1 else l.timeLeft) ≤ l.timeLeft
      split <;> omega
    · intro h
      show 0 ≤ (if l.timeLeft > 0 then l.timeLeft - 1 else l.timeLeft)
      split <;> omega
  · rw [if_neg he]
    exact ⟨rfl, rfl, by omega, le_refl _, fun h => h⟩

theorem update_of_elapsed (l : TrafficLight) (now : Int)
    (he : elapsedSeconds now l.lastUpdate ≥ 1) (ht : 0 ≤ l.timeLeft) :
    (l.update now).timeLeft = max 0 (l.timeLeft - 1) ∧
    (l.update now).lastUpdate = now ∧
    (l.update now).state = l.state ∧
    (l.update now).direction = l.direction := by
  have hu : l.update now
      = { l with timeLeft := if l.timeLeft > 0 then l.timeLeft - 1 else l.timeLeft,
                 lastUpdate := now } := by
    unfold TrafficLight.update; rw [if_pos he]
  rw [hu]
  refine ⟨?_, rfl, rfl, rfl⟩
  show (if l.timeLeft > 0 then l.timeLeft - 1 else l.timeLeft) = max 0 (l.timeLeft - 1)
  split <;> omega

theorem forall₂_update_due (updateAt : Nat → Int) (ls : List TrafficLight) :
    ∀ start : Nat, lightsDueFrom updateAt start ls →
      List.Forall₂ (fun l' l => 0 ≤ l.timeLeft → l'.timeLeft = max 0 (l.timeLeft - 1))
        (eachLightFrom (fun i light => light.update (updateAt i)) start ls) ls := by
  induction ls with
  | nil => intro _ _; exact List.Forall₂.nil
  | cons l rest ih =>
    intro start h
    obtain ⟨h1, h2⟩ := h
    exact List.Forall₂.cons (fun ht => (update_of_elapsed l _ h1 ht).1) (ih (start + 1) h2)

theorem updateSignalsAt_idle_tick (s : Intersection) (t : Int) (clock : TickClock)
    (hem : s.emergencyMode = false) (he : elapsedSeconds clock.now s.lastUpdate ≥ 1)
    (h35 : ¬ t + 1 ≥ 35) (h30 : ¬ t + 1 = 30) :
    (s.updateSignalsAt t clock).2 = t + 1 ∧
    (s.updateSignalsAt t clock).1.emergencyMode = false ∧
    (s.updateSignalsAt t clock).1.lastUpdate = clock.now ∧
    (s.updateSignalsAt t clock).1.lights
      = eachLightFrom (fun i light => light.update (clock.updateAt i)) 0 s.lights := by
  unfold Intersection.updateSignalsAt Intersection.switchToNextPhaseAt
  simp only [Intersection.processVehicleQueues, if_pos he, hem, Bool.not_false, if_true,
    if_neg h35, if_neg h30]
  exact ⟨trivial, trivial, trivial, trivial⟩

theorem updateSignalsAt_toggle_tick (s : Intersection) (t : Int) (clock : TickClock)
    (hem : s.emergencyMode = false) (he : elapsedSeconds clock.now s.lastUpdate ≥ 1)
    (h35 : t + 1 ≥ 35) :
    (s.updateSignalsAt t clock).2 = 0 ∧
    (s.updateSignalsAt t clock).1.emergencyMode = false ∧
    (s.updateSignalsAt t clock).1.lastUpdate = clock.now ∧
    ∀ l ∈ (s.updateSignalsAt t clock).1.lights,
      (l.state = .GREEN ∧ l.timeLeft = 25) ∨ (l.state = .RED ∧ l.timeLeft = 30) := by
  unfold Intersection.updateSignalsAt Intersection.switchToNextPhaseAt
  simp only [Intersection.processVehicleQueues, if_pos he, hem, Bool.not_false, if_true,
    if_pos h35]
  by_cases h0 : Int.tmod (s.currentPhase + 1) 2 = 0
  · simp only [if_pos h0]
    refine ⟨trivial, trivial, trivial, ?_⟩
    intro l hl
    obtain ⟨i, b, _, rfl⟩ := mem_eachLightFrom _ _ _ _ hl
    by_cases hd : b.direction = .NORTH ∨ b.direction = .SOUTH
    · rw [if_pos hd]; exact Or.inl ⟨rfl, rfl⟩
    · rw [if_neg hd]; exact Or.inr ⟨rfl, rfl⟩
  · simp only [if_neg h0]
    refine ⟨trivial, trivial, trivial, ?_⟩
    intro l hl
    obtain ⟨i, b, _, rfl⟩ := mem_eachLightFrom _ _ _ _ hl
    by_cases hd : b.direction = .EAST ∨ b.direction = .WEST
    · rw [if_pos hd]; exact Or.inl ⟨rfl, rfl⟩
    · rw [if_neg hd]; exact Or.inr ⟨rfl, rfl⟩

/-- The lights after `k` ticks none of which reaches timer value 30 or 35,
whatever the clock readings of the `update` calls: same directions and
colours, remaining time lower by at most `k` and still non-negative. -/
theorem updateTicksAt_idle (clocks : List TickClock) :
    ∀ (s : Intersection) (t : Int), s.emergencyMode = false →
      validTicksAt s.lastUpdate clocks → 0 ≤ t → t + clocks.length ≤ 29 →
      List.Forall₂
        (fun l' l => l'.direction = l.direction ∧ l'.state = l.state ∧
          l.timeLeft - (clocks.length : Int) ≤ l'.timeLeft ∧ l'.timeLeft ≤ l.timeLeft ∧
          (0 ≤ l.timeLeft → 0 ≤ l'.timeLeft))
        (updateTicksAt s t clocks).1.lights s.lights ∧
      (updateTicksAt s t clocks).2 = t + clocks.length := by
  induction clocks with
  | nil =>
    intro s t _ _ _ _
    simp only [updateTicksAt, List.length_nil, Nat.cast_zero, sub_zero, add_zero, and_true]
    have h := forall₂_eachLightFrom
      (fun l' l : TrafficLight => l'.direction = l.direction ∧ l'.state = l.state ∧
        l.timeLeft ≤ l'.timeLeft ∧ l'.timeLeft ≤ l.timeLeft ∧
        (0 ≤ l.timeLeft → 0 ≤ l'.timeLeft))
      (fun _ l => l) (fun _ l => ⟨rfl, rfl, le_refl _, le_refl _, fun h => h⟩) s.lights 0
    rw [eachLightFrom_const (fun l => l), List.map_id'] at h
    exact h
  | cons clock rest ih =>
    intro s t hem hv ht0 ht
    simp only [List.length_cons, Nat.cast_add, Nat.cast_one] at ht ⊢
    have hrest : (0 : Int) ≤ rest.length := Int.ofNat_nonneg _
    obtain ⟨he, hv'⟩ := hv
    obtain ⟨r1, r2, r3, r4⟩ := updateSignalsAt_idle_tick s t clock hem he (by omega) (by omega)
    obtain ⟨i1, i2⟩ := ih (s.updateSignalsAt t clock).1 (s.updateSignalsAt t clock).2 r2
      (by rw [r3]; exact hv') (by rw [r1]; omega) (by rw [r1]; omega)
    simp only [updateTicksAt]
    refine ⟨?_, by rw [i2, r1]; omega⟩
    have hstep := forall₂_eachLightFrom
      (fun l' l : TrafficLight => l'.direction = l.direction ∧ l'.state = l.state ∧
        l.timeLeft - 1 ≤ l'.timeLeft ∧ l'.timeLeft ≤ l.timeLeft ∧
        (0 ≤ l.timeLeft → 0 ≤ l'.timeLeft))
      (fun i light => light.update (clock.updateAt i))
      (fun i l => update_any_reading l (clock.updateAt i)) s.lights 0
    rw [← r4] at hstep
    refine forall₂_compose ?_ _ _ _ i1 hstep
    intro a b c hab hbc
    obtain ⟨a1, a2, a3, a4, a5⟩ := hab
    obtain ⟨b1, b2, b3, b4, b5⟩ := hbc
    exact ⟨a1.trans b1, a2.trans b2, by omega, by omega, fun h => a5 (b5 h)⟩

/-- The remaining times after `k` such ticks when every `update` call finds a
whole second elapsed on its light: lower by exactly `k`, floored at 0. -/
theorem updateTicksAt_countdown (clocks : List TickClock) :
    ∀ (s : Intersection) (t : Int), s.emergencyMode = false →
      validTicksAt s.lastUpdate clocks → lightsDueAt s t clocks →
      0 ≤ t → t + clocks.length ≤ 29 →
      List.Forall₂
        (fun l' l => 0 ≤ l.timeLeft → l'.timeLeft = max 0 (l.timeLeft - (clocks.length : Int)))
        (updateTicksAt s t clocks).1.lights s.lights := by
  induction clocks with
  | nil =>
    intro s t _ _ _ _ _
    simp only [updateTicksAt, List.length_nil, Nat.cast_zero, sub_zero]
    have h := forall₂_eachLightFrom
      (fun l' l : TrafficLight => 0 ≤ l.timeLeft → l'.timeLeft = max 0 l.timeLeft)
      (fun _ l => l) (fun _ l h => (max_eq_right h).symm) s.lights 0
    rw [eachLightFrom_const (fun l => l), List.map_id'] at h
    exact h
  | cons clock rest ih =>
    intro s t hem hv hd ht0 ht
    simp only [List.length_cons, Nat.cast_add, Nat.cast_one] at ht ⊢
    have hrest : (0 : Int) ≤ rest.length := Int.ofNat_nonneg _
    obtain ⟨he, hv'⟩ := hv
    obtain ⟨hd1, hd'⟩ := hd
    obtain ⟨r1, r2, r3, r4⟩ := updateSignalsAt_idle_tick s t clock hem he (by omega) (by omega)
    have i1 := ih (s.updateSignalsAt t clock).1 (s.updateSignalsAt t clock).2 r2
      (by rw [r3]; exact hv') hd' (by rw [r1]; omega) (by rw [r1]; omega)
    simp only [updateTicksAt]
    have hstep := forall₂_update_due clock.updateAt s.lights 0 hd1
    rw [← r4] at hstep
    refine forall₂_compose ?_ _ _ _ i1 hstep
    intro a b c hab hbc hc
    have hb := hbc hc
    have hb0 : 0 ≤ b.timeLeft := by rw [hb]; exact le_max_left _ _
    rw [hab hb0, hb]
    omega

theorem light_step_bounds (l : TrafficLight) (op : LightOp) (hop : op.nonNegative = true)
    (h : 0 ≤ l.timeLeft ∧ l.timeLeft ≤ l.duration) :
    0 ≤ (l.step op).timeLeft ∧ (l.step op).timeLeft ≤ (l.step op).duration := by
  cases op with
  | changeState st now =>
    cases st <;> simp [TrafficLight.step, TrafficLight.changeState, defaultDuration]
  | update now =>
    simp only [TrafficLight.step, TrafficLight.update]
    split
    · simp only []
      split <;> omega
    · exact h
  | setDuration n =>
    simp only [LightOp.nonNegative, decide_eq_true_eq] at hop
    exact ⟨hop, le_refl _⟩
  | activateEmergency now =>
    simp [TrafficLight.step, TrafficLight.activateEmergency, TrafficLight.changeState,
      defaultDuration]
  | deactivateEmergency => exact h

theorem light_run_bounds (ops : List LightOp) (l : TrafficLight)
    (hops : ∀ op ∈ ops, op.nonNegative = true)
    (h : 0 ≤ l.timeLeft ∧ l.timeLeft ≤ l.duration) :
    0 ≤ (l.run ops).timeLeft ∧ (l.run ops).timeLeft ≤ (l.run ops).duration := by
  induction ops generalizing l with
  | nil => exact h
  | cons op rest ih =>
    show 0 ≤ ((l.step op).run rest).timeLeft ∧ _
    exact ih _ (fun o ho => hops o (List.mem_cons_of_mem _ ho))
      (light_step_bounds l op (hops op (List.mem_cons_self _ _)) h)

theorem forall₂_both {R S : TrafficLight → TrafficLight → Prop} :
    ∀ (l1 l2 : List TrafficLight), List.Forall₂ R l1 l2 → List.Forall₂ S l1 l2 →
      List.Forall₂ (fun a b => R a b ∧ S a b) l1 l2 := by
  intro l1 l2 h
  induction h with
  | nil => intro _; exact List.Forall₂.nil
  | cons hab _ ih =>
    intro h2
    cases h2 with
    | cons hs hrest => exact List.Forall₂.cons ⟨hab, hs⟩ (ih hrest)

/-- C30 (amended): for an intersection that alone advances the phase timer,
after a tick that toggles the phase, `k ≤ 29` further ticks leave every light in
the direction and colour the toggle gave it, whatever the clock readings of the
nested calls. A light the toggle turned GREEN then reports at least
`max 0 (25 - k)` and at most 25 seconds; it reports exactly `max 0 (25 - k)`,
hence 0 seconds while still GREEN once `k ≥ 25`, when every `update` call of
these ticks found a whole second elapsed since the last update of its light:
the remaining time is not the time to the next transition. In every state a
light reaches from its construction by `changeState`, `update`, `setDuration`
with non-negative values, `activateEmergency` and `deactivateEmergency`,
`0 ≤ timeLeft ≤ duration`. -/
theorem C30_remaining_time_while_green (s0 : Intersection) (t0 : Int) (toggle : TickClock)
    (clocks : List TickClock)
    (hem : s0.emergencyMode = false) (hT : elapsedSeconds toggle.now s0.lastUpdate ≥ 1)
    (ht0 : t0 + 1 ≥ 35) (hticks : validTicksAt toggle.now clocks)
    (hk : clocks.length ≤ 29) :
    (updateTicksAt (s0.updateSignalsAt t0 toggle).1 (s0.updateSignalsAt t0 toggle).2
        clocks).1.lights.map (fun l => (l.direction, l.state))
      = (s0.updateSignalsAt t0 toggle).1.lights.map (fun l => (l.direction, l.state)) ∧
    (∀ l ∈ (updateTicksAt (s0.updateSignalsAt t0 toggle).1 (s0.updateSignalsAt t0 toggle).2
        clocks).1.lights,
      l.state = .GREEN →
        max 0 (25 - (clocks.length : Int)) ≤ l.timeLeft ∧ l.timeLeft ≤ 25) ∧
    (lightsDueAt (s0.updateSignalsAt t0 toggle).1 (s0.updateSignalsAt t0 toggle).2 clocks →
      ∀ l ∈ (updateTicksAt (s0.updateSignalsAt t0 toggle).1 (s0.updateSignalsAt t0 toggle).2
          clocks).1.lights,
        l.state = .GREEN →
          l.timeLeft = max 0 (25 - (clocks.length : Int)) ∧
          (25 ≤ clocks.length → l.timeLeft = 0)) ∧
    (∀ (dir : Direction) (st : TrafficState) (now0 : Int) (ops : List LightOp),
      (∀ op ∈ ops, op.nonNegative = true) →
      0 ≤ ((TrafficLight.new dir st now0).run ops).timeLeft ∧
      ((TrafficLight.new dir st now0).run ops).timeLeft
        ≤ ((TrafficLight.new dir st now0).run ops).duration) := by
  obtain ⟨g1, g2, g3, g4⟩ := updateSignalsAt_toggle_tick s0 t0 toggle hem hT ht0
  obtain ⟨c1, _⟩ := updateTicksAt_idle clocks (s0.updateSignalsAt t0 toggle).1
    (s0.updateSignalsAt t0 toggle).2 g2 (by rw [g3]; exact hticks) (by rw [g1])
    (by rw [g1]; omega)
  refine ⟨?_, ?_, ?_, ?_⟩
  · refine forall₂_map_eq (fun l => (l.direction, l.state)) ?_ _ _ c1
    intro a b hab
    show (a.direction, a.state) = (b.direction, b.state)
    rw [hab.1, hab.2.1]
  · intro l hmem hst
    obtain ⟨b, hb, e1, e2, e3, e4, e5⟩ := forall₂_mem_left _ _ c1 l hmem
    rcases g4 b hb with ⟨_, b2⟩ | ⟨b1, _⟩
    · rw [b2] at e3 e4 e5
      have := e5 (by decide)
      exact ⟨by omega, e4⟩
    · rw [e2, b1] at hst
      exact absurd hst (by decide)
  · intro hdue l hmem hst
    have c2 := updateTicksAt_countdown clocks (s0.updateSignalsAt t0 toggle).1
      (s0.updateSignalsAt t0 toggle).2 g2 (by rw [g3]; exact hticks) hdue (by rw [g1])
      (by rw [g1]; omega)
    obtain ⟨b, hb, ⟨_, e2, _⟩, e6⟩ := forall₂_mem_left _ _ (forall₂_both _ _ c1 c2) l hmem
    rcases g4 b hb with ⟨_, b2⟩ | ⟨b1, _⟩
    · rw [b2] at e6
      have e7 := e6 (by decide)
      refine ⟨e7, fun h25 => ?_⟩
      rw [e7]
      omega
    · rw [e2, b1] at hst
      exact absurd hst (by decide)
  · intro dir st now0 ops hops
    exact light_run_bounds ops _ hops (by simp [TrafficLight.new])

/-- C30 as stated fails in two ways. With two intersections X and Y ticked in
turn, X toggles on round 18 (EAST and WEST turn GREEN) and only 15 further
ticks of X later, on round 33, the shared phase timer reaches 30 on X's tick:
EAST and WEST are YELLOW with 5 seconds, not GREEN with 10. With a lone
intersection whose toggling tick is at second 35 and whose next tick is one
second later, the `update` calls of that tick find less than a whole second
elapsed since `changeState` read the clock: after this one further tick the
GREEN lights still report 25 seconds, not 24. -/
theorem C30_counterexample_not_green_and_no_countdown :
    (updateRounds controllerXY 0 (secondsUpTo 18)).1.intersections.map
        (fun x => (x.id, x.lights.map (fun l => (l.direction, l.state))))
      = [("X", [(.NORTH, .RED), (.SOUTH, .RED), (.EAST, .GREEN), (.WEST, .GREEN)]),
         ("Y", [(.NORTH, .RED), (.SOUTH, .RED), (.EAST, .RED), (.WEST, .RED)])] ∧
    (updateRounds controllerXY 0 (secondsUpTo 33)).1.intersections.map
        (fun x => (x.id, x.lights.map (fun l => (l.direction, l.state))))
      = [("X", [(.NORTH, .RED), (.SOUTH, .RED), (.EAST, .YELLOW), (.WEST, .YELLOW)]),
         ("Y", [(.NORTH, .RED), (.SOUTH, .RED), (.EAST, .RED), (.WEST, .RED)])] ∧
    (updateRounds controllerXY 0 (secondsUpTo 33)).1.intersections.map
        (fun x => (x.lights.filter (fun l => l.state = .YELLOW)).map (fun l => l.timeLeft))
      = [[5, 5], []] ∧
    (∀ x ∈ (updateRounds controllerXY 0 (secondsUpTo 33)).1.intersections,
      ∀ l ∈ x.lights, l.state ≠ .GREEN) ∧
    validTicksAt simBeforeToggle.inter.lastUpdate
      (clockAt 35000000000 :: clocksEvery 1000000000 35000000000 1) ∧
    (simBeforeToggle.inter.updateSignalsAt simBeforeToggle.phaseTimer
        (clockAt 35000000000)).1.lights.map (fun l => (l.direction, l.state, l.timeLeft))
      = [(.NORTH, .RED, 30), (.SOUTH, .RED, 30), (.EAST, .GREEN, 25), (.WEST, .GREEN, 25)] ∧
    (updateTicksAt simBeforeToggle.inter simBeforeToggle.phaseTimer
        (clockAt 35000000000 :: clocksEvery 1000000000 35000000000 1)).1.lights.map
        (fun l => (l.direction, l.state, l.timeLeft))
      = [(.NORTH, .RED, 30), (.SOUTH, .RED, 30), (.EAST, .GREEN, 25), (.WEST, .GREEN, 25)] ∧
    (∀ l ∈ (updateTicksAt simBeforeToggle.inter simBeforeToggle.phaseTimer
        (clockAt 35000000000 :: clocksEvery 1000000000 35000000000 1)).1.lights,
      l.state = .GREEN → l.timeLeft ≠ max 0 (25 - 1)) := by
  refine ⟨?_, ?_, ?_, ?_, ?_, ?_, ?_, ?_⟩ <;> decide

/-- Instance of the remaining-time theorem: the toggling tick at second 35
(EAST and WEST turn GREEN with 25 seconds), then 27 further ticks 1.0001
seconds apart, each light being read a few microseconds after its call starts:
every update is due, EAST and WEST are still GREEN and report 0 seconds. -/
theorem C30_remaining_time_while_green_witness :
    simBeforeToggle.inter.emergencyMode = false ∧
    elapsedSeconds (clockAt 35000000000).now simBeforeToggle.inter.lastUpdate ≥ 1 ∧
    validTicksAt (clockAt 35000000000).now (clocksEvery 1000100000 35000000000 27) ∧
    lightsDueAt (simBeforeToggle.inter.updateSignalsAt 34 (clockAt 35000000000)).1
      (simBeforeToggle.inter.updateSignalsAt 34 (clockAt 35000000000)).2
      (clocksEvery 1000100000 35000000000 27) ∧
    (updateTicksAt (simBeforeToggle.inter.updateSignalsAt 34 (clockAt 35000000000)).1
      (simBeforeToggle.inter.updateSignalsAt 34 (clockAt 35000000000)).2
      (clocksEvery 1000100000 35000000000 27)).1.lights.map (fun l => (l.direction, l.state))
      = [(.NORTH, .RED), (.SOUTH, .RED), (.EAST, .GREEN), (.WEST, .GREEN)] ∧
    (∀ l ∈ (updateTicksAt (simBeforeToggle.inter.updateSignalsAt 34 (clockAt 35000000000)).1
      (simBeforeToggle.inter.updateSignalsAt 34 (clockAt 35000000000)).2
      (clocksEvery 1000100000 35000000000 27)).1.lights,
      l.state = .GREEN → l.timeLeft = 0) :=
  ⟨by decide, by decide, by decide, by decide,
    (C30_remaining_time_while_green simBeforeToggle.inter 34 (clockAt 35000000000)
      (clocksEvery 1000100000 35000000000 27)
      (by decide) (by decide) (by decide) (by decide) (by decide)).1.trans (by decide),
    fun l hl hg =>
      ((C30_remaining_time_while_green simBeforeToggle.inter 34 (clockAt 35000000000)
        (clocksEvery 1000100000 35000000000 27)
        (by decide) (by decide) (by decide) (by decide) (by decide)).2.2.1 (by decide)
        l hl hg).2 (by decide)⟩


/-! ## C29 -/

theorem pqTop_pqPop_perm (q : List Vehicle) (t : Vehicle) (h : pqTop q = some t) :
    List.Perm q (t :: pqPop q) := by
  unfold pqTop at h
  unfold pqPop
  have hp := List.find?_some h
  have hmem := List.mem_of_find?_eq_some h
  obtain ⟨a, l1, l2, hnot, hpa, hq, he⟩ :=
    List.exists_of_eraseP (p := fun t => q.all (fun x => !(t.gt x))) hmem hp
  have hfind : List.find? (fun t => q.all (fun x => !(t.gt x))) (l1 ++ a :: l2) = some a := by
    rw [List.find?_append]
    have hnone : List.find? (fun t => q.all (fun x => !(t.gt x))) l1 = none := by
      rw [List.find?_eq_none]
      intro x hx
      exact hnot x hx
    rw [hnone]
    simp [List.find?_cons, hpa]
  have hat : a = t := by
    have h2 := h
    rw [hq] at h2
    have h3 : List.find? (fun t => q.all (fun x => !(t.gt x))) (l1 ++ a :: l2) = some t := by
      simpa [hq] using h2
    rw [hfind] at h3
    exact Option.some.inj h3
  rw [he]
  subst hat
  have hmid : List.Perm (l1 ++ a :: l2) (a :: (l1 ++ l2)) := List.perm_middle
  exact hq ▸ hmid

theorem popOrder_perm (n : Nat) : ∀ q : List Vehicle, q.length = n →
    List.Perm (popOrder n q) q := by
  induction n with
  | zero =>
    intro q hq
    have : q = [] := List.eq_nil_of_length_eq_zero hq
    subst this
    exact List.Perm.refl _
  | succ n ih =>
    intro q hq
    have hne : q ≠ [] := by intro e; rw [e] at hq; simp at hq
    obtain ⟨t, ht, hlen⟩ := pqTop_of_ne_nil q hne
    simp only [popOrder, ht]
    have hp := pqTop_pqPop_perm q t ht
    exact ((ih (pqPop q) (by omega)).cons t).trans hp.symm

theorem addVehicle_vehicleQueues_congr (x y : Intersection) (v : Vehicle) (now : Int)
    (h : x.vehicleQueues = y.vehicleQueues) :
    (x.addVehicle v now).vehicleQueues = (y.addVehicle v now).vehicleQueues := by
  simp only [Intersection.addVehicle, h]
  split <;> simp [h]

theorem addAll_vehicleQueues_congr (vs : List (Vehicle × Int)) (x y : Intersection)
    (h : x.vehicleQueues = y.vehicleQueues) :
    (addAll x vs).vehicleQueues = (addAll y vs).vehicleQueues := by
  induction vs generalizing x y with
  | nil => exact h
  | cons p rest ih =>
    obtain ⟨v, now⟩ := p
    simp only [addAll]
    exact ih _ _ (addVehicle_vehicleQueues_congr x y v now h)

theorem processEmergencyLoop_vehicleQueues (now : Int) (n : Nat) :
    ∀ c : TrafficController, c.emergencyQueue.length = n →
      (c.emergencyQueue ≠ [] → c.emergencyActive = true) →
      (processEmergencyLoop n c now).intersections.map (fun x => x.vehicleQueues)
        = c.intersections.map (fun x =>
            (addAll x ((popOrder n c.emergencyQueue).map (fun v => (v, now)))).vehicleQueues) := by
  induction n with
  | zero =>
    intro c _ _
    simp [processEmergencyLoop, popOrder, addAll]
  | succ n ih =>
    intro c hlen hact
    have hne : c.emergencyQueue ≠ [] := by intro e; rw [e] at hlen; simp at hlen
    obtain ⟨t, ht, hpop⟩ := pqTop_of_ne_nil c.emergencyQueue hne
    have hcond : (!c.emergencyQueue.isEmpty && c.emergencyActive) = true := by
      cases hq : c.emergencyQueue with
      | nil => exact absurd hq hne
      | cons a r => simp [hact hne]
    simp only [processEmergencyLoop, hcond, if_true, ht, popOrder, List.map_cons, addAll]
    by_cases hemp : (pqPop c.emergencyQueue).isEmpty = true
    · simp only [hemp, if_true]
      have hnil : pqPop c.emergencyQueue = [] := List.isEmpty_iff.mp hemp
      have hn : n = 0 := by rw [hnil] at hpop; simp at hpop; omega
      subst hn
      simp [processEmergencyLoop, popOrder, addAll, TrafficController.clearEmergencyMode,
        Intersection.normalOperation, Function.comp_def]
    · simp only [hemp]
      have hi := ih
        ({ c with emergencyQueue := pqPop c.emergencyQueue,
                  intersections := c.intersections.map
                    (fun intersection => intersection.addVehicle t now) } : TrafficController)
        (by show (pqPop c.emergencyQueue).length = n; omega)
        (fun _ => hact hne)
      simp only [List.map_map, Function.comp_def] at hi
      simpa [List.map_map, Function.comp_def] using hi

theorem addVehicle_total (x : Intersection) (v : Vehicle) (now : Int)
    (h4 : x.vehicleQueues.length = 4) :
    (x.addVehicle v now).getTotalVehicleCount = x.getTotalVehicleCount + 1 := by
  obtain ⟨q0, q1, q2, q3, hq⟩ := length_eq_four _ h4
  unfold Intersection.addVehicle Intersection.getTotalVehicleCount
  cases hv : v.direction <;> simp [hq, Direction.toNat] <;> omega

theorem addAll_total (vs : List (Vehicle × Int)) (x : Intersection)
    (h4 : x.vehicleQueues.length = 4) :
    (addAll x vs).getTotalVehicleCount = x.getTotalVehicleCount + (vs.length : Int) := by
  induction vs generalizing x with
  | nil => simp [addAll]
  | cons p rest ih =>
    obtain ⟨v, now⟩ := p
    simp only [addAll, List.length_cons]
    rw [ih _ (by rw [addVehicle_length]; exact h4), addVehicle_total x v now h4]
    push_cast
    omega


/-- C29: with `emergencyActive` true, `processEmergencyQueue` takes the pending
vehicles in some order (a rearrangement of the pending list, the same for every
intersection) and appends each to the lane of its direction in every owned
intersection: every lane is the lane before followed by the taken vehicles of
its direction, each intersection's `getTotalVehicleCount` grows by the number
of pending vehicles, and the number of copies of a vehicle in the lane of its
direction grows by the number of its copies in the pending list (so a vehicle
admitted before it was handed to `handleEmergencyVehicle` is in the lane
twice). -/
theorem C29_pending_vehicles_appended (c : TrafficController) (now : Int)
    (hact : c.emergencyActive = true)
    (h4 : ∀ x ∈ c.intersections, x.vehicleQueues.length = 4) :
    (∃ order : List Vehicle, List.Perm order c.emergencyQueue ∧
      ∀ d : Direction,
        (c.processEmergencyQueue now).intersections.map (fun x => x.getQueue d)
          = c.intersections.map (fun x => x.getQueue d ++
              order.filter (fun v => v.direction = d))) ∧
    (c.processEmergencyQueue now).intersections.map (fun x => x.getTotalVehicleCount)
      = c.intersections.map
          (fun x => x.getTotalVehicleCount + (c.emergencyQueue.length : Int)) ∧
    (∀ v : Vehicle,
      (c.processEmergencyQueue now).intersections.map
          (fun x => (x.getQueue v.direction).count v)
        = c.intersections.map
            (fun x => (x.getQueue v.direction).count v + c.emergencyQueue.count v)) := by
  have hperm := popOrder_perm c.emergencyQueue.length c.emergencyQueue rfl
  have hq := processEmergencyLoop_vehicleQueues now c.emergencyQueue.length c rfl
    (fun _ => hact)
  have hfst : ((popOrder c.emergencyQueue.length c.emergencyQueue).map
      (fun v => (v, now))).map (fun p => p.1)
      = popOrder c.emergencyQueue.length c.emergencyQueue := by
    simp [List.map_map, Function.comp_def]
  have hlane : ∀ d : Direction,
      (c.processEmergencyQueue now).intersections.map (fun x => x.getQueue d)
        = c.intersections.map (fun x => x.getQueue d ++
            (popOrder c.emergencyQueue.length c.emergencyQueue).filter
              (fun v => v.direction = d)) := by
    intro d
    have h1 := congrArg (List.map (fun qs : List (List Vehicle) => qs.getD d.toNat [])) hq
    simp only [List.map_map, Function.comp_def] at h1
    unfold TrafficController.processEmergencyQueue
    show List.map (fun x : Intersection => x.vehicleQueues.getD d.toNat []) _ = _
    rw [h1]
    apply List.map_congr_left
    intro x hx
    have := addAll_getQueue x
      ((popOrder c.emergencyQueue.length c.emergencyQueue).map (fun v => (v, now)))
      (h4 x hx) d
    rw [hfst] at this
    exact this
  refine ⟨⟨popOrder c.emergencyQueue.length c.emergencyQueue, hperm, hlane⟩, ?_, ?_⟩
  · have h1 := congrArg (List.map (fun qs : List (List Vehicle) =>
      qs.foldl (fun total queue => total + (queue.length : Int)) 0)) hq
    simp only [List.map_map, Function.comp_def] at h1
    unfold TrafficController.processEmergencyQueue
    show List.map (fun x : Intersection => x.vehicleQueues.foldl
      (fun total queue => total + (queue.length : Int)) 0) _ = _
    rw [h1]
    apply List.map_congr_left
    intro x hx
    have := addAll_total
      ((popOrder c.emergencyQueue.length c.emergencyQueue).map (fun v => (v, now))) x (h4 x hx)
    rw [List.length_map, hperm.length_eq] at this
    exact this
  · intro v
    have h1 := congrArg (List.map (fun q : List Vehicle => q.count v)) (hlane v.direction)
    simp only [List.map_map, Function.comp_def] at h1
    rw [h1]
    apply List.map_congr_left
    intro x _
    rw [List.count_append, List.count_filter (by simp), hperm.count_eq]

/-- Instance of the appended-vehicles theorem: A was admitted to the
intersection and then handed to `handleEmergencyVehicle`; afterwards lane
NORTH holds A twice. -/
theorem C29_pending_vehicles_appended_witness :
    controllerAdmittedA.emergencyActive = true ∧
    (∀ x ∈ controllerAdmittedA.intersections, x.vehicleQueues.length = 4) ∧
    controllerAdmittedA.emergencyQueue = [vehicleA] ∧
    controllerAdmittedA.intersections.map (fun x => x.getQueue .NORTH) = [[vehicleA]] ∧
    (controllerAdmittedA.processEmergencyQueue 2).intersections.map
        (fun x => x.getQueue .NORTH) = [[vehicleA, vehicleA]] ∧
    (controllerAdmittedA.processEmergencyQueue 2).intersections.map
        (fun x => (x.getQueue vehicleA.direction).count vehicleA) = [2] ∧
    (controllerAdmittedA.processEmergencyQueue 2).intersections.map
        (fun x => x.getTotalVehicleCount) = [2] :=
  ⟨by decide, by decide, by decide, by decide, by decide,
    ((C29_pending_vehicles_appended controllerAdmittedA 2 (by decide) (by decide)).2.2
      vehicleA).trans (by decide),
    (C29_pending_vehicles_appended controllerAdmittedA 2 (by decide)
      (by decide)).2.1.trans (by decide)⟩


end Traffic
